import Mathlib

/-!
# MTBMPI: Master-Task-Blackboard coordination framework

A shallow embedding of the control plane of the framework (namespace `mtbmpi` of the
C++ sources) together with machine-checked statements about it.

Conventions of the embedding

* A C++ enumeration is embedded as its underlying integer (`State`, `MsgTags`), so that
  `static_cast` between `int` and the enumeration is the identity, exactly as in the
  sources, and values outside the enumerators remain representable.
* `std::string` is a list of characters and `std::vector<T>` is a list.
* A member function becomes a function of the object; a `const` member function returns
  only its result (the object is the same afterwards), a mutating one returns the new
  object as well.
* What a role does to the outside world (messages sent and received, hooks of the derived
  master, adapter calls, log lines) is recorded, oldest first, in a `trace` of `Event`s.
* A call that does not return normally ends in a `Failure`: a C++ exception, a wait that
  never ends, or undefined behaviour.
-/

namespace mtbmpi

/-! ## State.h -/

/-- The enumeration `State`, as its underlying integer value. -/
abbrev State := Int

abbrev State_Created : State := 0
abbrev State_Initialized : State := 1
abbrev State_Running : State := 2
abbrev State_Completed : State := 3
abbrev State_Paused : State := 4
abbrev State_Terminated : State := 5
abbrev State_Error : State := 6
abbrev State_Unknown : State := 9

def IsCreated (s : State) : Bool := s == State_Created
def IsInitialized (s : State) : Bool := s == State_Initialized
def IsRunning (s : State) : Bool := s == State_Running
def IsCompleted (s : State) : Bool := s == State_Completed
def IsPaused (s : State) : Bool := s == State_Paused
def IsTerminated (s : State) : Bool := s == State_Terminated
def IsError (s : State) : Bool := s == State_Error
def IsUnknown (s : State) : Bool := s == State_Unknown

/-- Text of a state, `AsString` of State.cpp. -/
def AsString (state : State) : String :=
  if state = State_Created then "Created"
  else if state = State_Initialized then "Initialized"
  else if state = State_Running then "Running"
  else if state = State_Completed then "Completed"
  else if state = State_Paused then "Paused"
  else if state = State_Terminated then "Terminated"
  else if state = State_Error then "Error"
  else "Unknown"

/-! ## MsgTags.h -/

/-- The enumeration `MsgTags`, as its underlying integer value. -/
abbrev MsgTags := Int

abbrev Tag_FIRST : MsgTags := 101
abbrev Tag_State : MsgTags := 102
abbrev Tag_TaskResults : MsgTags := 103
abbrev Tag_LogMessage : MsgTags := 104
abbrev Tag_ErrorMessage : MsgTags := 105
abbrev Tag_BlackboardID : MsgTags := 106
abbrev Tag_ControllerID : MsgTags := 107
abbrev Tag_InitializeTask : MsgTags := 108
abbrev Tag_StartTask : MsgTags := 109
abbrev Tag_RequestStopTask : MsgTags := 110
abbrev Tag_RequestPauseTask : MsgTags := 111
abbrev Tag_RequestResumeTask : MsgTags := 112
abbrev Tag_RequestCmdLineArgs : MsgTags := 113
abbrev Tag_RequestStop : MsgTags := 114
abbrev Tag_CmdLineArgs : MsgTags := 115
abbrev Tag_RequestConfig : MsgTags := 116
abbrev Tag_Configuration : MsgTags := 117
abbrev Tag_StopBlackboard : MsgTags := 118
abbrev Tag_Confirmation : MsgTags := 119
abbrev Tag_Data : MsgTags := 120
abbrev Tag_Unknown : MsgTags := 121
abbrev Tag_LAST : MsgTags := 122

/-- The wildcard tag of the transport (its value is fixed by the MPI library; it is no
enumerator of `MsgTags`). -/
abbrev MPI_ANY_TAG : Int := -1

/-- Is the message tag valid? (the overload for the enumeration) -/
def IsMsgTagValid (tag : MsgTags) : Bool := decide (tag > Tag_FIRST) && decide (tag < Tag_LAST)

/-- Is the message tag value valid? (the overload for `int`: the limits are cast to `int`) -/
def IsMsgTagValid_int (tag : Int) : Bool :=
  decide (tag > (Tag_FIRST : Int)) && decide (tag < (Tag_LAST : Int))

/-! ## Outcomes of calls -/

/-- Ways in which a call fails to return normally. -/
inductive Failure where
  /-- a C++ exception propagates out of the call -/
  | thrown (what : String)
  /-- the call waits for ever (blocking transport call or endless loop) -/
  | hangs
  /-- the behaviour is undefined in C++ (out-of-range access, null dereference) -/
  | undefined
  deriving DecidableEq, Repr

/-- A call that may fail to return. -/
abbrev Run (α : Type) := Except Failure α

/-! ## Tracker.h, Tracker.cpp -/

/-- The tracker: one state per work task, zero-based. -/
structure Tracker where
  taskStateArray : List State
  deriving DecidableEq, Repr

namespace Tracker

/-- Constructor `Tracker (int numTasks)`: `assign (numTasks, State_Unknown)`. A negative
count converts to an enormous `size_type` and `assign` throws. -/
def new (numTasks : Int) : Run Tracker :=
  if 0 ≤ numTasks then
    .ok { taskStateArray := List.replicate numTasks.toNat State_Unknown }
  else
    .error (.thrown "std::length_error")

/-- Number of tasks tracked. -/
def Size (t : Tracker) : Nat := t.taskStateArray.length

/-- Unchecked read `taskStateArray[index]`; `none` stands for the out-of-range read. -/
def GetState (t : Tracker) (index : Nat) : Option State := t.taskStateArray[index]?

/-- Set the state at a zero-based index; returns the old state, throws on a bad index. -/
def SetState (t : Tracker) (index : Nat) (newState : State) : Run (State × Tracker) :=
  if h : index < t.taskStateArray.length then
    let oldState := t.taskStateArray[index]
    .ok (oldState, { taskStateArray := t.taskStateArray.set index newState })
  else
    .error (.thrown "mtbmpi::Tracker: invalid index to state array")

/-- The loop of `AreAllCreated`: runs while elements remain and the flag is still set. -/
def AreAllCreated.loop : List State → Bool → Bool
  | [], created => created
  | s :: rest, created =>
    if created then AreAllCreated.loop rest (created && IsCreated s) else created

/-- True if all tasks are created. -/
def AreAllCreated (t : Tracker) : Bool := AreAllCreated.loop t.taskStateArray true

/-- The loop of `AreAllInitialized`. -/
def AreAllInitialized.loop : List State → Bool → Bool
  | [], allInit => allInit
  | s :: rest, allInit =>
    if allInit then AreAllInitialized.loop rest (allInit && IsInitialized s) else allInit

/-- True if all tasks are initialized. -/
def AreAllInitialized (t : Tracker) : Bool := AreAllInitialized.loop t.taskStateArray true

/-- The loop of `AreAllStopped`. -/
def AreAllStopped.loop : List State → Bool → Bool
  | [], stopped => stopped
  | s :: rest, stopped =>
    if stopped then
      AreAllStopped.loop rest
        (stopped && (IsCompleted s || IsTerminated s || IsError s || IsUnknown s))
    else stopped

/-- True if all tasks are stopped. -/
def AreAllStopped (t : Tracker) : Bool := AreAllStopped.loop t.taskStateArray true

end Tracker

/-! ## UtilitiesMPI.h, UtilitiesMPI.cpp -/

/-- A `std::string`: a sequence of `char`. -/
abbrev StdString := List Char

/-- A `std::vector<std::string>`. -/
abbrev StrVec := List StdString

abbrev NULL_CHAR : Char := Char.ofNat 0
abbrev BLANK_CHAR : Char := ' '
abbrev NL_CHAR : Char := '\n'

/-- The loop of `JoinStrings`: the separator goes in front of an element whenever the
result is not empty and the separator is not NUL. -/
def JoinStrings.loop : StrVec → Char → StdString → StdString
  | [], _, str => str
  | x :: rest, separator, str =>
    JoinStrings.loop rest separator
      ((if !str.isEmpty && separator != NULL_CHAR then str ++ [separator] else str) ++ x)

/-- Joins all strings of a vector, separated by a character, onto `str`; returns the new
`str` and its length. -/
def JoinStrings (str : StdString) (strArray : StrVec) (separator : Char) : StdString × Nat :=
  let r := JoinStrings.loop strArray separator str
  (r, r.length)

/-- Converts a number to its decimal text, `ToString` of UtilitiesMPI.h. -/
def ToString (value : Int) : String := toString value

/-! ## Transport (MPI), as far as the sources rely on it -/

/-- Content of a message: integers (`MPI::INT`) or characters/bytes (`MPI::CHAR`,
`MPI::BYTE`, `MPI::PACKED`). A zero-byte message has the empty list. -/
inductive Payload where
  | ints (xs : List Int)
  | chars (cs : List Char)
  deriving DecidableEq, Repr

/-- A message announced by `Probe`: the status (source, tag) and the content a matching
`Recv` will deliver. -/
structure Message where
  source : Int
  tag : MsgTags
  payload : Payload
  deriving DecidableEq, Repr

/-- The five hooks a derived master implements (`Master::Actions...`). -/
inductive Hook where
  | BeforeTasks | AtInitTasks | BeforeTasksStart | WhileActive | AfterTasks
  deriving DecidableEq, Repr

/-- The five operations of a task adapter (`TaskAdapterBase`). -/
inductive AdapterOp where
  | InitializeTask | StartTask | StopTask | PauseTask | ResumeTask
  deriving DecidableEq, Repr

/-- What a role does to the outside world. Blocking point-to-point sends and receives are
taken to complete (the peer is alive); they are recorded when they are made. -/
inductive Event where
  /-- a hook of the derived master is run -/
  | hook (h : Hook)
  /-- `Log().Message (msg)` -/
  | log (msg : String)
  /-- `Log().Message (msg, taskIDstr)` -/
  | logTagged (msg : String) (taskIDstr : String)
  /-- `comm.Send` or `comm.Isend` of a message to `dest` -/
  | send (dest : Int) (tag : MsgTags) (payload : Payload)
  /-- `comm.Recv` of a message from `source` -/
  | recv (source : Int) (tag : MsgTags)
  /-- `Tracker::SetState (index, newState)` is called -/
  | setState (index : Nat) (newState : State)
  /-- an operation of the task adapter is called -/
  | adapter (op : AdapterOp)
  /-- `pTaskAdapter.reset ()`: the adapter is discarded -/
  | adapterReset
  | timerStart
  | timerStop
  | sleep
  deriving DecidableEq, Repr

/-! ## CommStrings.h, CommStrings.cpp -/

/-- What CommStrings takes from the MPI library and from the build. -/
structure MpiEnv where
  /-- `MPI::CHAR.Pack_size (n, comm) - n`: bytes a packed buffer may need beyond its data
  (zero when packing is plain byte concatenation) -/
  packOverhead : Nat
  /-- whether `CommStrings_DO_ERROR_CHECKS` is defined for this build -/
  doErrorChecks : Bool

/-- The packed data delimiter. -/
abbrev lineDelimiter : Char := NL_CHAR

/-- Maximum size of a line expected by `Receive`. -/
abbrev maxLineLength : Nat := 2048

/-- `TBuffer`: data and size. -/
structure TBuffer where
  first : List Char
  second : Nat
  deriving DecidableEq, Repr

/-- A message handed to the transport by a send. -/
structure Posted where
  dest : Int
  tag : MsgTags
  payload : List Char
  deriving DecidableEq, Repr

/-- The channel object. Sizes and counts are natural numbers: data whose size does not fit
an `int` is outside the embedding. -/
structure CommStrings where
  idParent : Int
  /-- outstanding send requests, as the messages they post -/
  requests : List Posted
  /-- asynchronous send buffers -/
  asyncBuffers : List TBuffer
  /-- number of sends -/
  sendCount : Nat
  deriving DecidableEq, Repr

namespace CommStrings

/-- Constructor: one empty buffer per process of the communicator, no sends yet. -/
def new (parentID : Int) (commSize : Nat) : CommStrings :=
  { idParent := parentID, requests := [],
    asyncBuffers := List.replicate commSize { first := [], second := 0 }, sendCount := 0 }

/-- Appends the delimiter to every line (in the caller's vector) and sums the sizes. -/
def PrepareData : StrVec → StrVec × Nat
  | [] => ([], 0)
  | s :: rest =>
    let line := s ++ [lineDelimiter]
    let r := PrepareData rest
    (line :: r.1, line.length + r.2)

/-- `MPI::CHAR.Pack`: copies `inbuf` into `outbuf` at `position` and advances the position;
`none` when the data does not fit (an MPI error). -/
def Pack (inbuf : List Char) (outbuf : List Char) (position : Nat) : Option (List Char × Nat) :=
  if position + inbuf.length ≤ outbuf.length then
    some (outbuf.take position ++ inbuf ++ outbuf.drop (position + inbuf.length),
      position + inbuf.length)
  else none

/-- The packing loop of `PackData`. -/
def PackData.loop (env : MpiEnv) : StrVec → List Char → Nat → Run (List Char × Nat)
  | [], bufferData, position => .ok (bufferData, position)
  | s :: rest, bufferData, position =>
    match Pack s bufferData position with
    | none => .error (.thrown "MPI::CHAR.Pack")
    | some (bufferData', position') =>
      if env.doErrorChecks && position' == 0 then
        .error (.thrown "MPI::CHAR.Pack error msg")
      else PackData.loop env rest bufferData' position'

/-- Packs the lines into a fresh buffer of `Pack_size (numCharsInArray)` NUL bytes; returns
the buffer and the position reached. -/
def PackData (env : MpiEnv) (strVec : StrVec) (numCharsInArray : Nat) : Run (TBuffer × Nat) :=
  let sizePacked := numCharsInArray + env.packOverhead
  match PackData.loop env strVec (List.replicate sizePacked NULL_CHAR) 0 with
  | .error e => .error e
  | .ok (bufferData, position) => .ok ({ first := bufferData, second := sizePacked }, position)

/-- What `Isend` leaves behind: the channel, the caller's vector (it is changed in place)
and the message posted. -/
structure IsendResult where
  channel : CommStrings
  strVec : StrVec
  posted : Posted
  deriving DecidableEq, Repr

/-- Sends the string array to the destination process, asynchronously. The buffer is kept
in slot `asyncBuffers[sendCount]`; indexing past the end of the array is undefined. -/
def Isend (env : MpiEnv) (self : CommStrings) (destinationID : Int) (msgTag : MsgTags)
    (strVec : StrVec) : Run IsendResult :=
  let prepared := PrepareData strVec
  if self.sendCount < self.asyncBuffers.length then
    match PackData env prepared.1 prepared.2 with
    | .error e => .error e
    | .ok (buffer, _) =>
      let newRequest : Posted :=
        { dest := destinationID, tag := msgTag, payload := buffer.first.take buffer.second }
      .ok { channel :=
              { self with
                asyncBuffers := self.asyncBuffers.set self.sendCount buffer
                requests := self.requests ++ [newRequest]
                sendCount := self.sendCount + 1 }
            strVec := prepared.1
            posted := newRequest }
  else .error .undefined

/-- The unpack loop of `Receive`. `packed` is what is left of the received buffer
(`posPacked < sizePacked` exactly when it is not empty), `bufUnpacked` holds the characters
unpacked since the last reset, so that `posUnpacked` is its length and the line committed
is `bufUnpacked` itself; the character just unpacked sits at `posUnpacked`. -/
def Receive.loop : List Char → List Char → StrVec → StrVec
  | [], _, strVec => strVec
  | c :: packed, bufUnpacked, strVec =>
    if bufUnpacked.length < maxLineLength then
      let atEnd := packed.isEmpty || bufUnpacked.length == maxLineLength
      if c == lineDelimiter || atEnd then
        let line := bufUnpacked
        Receive.loop packed [] (if !line.isEmpty then strVec ++ [line] else strVec)
      else
        Receive.loop packed (bufUnpacked ++ [c]) strVec
    else strVec

/-- Receives the string array: `buffer` is the content of the message that `Probe` found
for the source and tag; returns `strVec` with the received lines appended. With an invalid
tag nothing is received. -/
def Receive (msgTag : MsgTags) (buffer : List Char) (strVec : StrVec) : StrVec :=
  if !IsMsgTagValid msgTag then strVec
  else if buffer.length > 0 then Receive.loop buffer [] strVec
  else strVec

/-- Waits for all sends: the requests are cleared, buffers and send count stay. -/
def WaitAll (self : CommStrings) : CommStrings :=
  if !self.requests.isEmpty then { self with requests := [] } else self

end CommStrings

/-! ## Controller.h, Controller.cpp -/

/-- The controller (rank 0). The hooks of the derived master are opaque to the framework:
they are recorded in the trace and taken not to touch the controller. -/
structure Controller where
  /-- rank of the first work task -/
  idFirstTask : Int
  /-- `parent.GetBlackboardID ()` -/
  idBlackboard : Int
  /-- `parent.GetArgs ()`: program name and arguments -/
  argv : StrVec
  pTracker : Tracker
  /-- `GetConfiguration ().GetArgs ()` -/
  pConfig : StrVec
  /-- cached blackboard state -/
  stateBB : State
  trace : List Event
  deriving DecidableEq, Repr

namespace Controller

/-- Appends an event to the trace. -/
def emit (c : Controller) (e : Event) : Controller := { c with trace := c.trace ++ [e] }

/-- Constructor; the configuration holds the arguments after the program name. -/
def new (blackBoardID : Int) (numTasks : Int) (firstTaskID : Int) (argv : StrVec) :
    Run Controller :=
  match Tracker.new numTasks with
  | .error e => .error e
  | .ok tracker =>
    .ok { idFirstTask := firstTaskID, idBlackboard := blackBoardID, argv := argv,
          pTracker := tracker, pConfig := argv.drop 1, stateBB := State_Unknown, trace := [] }

/-- Sets the cached blackboard state. -/
def SetBlackboardState (c : Controller) (newState : State) : Controller :=
  { c with stateBB := newState }

/-- The numbered argument lines of `LogCmdLineArgs`, from index `i` on. -/
def LogCmdLineArgs.lines : StrVec → Nat → String
  | [], _ => ""
  | a :: rest, i =>
    toString i ++ ": " ++ String.mk a ++ String.mk [NL_CHAR] ++ LogCmdLineArgs.lines rest (i + 1)

/-- Writes the command-line arguments to the log. -/
def LogCmdLineArgs (c : Controller) : Controller :=
  c.emit (.log ("Command-line arguments: " ++
    (if c.argv.length > 1 then String.mk [NL_CHAR] ++ LogCmdLineArgs.lines (c.argv.drop 1) 1
     else "none")))

/-- Sends the zero-byte message `tag` to every work task `idFirstTask + taskNum`,
`taskNum` from 0 below the tracker size. -/
def broadcast (c : Controller) (tag : MsgTags) : Controller :=
  (List.range c.pTracker.Size).foldl
    (fun c taskNum => c.emit (.send (c.idFirstTask + taskNum) tag (.chars []))) c

/-- Starts the timer, runs the hook and sends `Tag_InitializeTask` to every work task, then
waits for the sends. -/
def InitializeAllTasks (c : Controller) : Controller :=
  ((c.emit .timerStart).emit (.hook .AtInitTasks)).broadcast Tag_InitializeTask

/-- Runs the hook and sends `Tag_StartTask` to every work task, then waits for the sends. -/
def StartAllTasks (c : Controller) : Controller :=
  (c.emit (.hook .BeforeTasksStart)).broadcast Tag_StartTask

/-- The loop of `StopAllTasks`: the iterator walks the state array (`iter` is what is left
of it) while `taskNum` counts; the state looked at is `GetState (taskNum)`. -/
def StopAllTasks.loop : List State → Nat → Controller → Run Controller
  | [], _, c => .ok c
  | _ :: iter, taskNum, c =>
    match c.pTracker.GetState taskNum with
    | none => .error .undefined
    | some s =>
      StopAllTasks.loop iter (taskNum + 1)
        (if s != State_Completed && s != State_Terminated && s != State_Error then
          c.emit (.send (c.idFirstTask + taskNum) Tag_RequestStopTask (.chars []))
        else c)

/-- Asks every task that is not completed, terminated or in error to stop; returns whether
all tasks are stopped. -/
def StopAllTasks (c : Controller) : Run (Bool × Controller) :=
  match StopAllTasks.loop c.pTracker.taskStateArray 0
      (c.emit (.log "Controller stopping all tasks.")) with
  | .error e => .error e
  | .ok c' => .ok (c'.pTracker.AreAllStopped, c')

/-- Stops the blackboard unless its cached state is already completed. -/
def StopBlackboard (c : Controller) : Controller :=
  if c.stateBB != State_Completed then
    let c1 := c.emit (.send c.idBlackboard Tag_StopBlackboard (.chars []))
    let c2 := c1.emit (.recv c1.idBlackboard Tag_Confirmation)
    let c3 := { c2 with stateBB := State_Completed }
    c3.emit .sleep
  else c

/-- Returns when rank 0 can stop safely. Nothing changes the tracker while the loop
sleeps, so the loop ends at once or never. -/
def WaitUntilCanStop (c : Controller) : Run Controller :=
  if !c.pTracker.AreAllStopped then .error .hangs
  else if c.stateBB != State_Completed then .ok (StopBlackboard c)
  else .ok c

/-- Receives the state message and records the state of the task named in it. The index
handed to the tracker is the `int` difference converted to `size_type` (64 bits). -/
def SetTaskState (c : Controller) (status : Message) : Run Controller :=
  match status.payload with
  | .ints (taskID :: taskState :: _) =>
    let c1 := c.emit (.recv status.source Tag_State)
    if taskID ≥ 0 then
      let index := ((taskID - c1.idFirstTask) % 2 ^ 64).toNat
      let c2 := c1.emit (.setState index taskState)
      match c2.pTracker.SetState index taskState with
      | .error e => .error e
      | .ok (_, tracker) => .ok { c2 with pTracker := tracker }
    else .ok c1
  | _ => .error .undefined

/-- Handler of `Tag_State`. -/
def DoActionState (c : Controller) (status : Message) : Run Controller :=
  if status.source = c.idBlackboard then .ok c
  else if status.source ≥ c.idFirstTask then SetTaskState c status
  else .ok c

/-- Handler of `Tag_RequestStop`. -/
def DoActionRequestStop (c : Controller) (status : Message) : Run Controller :=
  let c1 := c.emit (.log "Controller: received stop request.")
  let c2 := c1.emit (.recv status.source Tag_RequestStop)
  match StopAllTasks c2 with
  | .error e => .error e
  | .ok (allStopped, c3) =>
    let c4 := c3.emit (.log (if allStopped then "Controller: all tasks stopped."
                             else "Controller: stop all tasks failed."))
    .ok (StopBlackboard c4)

/-- Handler of `Tag_RequestCmdLineArgs`. -/
def DoActionRequestCmdLineArgs (c : Controller) (status : Message) : Controller :=
  let c1 := c.emit (.recv status.source Tag_RequestCmdLineArgs)
  let buffer := (JoinStrings [] c1.pConfig NL_CHAR).1
  c1.emit (.send status.source Tag_CmdLineArgs (.chars buffer))

/-- Handler of `Tag_RequestConfig`. -/
def DoActionRequestConfig (c : Controller) (status : Message) : Controller :=
  c.emit (.recv status.source Tag_RequestConfig)

/-- The aggregate state flags of `Activate`. -/
structure Flags where
  tasksAreCreated : Bool
  tasksAreInitialized : Bool
  tasksAreStarted : Bool
  requestedInitAll : Bool
  deriving DecidableEq, Repr

/-- First part of a turn of the event loop: check states, initialize and start tasks, and
run the while-active hook. -/
def Activate.checkStates (c : Controller) (f : Flags) : Controller × Flags :=
  let tasksAreCreated :=
    if !f.tasksAreCreated then c.pTracker.AreAllCreated else f.tasksAreCreated
  let tasksAreInitialized :=
    if tasksAreCreated && !f.tasksAreInitialized then c.pTracker.AreAllInitialized
    else f.tasksAreInitialized
  let doInit := !f.requestedInitAll && (tasksAreCreated && !tasksAreInitialized)
  let c1 := if doInit then InitializeAllTasks c else c
  let requestedInitAll := if doInit then true else f.requestedInitAll
  let doStart := tasksAreInitialized && !f.tasksAreStarted
  let c2 := if doStart then StartAllTasks c1 else c1
  let tasksAreStarted := if doStart then true else f.tasksAreStarted
  let tasksAreStopped := c2.pTracker.AreAllStopped
  let c3 := if tasksAreStarted && !tasksAreStopped then c2.emit (.hook .WhileActive) else c2
  (c3, { tasksAreCreated := tasksAreCreated, tasksAreInitialized := tasksAreInitialized,
         tasksAreStarted := tasksAreStarted, requestedInitAll := requestedInitAll })

/-- The switch on the tag of the probed message. -/
def Activate.dispatch (c : Controller) (status : Message) : Run Controller :=
  if status.tag = Tag_State then DoActionState c status
  else if status.tag = Tag_RequestStop then DoActionRequestStop c status
  else if status.tag = Tag_RequestCmdLineArgs then .ok (DoActionRequestCmdLineArgs c status)
  else if status.tag = Tag_RequestConfig then .ok (DoActionRequestConfig c status)
  else .ok c

/-- What the loop does once all tasks are stopped, up to `listenForMsgs = false`. The
reading of the timer that ends the elapsed-time line is not part of the embedding. -/
def Activate.finish (c : Controller) : Controller :=
  let c1 := c.emit (.hook .AfterTasks)
  let c2 := c1.emit (.log "Controller: all tasks are stopped.")
  let c3 := c2.emit .timerStop
  let c4 := c3.emit (.log "Elapsed time for all tasks (seconds): ")
  StopBlackboard c4

/-- The event loop of `Activate`. `probes` lists what the successive calls of `Probe`
announce (any source, any tag); a message that a handler does not receive stays pending and
may be announced again. When nothing more is announced, `Probe` waits for ever. -/
def Activate.loop : List Message → Controller → Flags → Run Controller
  | [], _, _ => .error .hangs
  | status :: probes, c, f =>
    let cf := Activate.checkStates c f
    match Activate.dispatch cf.1 status with
    | .error e => .error e
    | .ok c1 =>
      if c1.pTracker.AreAllStopped then
        .ok ((Activate.finish c1).emit (.log "Controller stopped."))
      else Activate.loop probes c1 cf.2

/-- Starts the main loop of the controller: logs the arguments, runs the before-tasks hook
and handles messages until all tasks are stopped. -/
def Activate (c : Controller) (probes : List Message) : Run Controller :=
  let c1 := (LogCmdLineArgs c).emit (.hook .BeforeTasks)
  Activate.loop probes c1
    { tasksAreCreated := c1.pTracker.AreAllCreated, tasksAreInitialized := false,
      tasksAreStarted := false, requestedInitAll := false }

end Controller

/-! ## TaskAdapterBase.h, Task.h, Task.cpp -/

/-- The application's work task: each operation returns the new state of the task (and
leaves the adapter in a new state of its own, of type `σ`). -/
structure TaskAdapter (σ : Type) where
  InitializeTask : σ → State × σ
  StartTask : σ → State × σ
  StopTask : σ → State × σ
  PauseTask : σ → State × σ
  ResumeTask : σ → State × σ

/-- The actions of a task. -/
inductive ActionNeeded where
  | ActionInitialize | ActionStart | ActionStop | ActionPause | ActionResume
  | ActionAcceptData | NoAction
  deriving DecidableEq, Repr

/-- A worker (rank 2 and above), with its adapter in state `σ`. -/
structure Task (σ : Type) where
  /-- `GetID ()`: the rank of the task -/
  id : Int
  idController : Int
  /-- text of the tracker index, one-based -/
  idStr : String
  state : State
  action : ActionNeeded
  /-- message buffer for `Tag_State`: `bufferState[0]` is the id -/
  bufferState0 : Int
  /-- `bufferState[1]` is the state -/
  bufferState1 : Int
  /-- the actual task; `none` after `reset ()` -/
  pTaskAdapter : Option σ
  trace : List Event

namespace Task

variable {σ : Type}

/-- Appends an event to the trace. -/
def emit (t : Task σ) (e : Event) : Task σ := { t with trace := t.trace ++ [e] }

/-- Sends the buffer `[id, state]` to the controller with tag `Tag_State`. -/
def SendStateToController (t : Task σ) : Task σ :=
  let t1 := { t with bufferState1 := t.state }
  t1.emit (.send t1.idController Tag_State (.ints [t1.bufferState0, t1.bufferState1]))

/-- Sets the task state and publishes it. -/
def SetState (t : Task σ) (newState : State) : Task σ :=
  SendStateToController { t with state := newState }

/-- Logs the state of the task. -/
def LogState (t : Task σ) : Task σ :=
  t.emit (.log ("Tracker ID " ++ t.idStr ++ ": state = " ++ AsString t.state))

/-- Sends a message to the log file, tagged with the tracker id. -/
def SendMsgToLog (t : Task σ) (logMsg : String) : Task σ :=
  t.emit (.logTagged logMsg t.idStr)

/-- Constructor: the factory creates the adapter (`adapter`), then the state CREATED is
set and published. `bufferState[1]` is not initialised by the constructor; it is written
before it is first sent. -/
def new (firstTaskID : Int) (myID : Int) (controllerID : Int) (adapter : σ) : Task σ :=
  SetState
    { id := myID, idController := controllerID, idStr := ToString (myID - firstTaskID + 1),
      state := State_Unknown, action := .NoAction, bufferState0 := myID, bufferState1 := 0,
      pTaskAdapter := some adapter, trace := [] }
    State_Created

/-- Destructor: sets and publishes TERMINATED. -/
def destroy (t : Task σ) : Task σ := SetState t State_Terminated

/-- `comm.Recv (&bufferState, 2, MPI::INT, ...)`: the integers of the message overwrite the
front of the buffer; a message that does not fit two integers is a truncation error. -/
def recvBufferState (t : Task σ) (payload : Payload) : Run (Task σ) :=
  match payload with
  | .ints [] => .ok t
  | .chars [] => .ok t
  | .ints [a] => .ok { t with bufferState0 := a }
  | .ints [a, b] => .ok { t with bufferState0 := a, bufferState1 := b }
  | _ => .error (.thrown "MPI_ERR_TRUNCATE")

/-- Receives the probed message where the tag is handled and tells the action needed. -/
def ProcessMessage (t : Task σ) (status : Message) : Run (ActionNeeded × Task σ) :=
  if status.tag = Tag_InitializeTask then
    .ok (.ActionInitialize, t.emit (.recv t.idController Tag_InitializeTask))
  else if status.tag = Tag_StartTask then
    .ok (.ActionStart, t.emit (.recv t.idController Tag_StartTask))
  else if status.tag = Tag_RequestStopTask then
    .ok (.ActionStop, t.emit (.recv t.idController Tag_RequestStopTask))
  else if status.tag = Tag_RequestStop then
    .ok (.ActionStop, t.emit (.recv t.idController Tag_RequestStop))
  else if status.tag = Tag_RequestPauseTask then
    match recvBufferState t status.payload with
    | .error e => .error e
    | .ok t1 => .ok (.ActionPause, t1.emit (.recv t1.idController Tag_RequestPauseTask))
  else if status.tag = Tag_RequestResumeTask then
    match recvBufferState t status.payload with
    | .error e => .error e
    | .ok t1 => .ok (.ActionResume, t1.emit (.recv t1.idController Tag_RequestResumeTask))
  else if status.tag = Tag_Data then
    .ok (.ActionAcceptData, t)
  else .ok (.NoAction, t)

/-- Calls an operation of the adapter; using the adapter after `reset ()` is undefined. -/
def callAdapter (t : Task σ) (op : AdapterOp) (f : σ → State × σ) : Run (State × Task σ) :=
  match t.pTaskAdapter with
  | none => .error .undefined
  | some a => .ok ((f a).1, { t.emit (.adapter op) with pTaskAdapter := some (f a).2 })

def DoActionInitialize (A : TaskAdapter σ) (t : Task σ) : Run (Task σ) :=
  if IsError t.state then .ok (LogState t)
  else
    match callAdapter t .InitializeTask A.InitializeTask with
    | .error e => .error e
    | .ok (s, t1) => .ok (LogState (SetState t1 s))

def DoActionStart (A : TaskAdapter σ) (t : Task σ) : Run (Task σ) :=
  if IsError t.state then .ok (LogState t)
  else if !IsInitialized t.state then
    .ok (LogState (SetState (SendMsgToLog t "initialization failed") State_Error))
  else
    match callAdapter t .StartTask A.StartTask with
    | .error e => .error e
    | .ok (s, t1) => .ok (LogState (SetState t1 s))

/-- The loop of `DoActionStop` that discards remaining messages: ten checks, `count` from
0; `iprobe count` tells whether the check finds a message from the controller. -/
def DoActionStop.drain (iprobe : Nat → Bool) : Nat → Nat → Task σ → Task σ
  | 0, _, t => t
  | checks + 1, count, t =>
    DoActionStop.drain iprobe checks (count + 1)
      (if iprobe count then t.emit (.recv t.idController MPI_ANY_TAG)
       else t.emit .sleep)

def DoActionStop (A : TaskAdapter σ) (iprobe : Nat → Bool) (t : Task σ) : Run (Task σ) :=
  match callAdapter t .StopTask A.StopTask with
  | .error e => .error e
  | .ok (s, t1) =>
    let t2 := SetState t1 s
    let t3 :=
      if !IsCompleted t2.state && !IsTerminated t2.state then
        SetState ({ t2 with pTaskAdapter := none }.emit .adapterReset) State_Terminated
      else { t2 with action := .NoAction }
    .ok (DoActionStop.drain iprobe 10 0 (LogState t3))

def DoActionPause (A : TaskAdapter σ) (t : Task σ) : Run (Task σ) :=
  match callAdapter t .PauseTask A.PauseTask with
  | .error e => .error e
  | .ok (s, t1) =>
    let t2 := LogState (SetState t1 s)
    .ok (if IsPaused t2.state then { t2 with action := .NoAction } else t2)

def DoActionResume (A : TaskAdapter σ) (t : Task σ) : Run (Task σ) :=
  if IsError t.state then .ok (LogState t)
  else
    match callAdapter t .ResumeTask A.ResumeTask with
    | .error e => .error e
    | .ok (s, t1) =>
      let t2 := LogState (SetState t1 s)
      .ok (if IsRunning t2.state || IsCompleted t2.state then { t2 with action := .NoAction }
           else t2)

def DoActionAcceptData (t : Task σ) : Task σ :=
  if IsError t.state then LogState t else t

/-- One turn of the loop of `Activate`: process the probed message, then act. -/
def Activate.turn (A : TaskAdapter σ) (iprobe : Nat → Bool) (t : Task σ) (status : Message) :
    Run (Task σ) :=
  match ProcessMessage t status with
  | .error e => .error e
  | .ok (action, t0) =>
    let t1 := { t0 with action := action }
    match action with
    | .ActionInitialize => DoActionInitialize A t1
    | .ActionStart => DoActionStart A t1
    | .ActionStop => DoActionStop A iprobe t1
    | .ActionPause => DoActionPause A t1
    | .ActionResume => DoActionResume A t1
    | .ActionAcceptData => .ok (DoActionAcceptData t1)
    | .NoAction => .ok t1

/-- Runs the event loop of the task: handles messages until the state is completed,
terminated or error. `probes` lists what the successive calls of `Probe` on the controller
rank announce; when nothing more is announced, `Probe` waits for ever. -/
def Activate (A : TaskAdapter σ) (iprobe : Nat → Bool) : List Message → Task σ → Run (Task σ)
  | [], t =>
    if IsCompleted t.state || IsTerminated t.state || IsError t.state then .ok t
    else .error .hangs
  | status :: probes, t =>
    if IsCompleted t.state || IsTerminated t.state || IsError t.state then .ok t
    else
      match Activate.turn A iprobe t status with
      | .error e => .error e
      | .ok t1 => Activate A iprobe probes t1

end Task

/-- The lines of a vector, each followed by the delimiter, one after the other: the bytes
a send of the vector puts on the wire when packing is byte concatenation. -/
def packedLines : StrVec → List Char
  | [] => []
  | s :: rest => s ++ lineDelimiter :: packedLines rest

/-! ## LogMessage.h, LogMessage.cpp

The functions that replace their argument `msg` return the new value of `msg`; `stamp` is
what `MakeDateTimeStamp ()` returns when the function runs. The overloads for a `TaskID`
and for an id string carry the suffixes `_TaskID` and `_IDStr`. -/

/-- Makes a date and time stamp prefix for a message (UtilitiesMPI.h). -/
def DateTimeStampPrefix (stamp : StdString) : StdString := stamp ++ ": ".toList

namespace LogMessage

abbrev warningPrefix : StdString := "Warning: ".toList
abbrev errorPrefix : StdString := "ERROR: ".toList

/-- `FormatTaskID (std::string &)`: the new value of `taskIDstr`. -/
def FormatTaskID (taskIDstr : StdString) : StdString :=
  "Tracker ID ".toList ++ taskIDstr ++ ": ".toList

/-- `FormatTaskID (TaskID const &)`. -/
def FormatTaskID_TaskID (taskID : Int) : StdString := FormatTaskID (ToString taskID).toList

/-- `MakePrefix (TaskID const &)`; the `int` it hands on converts to a `TaskID`. -/
def MakePrefix_TaskID (stamp : StdString) (taskID : Int) : StdString :=
  DateTimeStampPrefix stamp ++ FormatTaskID_TaskID taskID

/-- `MakePrefix (std::string const &)`. -/
def MakePrefix_IDStr (stamp : StdString) (taskIDstr : StdString) : StdString :=
  DateTimeStampPrefix stamp ++ FormatTaskID taskIDstr

def Message (stamp : StdString) (msg : StdString) : StdString :=
  let text := DateTimeStampPrefix stamp ++ msg
  text

def Message_TaskID (stamp : StdString) (msg : StdString) (taskID : Int) : StdString :=
  let text := MakePrefix_TaskID stamp taskID ++ msg
  text

def Message_IDStr (stamp : StdString) (msg : StdString) (taskIDstr : StdString) : StdString :=
  let text := MakePrefix_IDStr stamp taskIDstr ++ msg
  text

/-- `Warning (std::string & msg)`: the text is built; `msg` is not assigned. -/
def Warning (stamp : StdString) (msg : StdString) : StdString :=
  let _text := DateTimeStampPrefix stamp ++ warningPrefix ++ msg
  msg

def Warning_TaskID (stamp : StdString) (msg : StdString) (taskID : Int) : StdString :=
  let text := MakePrefix_TaskID stamp taskID ++ warningPrefix ++ msg
  text

def Warning_IDStr (stamp : StdString) (msg : StdString) (taskIDstr : StdString) : StdString :=
  let text := MakePrefix_IDStr stamp taskIDstr ++ warningPrefix ++ msg
  text

def Error (stamp : StdString) (msg : StdString) : StdString :=
  let text := DateTimeStampPrefix stamp ++ errorPrefix ++ msg
  text

def Error_TaskID (stamp : StdString) (msg : StdString) (taskID : Int) : StdString :=
  let text := MakePrefix_TaskID stamp taskID ++ errorPrefix ++ msg
  text

def Error_IDStr (stamp : StdString) (msg : StdString) (taskIDstr : StdString) : StdString :=
  let text := MakePrefix_IDStr stamp taskIDstr ++ errorPrefix ++ msg
  text

end LogMessage

/-! ## LoggerMPI.h, LoggerMPI.cpp -/

/-- The logger of a rank: it knows the rank of the blackboard. -/
structure LoggerMPI where
  idBlackboard : Int
  deriving DecidableEq, Repr

namespace LoggerMPI

/-- Sends the text to the blackboard; the result is the message handed to the transport. -/
def SendMsg (self : LoggerMPI) (msg : StdString) (tag : MsgTags) : Posted :=
  { dest := self.idBlackboard, tag := tag, payload := msg }

def Message (self : LoggerMPI) (stamp msg : StdString) : Posted :=
  self.SendMsg (LogMessage.Message stamp msg) Tag_LogMessage

def Message_TaskID (self : LoggerMPI) (stamp msg : StdString) (taskID : Int) : Posted :=
  self.SendMsg (LogMessage.Message_TaskID stamp msg taskID) Tag_LogMessage

def Message_IDStr (self : LoggerMPI) (stamp msg taskIDstr : StdString) : Posted :=
  self.SendMsg (LogMessage.Message_IDStr stamp msg taskIDstr) Tag_LogMessage

def Warning (self : LoggerMPI) (stamp msg : StdString) : Posted :=
  self.SendMsg (LogMessage.Warning stamp msg) Tag_LogMessage

def Warning_TaskID (self : LoggerMPI) (stamp msg : StdString) (taskID : Int) : Posted :=
  self.SendMsg (LogMessage.Warning_TaskID stamp msg taskID) Tag_LogMessage

def Warning_IDStr (self : LoggerMPI) (stamp msg taskIDstr : StdString) : Posted :=
  self.SendMsg (LogMessage.Warning_IDStr stamp msg taskIDstr) Tag_LogMessage

def Error (self : LoggerMPI) (stamp msg : StdString) : Posted :=
  self.SendMsg (LogMessage.Error stamp msg) Tag_ErrorMessage

def Error_TaskID (self : LoggerMPI) (stamp msg : StdString) (taskID : Int) : Posted :=
  self.SendMsg (LogMessage.Error_TaskID stamp msg taskID) Tag_ErrorMessage

def Error_IDStr (self : LoggerMPI) (stamp msg taskIDstr : StdString) : Posted :=
  self.SendMsg (LogMessage.Error_IDStr stamp msg taskIDstr) Tag_ErrorMessage

end LoggerMPI

/-- A message handed to the transport by rank `source`, as the destination finds it. -/
def Posted.delivered (p : Posted) (source : Int) : Message :=
  { source := source, tag := p.tag, payload := .chars p.payload }

/-! ## RunLogMgr.h, RunLogMgr.cpp -/

/-- The run log: `written` lists the texts put on the file stream, oldest first; each is
followed by a line end in the file. -/
structure RunLogMgr where
  fileName : StdString
  isOpen : Bool
  written : List StdString
  deriving DecidableEq, Repr

namespace RunLogMgr

/-- Constructor: opens (and truncates) the file; `opens` tells whether that succeeds. -/
def new (logFileName : StdString) (opens : Bool) : Run RunLogMgr :=
  if opens then .ok { fileName := logFileName, isOpen := true, written := [] }
  else .error (.thrown "Error: could not open the file")

/-- Writes a message to the log file. -/
def Write (self : RunLogMgr) (msg : StdString) : RunLogMgr :=
  if self.isOpen then { self with written := self.written ++ [msg] } else self

end RunLogMgr

/-! ## Blackboard.h, Blackboard.cpp, OutputMgr.cpp -/

/-- The blackboard (rank 1). `pending` is the transport's side of the loop: the messages
waiting for this rank, in the order in which `Probe` with any source and any tag announces
them; `Probe` announces the first and leaves it pending, `Recv` takes the first message of
the source and tag asked for. `HaveOutputMgr` tells whether `pOutputMgr` is set; the
manager is then the one of OutputMgr.cpp. -/
structure Blackboard where
  id : Int
  idController : Int
  HaveOutputMgr : Bool
  pRunLogMgr : RunLogMgr
  pending : List Message
  trace : List Event
  deriving DecidableEq, Repr

namespace Blackboard

/-- Appends an event to the trace. -/
def emit (bb : Blackboard) (e : Event) : Blackboard := { bb with trace := bb.trace ++ [e] }

/-- `comm.Recv (..., source, tag)`: takes the first pending message of that source and
tag. -/
def Recv (bb : Blackboard) (source : Int) (tag : Int) : Blackboard :=
  { bb with
    pending := bb.pending.eraseP (fun m => m.source == source && m.tag == tag)
    trace := bb.trace ++ [.recv source tag] }

/-- Writes the stamped text to the run log. -/
def Message (stamp : StdString) (bb : Blackboard) (msg : StdString) : Blackboard :=
  let text := DateTimeStampPrefix stamp ++ msg
  { bb with pRunLogMgr := bb.pRunLogMgr.Write text }

/-- `OutputMgr::HandleOutputMessage`: a receive, so that the message is marked as
received. -/
def HandleOutputMessage (bb : Blackboard) (status : mtbmpi.Message) : Blackboard :=
  bb.Recv status.source status.tag

/-- Receives the text of a log message and writes it. A payload of integers read as
characters is outside the embedding. -/
def ReceiveAndLogMessage (bb : Blackboard) (status : mtbmpi.Message) : Run Blackboard :=
  match status.payload with
  | .ints _ => .error .undefined
  | .chars received =>
    let count := received.length
    let buffer := received ++ [NULL_CHAR]
    let bb1 := bb.Recv status.source status.tag
    let msg := buffer.take count
    .ok { bb1 with pRunLogMgr := bb1.pRunLogMgr.Write msg }

/-- The text `ReceiveAndLogError` writes for the characters received: the buffer holds them
followed by a NUL; the prefix goes in front unless the buffer starts with it. -/
def ReceiveAndLogError.text (received : List Char) : StdString :=
  let count := received.length
  let buffer := received ++ [NULL_CHAR]
  let errorPrefix : StdString := "Error: ".toList
  let msg : StdString := if buffer.take errorPrefix.length != errorPrefix then errorPrefix else []
  msg ++ buffer.take count

/-- Receives the text of an error message and writes it with the error prefix. -/
def ReceiveAndLogError (bb : Blackboard) (status : mtbmpi.Message) : Run Blackboard :=
  match status.payload with
  | .ints _ => .error .undefined
  | .chars received =>
    let bb1 := bb.Recv status.source status.tag
    .ok { bb1 with pRunLogMgr := bb1.pRunLogMgr.Write (ReceiveAndLogError.text received) }

/-- One turn of the loop of `Activate` for the message `Probe` announced; the Boolean tells
whether `Activate` returns. -/
def Activate.turn (stamp : StdString) (bb : Blackboard) (status : mtbmpi.Message) :
    Run (Blackboard × Bool) :=
  if status.tag = Tag_TaskResults then
    .ok (if bb.HaveOutputMgr then bb.HandleOutputMessage status else bb, false)
  else if status.tag = Tag_LogMessage then
    match bb.ReceiveAndLogMessage status with
    | .error e => .error e
    | .ok bb1 => .ok (bb1, false)
  else if status.tag = Tag_ErrorMessage then
    match bb.ReceiveAndLogError status with
    | .error e => .error e
    | .ok bb1 => .ok (bb1, false)
  else if status.tag = Tag_StopBlackboard ∨ status.tag = Tag_RequestStop
      ∨ status.tag = Tag_RequestStopTask then
    let bb1 := bb.Recv status.source status.tag
    let bb2 := Message stamp bb1 "Blackboard stopped.\n".toList
    let bb3 := bb2.emit (.send bb2.idController Tag_Confirmation (.chars []))
    .ok (bb3, true)
  else .ok (bb, false)

/-- How a bounded run of a loop ends: the call returned, or the loop is still running when
the turns allowed are used up. -/
inductive LoopEnd where
  | returned (bb : Blackboard)
  | running (bb : Blackboard)
  deriving DecidableEq, Repr

/-- The loop of `Activate`, for at most `turns` turns. With nothing pending, `Probe` waits
for ever. `stamp` is the stamp of the moment the blackboard stops. -/
def Activate (stamp : StdString) : Nat → Blackboard → Run LoopEnd
  | 0, bb => .ok (.running bb)
  | turns + 1, bb =>
    match bb.pending with
    | [] => .error .hangs
    | status :: _ =>
      match Blackboard.Activate.turn stamp bb status with
      | .error e => .error e
      | .ok (bb1, true) => .ok (.returned bb1)
      | .ok (bb1, false) => Activate stamp turns bb1

end Blackboard

/-- `versionMTBMPI.ProductNameShort ()` (versionMTBMPI.cpp). -/
def ProductNameShort : StdString := "MTBMPI".toList

/-- `std::replace (s.begin (), s.end (), oldValue, newValue)`. -/
def replaceChar (s : StdString) (oldValue newValue : Char) : StdString :=
  s.map (fun ch => if ch == oldValue then newValue else ch)

/-- Builds a log file name of the form `logFileNameRoot.DATE.TIME.txt`; `date` and `time`
are what `DateStr ()` ("yyyy/mm/dd") and `TimeStr ()` ("hh:mm:ss") return. -/
def Blackboard.CreateLogFileName (defaultLogFileName : StdString) (date time : StdString)
    (logFileNameRoot : StdString) : StdString :=
  let dot := '.'
  let dash := '-'
  let colon := ':'
  let slash := '/'
  let date := replaceChar date slash dash
  let time := replaceChar time colon dash
  let name := if logFileNameRoot.isEmpty then defaultLogFileName else logFileNameRoot
  name ++ [dot] ++ date ++ [dot] ++ time ++ ".txt".toList

/-- Constructor of the blackboard: names and opens the run log. `useOutputMgr` tells
whether an output manager is handed in, `opens` whether the log file can be opened and
`pending` is what the transport holds for this rank. -/
def Blackboard.new (date time : StdString) (opens : Bool) (pending : List mtbmpi.Message)
    (myID : Int) (controllerID : Int) (useOutputMgr : Bool) (logFileNameRoot : StdString) :
    Run Blackboard :=
  let defaultLogFileName := ProductNameShort ++ "_Log".toList
  let logFileName :=
    if logFileNameRoot.isEmpty then
      Blackboard.CreateLogFileName defaultLogFileName date time logFileNameRoot
    else logFileNameRoot
  match RunLogMgr.new logFileName opens with
  | .error e => .error e
  | .ok pRunLogMgr =>
    .ok { id := myID, idController := controllerID, HaveOutputMgr := useOutputMgr,
          pRunLogMgr := pRunLogMgr, pending := pending, trace := [] }

/-! ## tests/Test_CommStrings.cpp -/

/-- The loop of `SendStrings`: one `Isend` of the same vector per destination `taskID`,
with `Tag_Data`; `posted` collects the messages posted. -/
def SendStrings.loop (env : MpiEnv) :
    List Int → CommStrings → StrVec → List Posted → Run (CommStrings × StrVec × List Posted)
  | [], commStrings, strVec, posted => .ok (commStrings, strVec, posted)
  | taskID :: more, commStrings, strVec, posted =>
    match commStrings.Isend env taskID Tag_Data strVec with
    | .error e => .error e
    | .ok r => SendStrings.loop env more r.channel r.strVec (posted ++ [r.posted])

/-- `SendStrings` of the test, for the vector `strVec` and a communicator of `commSize`
processes: sends to the ranks 1 .. `commSize - 1`, then waits for all sends. -/
def SendStrings (env : MpiEnv) (myRank : Int) (commSize : Nat) (strVec : StrVec) :
    Run (CommStrings × List Posted) :=
  match SendStrings.loop env ((List.range (commSize - 1)).map (fun i => ((i + 1 : Nat) : Int)))
      (CommStrings.new myRank commSize) strVec [] with
  | .error e => .error e
  | .ok (commStrings, _, posted) => .ok (commStrings.WaitAll, posted)

/-- `ReceiveStrings` of the test: receives with `Tag_Data` into an empty vector. -/
def ReceiveStrings (buffer : List Char) : StrVec := CommStrings.Receive Tag_Data buffer []

/-! ## Master.h, Master.cpp, MpiCollectiveCB.h -/

/-- Rank of the controller task. -/
abbrev ID_Master : Int := 0
/-- Rank of the blackboard task. -/
abbrev ID_Blackboard : Int := 1
/-- Rank of the first work task. -/
abbrev ID_FirstTask : Int := 2

/-- What a process does besides the work of its role. -/
inductive MasterEvent where
  /-- text put on the message stream `os` -/
  | print (text : String)
  /-- `pMpiCollectiveCB->SetID (id)` followed by `pMpiCollectiveCB->Initialize ()` -/
  | cbInitialize (id : Int)
  /-- `pMpiCollectiveCB->Finalize ()` -/
  | cbFinalize
  /-- `std::make_shared<mtbmpi::Task> (*this, taskName, id, ...)` -/
  | makeTask (taskName : String) (id : Int)
  /-- `MPI::Finalize ()` -/
  | mpiFinalize
  deriving DecidableEq, Repr

/-- What a process is started with and what it meets while its role runs. The transport
is taken to start (`MPI::Init` and the duplication of the communicator succeed). -/
structure ProcessEnv (σ : Type) where
  /-- `comm.Get_rank ()` -/
  rank : Int
  /-- `comm.Get_size ()` -/
  size : Int
  /-- the command line: program name and arguments -/
  argv : StrVec
  /-- what `SetErrorHandler` returns: empty when the handler throws exceptions -/
  msgErrorHandler : String
  /-- `DateStr ()` when the blackboard names its log file -/
  date : StdString
  /-- `TimeStr ()` at that moment -/
  time : StdString
  /-- whether the log file can be opened -/
  logOpens : Bool
  /-- the stamp of the moment the blackboard stops -/
  stamp : StdString
  /-- the messages that reach this process while its role runs, in the order in which
  `Probe` announces them -/
  inbox : List Message
  /-- the work task of the application -/
  adapter : TaskAdapter σ
  /-- `pTaskFactory->Create (task, name, cmdLineArgs)` -/
  Create : String → StrVec → σ
  /-- what the checks of `DoActionStop` find -/
  iprobe : Nat → Bool

/-- The master object of a process. -/
structure Master (σ : Type) where
  /-- `GetID ()`: the rank of the process -/
  id : Int
  numProc : Int
  minNumProc : Int
  /-- whether `pMpiCollectiveCB` holds an object -/
  haveCollectiveCB : Bool
  /-- `GetArgs ()` -/
  argv : StrVec
  pController : Option Controller
  pBlackboard : Option Blackboard
  pTask : Option (Task σ)
  /-- the task that `pTask.reset ()` destroyed, as its destructor left it -/
  taskDestroyed : Option (Task σ)
  trace : List MasterEvent

namespace Master

variable {σ : Type}

/-- Appends an event to the trace. -/
def emit (m : Master σ) (e : MasterEvent) : Master σ := { m with trace := m.trace ++ [e] }

def GetNumberOfProcesses (m : Master σ) : Int := m.numProc
def GetMinimumNumberOfProcesses (m : Master σ) : Int := m.minNumProc
def GetControllerID : Int := ID_Master
def GetBlackboardID : Int := ID_Blackboard
def GetFirstTaskID : Int := ID_FirstTask

/-- Check if the master is initialized. -/
def IsInitialized (m : Master σ) : Bool :=
  if m.id = ID_Master then m.pController.isSome
  else if m.id = ID_Blackboard then m.pBlackboard.isSome
  else m.pTask.isSome

/-- Creates the task of rank `id`, runs it until it is stopped or completed and destroys
it. -/
def MakeTask (env : ProcessEnv σ) (m : Master σ) (id : Int) : Run (Master σ) :=
  let taskName := "Task " ++ ToString id
  let m1 := m.emit (.makeTask taskName id)
  let pTask := Task.new GetFirstTaskID id GetControllerID (env.Create taskName m1.argv)
  match Task.Activate env.adapter env.iprobe env.inbox pTask with
  | .error e => .error e
  | .ok task => .ok { m1 with pTask := none, taskDestroyed := some task.destroy }

/-- Creates the role of the process: controller, blackboard or task. The blackboard and
the task are run here; the controller is activated by the derived master. The loop of the
blackboard is given one turn more than there are messages for it: a turn either takes a
message from the queue or leaves the blackboard as it was, so that a loop still running
after these turns runs for ever. -/
def CreateProcesses (env : ProcessEnv σ) (m : Master σ) (logFileName : StdString)
    (useOutputMgr : Bool) : Run (Master σ) :=
  if m.id = ID_Master then
    match Controller.new GetBlackboardID (m.numProc - GetFirstTaskID) GetFirstTaskID m.argv with
    | .error e => .error e
    | .ok pController =>
      .ok { m with pController := some (pController.SetBlackboardState State_Running) }
  else if m.id = ID_Blackboard then
    match Blackboard.new env.date env.time env.logOpens env.inbox m.id GetControllerID
        useOutputMgr logFileName with
    | .error e => .error e
    | .ok pBlackboard =>
      match Blackboard.Activate env.stamp (pBlackboard.pending.length + 1) pBlackboard with
      | .error e => .error e
      | .ok (.returned bb) => .ok { m with pBlackboard := some bb }
      | .ok (.running _) => .error .hangs
  else MakeTask env m m.id

/-- Constructor of the master, run by every process of the job. -/
def new (env : ProcessEnv σ) (useMinNumProc : Int) (useOutputMgr : Bool)
    (haveCollectiveCB : Bool) (logFileName : StdString) : Run (Master σ) :=
  let m0 : Master σ :=
    { id := env.rank, numProc := env.size,
      minNumProc := max (GetFirstTaskID + 1) useMinNumProc,
      haveCollectiveCB := haveCollectiveCB, argv := env.argv,
      pController := none, pBlackboard := none, pTask := none, taskDestroyed := none,
      trace := [] }
  let m1 :=
    if !env.msgErrorHandler.isEmpty then
      m0.emit (.print (String.mk ProductNameShort ++ ": " ++ env.msgErrorHandler))
    else m0
  if m1.numProc < m1.GetMinimumNumberOfProcesses then
    .ok (if m1.id = ID_Master then
      m1.emit (.print ("\n    You requested " ++ ToString m1.numProc ++ " processes."
        ++ "\n    The minimum number of MPI processes is "
        ++ ToString m1.GetMinimumNumberOfProcesses ++ "\n"))
    else m1)
  else
    let m2 :=
      if m1.id > ID_Blackboard && m1.haveCollectiveCB then m1.emit (.cbInitialize m1.id)
      else m1
    CreateProcesses env m2 logFileName useOutputMgr

/-- Waits until the controller is stopped. -/
def WaitUntilStopped (m : Master σ) : Run (Master σ) :=
  if m.id = ID_Master then
    match m.pController with
    | some c =>
      match c.WaitUntilCanStop with
      | .error e => .error e
      | .ok c1 => .ok { m with pController := some c1 }
    | none => .ok m
  else .ok m

/-- Destructor of the master; the transport is initialized since the constructor. -/
def destroy (m : Master σ) : Run (Master σ) :=
  match (if m.id = GetControllerID then m.WaitUntilStopped else .ok m) with
  | .error e => .error e
  | .ok m1 =>
    let m2 :=
      if m1.id > ID_Blackboard && m1.haveCollectiveCB then m1.emit .cbFinalize else m1
    .ok (m2.emit .mpiFinalize)

end Master

/-! ## Vocabulary of the statements -/

/-- Is the event a send of `Tag_StopBlackboard`? -/
def Event.isStopBlackboardSend : Event → Bool
  | .send _ tag _ => tag == Tag_StopBlackboard
  | _ => false

/-- Is the event a receive of `Tag_Confirmation`? -/
def Event.isConfirmationRecv : Event → Bool
  | .recv _ tag => tag == Tag_Confirmation
  | _ => false

/-- Is the tag one of the three on which the blackboard stops? -/
def IsBlackboardStopTag (tag : Int) : Prop :=
  tag = Tag_StopBlackboard ∨ tag = Tag_RequestStop ∨ tag = Tag_RequestStopTask

instance (tag : Int) : Decidable (IsBlackboardStopTag tag) := by
  unfold IsBlackboardStopTag; infer_instance

/-- Is the event a send of `Tag_Confirmation`? -/
def Event.isConfirmationSend : Event → Bool
  | .send _ tag _ => tag == Tag_Confirmation
  | _ => false

/-- The places from which the controller asks for the blackboard to be shut down. -/
inductive ShutdownCall where
  /-- the handler of `Tag_RequestStop`, for the probed message `status` -/
  | requestStopHandler (status : Message)
  /-- the end of the loop of `Activate`, once all tasks are stopped -/
  | activateExit
  /-- `WaitUntilCanStop`, called when the master is destroyed -/
  | waitUntilCanStop
  deriving DecidableEq, Repr

/-- Makes one shutdown call on the controller. -/
def ShutdownCall.run (c : Controller) : ShutdownCall → Run Controller
  | .requestStopHandler status => Controller.DoActionRequestStop c status
  | .activateExit => .ok (Controller.Activate.finish c)
  | .waitUntilCanStop => Controller.WaitUntilCanStop c

/-- Makes a sequence of shutdown calls, one after the other. -/
def ShutdownCall.runAll : List ShutdownCall → Controller → Run Controller
  | [], c => .ok c
  | call :: calls, c =>
    match call.run c with
    | .error e => .error e
    | .ok c1 => ShutdownCall.runAll calls c1

/-- The stop requests that the tracked states `states` of the tasks `taskNum`,
`taskNum + 1`, ... call for: one `Tag_RequestStopTask` to rank `idFirstTask + i` for each
task `i` whose state is none of COMPLETED, TERMINATED, ERROR. -/
def stopRequests (idFirstTask : Int) : List State → Nat → List Event
  | [], _ => []
  | s :: states, taskNum =>
    if s = State_Completed ∨ s = State_Terminated ∨ s = State_Error then
      stopRequests idFirstTask states (taskNum + 1)
    else
      .send (idFirstTask + taskNum) Tag_RequestStopTask (.chars [])
        :: stopRequests idFirstTask states (taskNum + 1)

/-- The content an event publishes, when it is the send of a state message. -/
def Event.published : Event → Option Payload
  | .send _ tag p => if tag = Tag_State then some p else none
  | _ => none

/-- The content of the state message published last in a trace, if any. -/
def lastPublished (trace : List Event) : Option Payload :=
  trace.foldl (fun last e => match e.published with | some p => some p | none => last) none

/-- The state published last is the current state of the task. -/
def Task.Published {σ : Type} (t : Task σ) : Prop :=
  ∃ b, lastPublished t.trace = some (.ints [b, t.state])

/-! ## Concrete adapters and runs used as examples -/

/-- A batch adapter without state of its own: initializes, completes on start, completes on
stop, pauses and resumes. -/
def batchAdapter : TaskAdapter Unit where
  InitializeTask := fun a => (State_Initialized, a)
  StartTask := fun a => (State_Completed, a)
  StopTask := fun a => (State_Completed, a)
  PauseTask := fun a => (State_Paused, a)
  ResumeTask := fun a => (State_Running, a)

/-- An adapter whose stop fails: `StopTask` returns ERROR. -/
def failingStopAdapter : TaskAdapter Unit where
  InitializeTask := fun a => (State_Initialized, a)
  StartTask := fun a => (State_Running, a)
  StopTask := fun a => (State_Error, a)
  PauseTask := fun a => (State_Paused, a)
  ResumeTask := fun a => (State_Running, a)

/-- The worker of rank 2 (first task rank 2, controller rank 0) right after construction. -/
def workerTwo : Task Unit := Task.new 2 2 0 ()

/-- The blackboard a bounded run of the loop ends with. -/
def Blackboard.LoopEnd.board : Blackboard.LoopEnd → Blackboard
  | .returned bb => bb
  | .running bb => bb

/-- A blackboard of rank 1 for the controller of rank 0, without output manager, its run
log open and empty, with the given messages pending. -/
def exampleBoard (pending : List Message) : Blackboard :=
  { id := 1, idController := 0, HaveOutputMgr := false,
    pRunLogMgr := ⟨"run.log".toList, true, []⟩, pending := pending, trace := [] }

/-- Is the event a send of `Tag_InitializeTask` or of `Tag_StartTask`? -/
def Event.isInitOrStartSend : Event → Bool
  | .send _ tag _ => tag == Tag_InitializeTask || tag == Tag_StartTask
  | _ => false

/-- The sends of a broadcast of the zero-byte message `tag` to `size` work tasks: one to
each rank `idFirstTask`, ..., `idFirstTask + size - 1`, in this order. -/
def broadcastSends (idFirstTask : Int) (size : Nat) (tag : MsgTags) : List Event :=
  (List.range size).map
    (fun (taskNum : Nat) => Event.send (idFirstTask + (taskNum : Int)) tag (.chars []))

/-- The controller and the flags at the head of the turn of the loop of `Activate` that
follows the turns for the messages `probes`, started with `c` and `f`; `none` when the
loop has ended before. -/
def Controller.Activate.headOfTurn :
    List Message → Controller → Controller.Flags → Option (Controller × Controller.Flags)
  | [], c, f => some (c, f)
  | status :: probes, c, f =>
    let cf := Controller.Activate.checkStates c f
    match Controller.Activate.dispatch cf.1 status with
    | .error _ => none
    | .ok c1 =>
      if c1.pTracker.AreAllStopped then none
      else Controller.Activate.headOfTurn probes c1 cf.2

/-- The controller and the flags with which `Activate` enters its loop. -/
def Controller.Activate.entry (c : Controller) : Controller × Controller.Flags :=
  let c1 := (Controller.LogCmdLineArgs c).emit (.hook .BeforeTasks)
  (c1, { tasksAreCreated := c1.pTracker.AreAllCreated, tasksAreInitialized := false,
         tasksAreStarted := false, requestedInitAll := false })

/-- The state an event publishes, when it is the send of a state message. -/
def Event.publishedState : Event → Option Int
  | .send _ tag (.ints [_, s]) => if tag = Tag_State then some s else none
  | _ => none

/-- The states published in a trace, oldest first. -/
def publishedStates (trace : List Event) : List Int := trace.filterMap Event.publishedState

/-- A process environment for the examples: no messages, a batch adapter, a log file
that opens. -/
def exampleEnv (rank size : Int) (inbox : List Message) : ProcessEnv Unit :=
  { rank := rank, size := size, argv := [['p']], msgErrorHandler := "",
    date := "2020/01/02".toList, time := "03:04:05".toList, logOpens := true,
    stamp := "2020-01-02_03-04-05".toList, inbox := inbox, adapter := batchAdapter,
    Create := fun _ _ => (), iprobe := fun _ => false }

/-- What the constructor of the master prints when the error handler of the transport
does not throw exceptions. -/
def handlerLine {σ : Type} (env : ProcessEnv σ) : List MasterEvent :=
  if env.msgErrorHandler.isEmpty then []
  else [.print (String.mk ProductNameShort ++ ": " ++ env.msgErrorHandler)]

/-- The diagnostic of the master for a job of `size` processes when at least `minimum`
are needed. -/
def diagnosticLine (size minimum : Int) : MasterEvent :=
  .print ("\n    You requested " ++ ToString size ++ " processes."
    ++ "\n    The minimum number of MPI processes is " ++ ToString minimum ++ "\n")

/-- The master object as the constructor has it before its role is created, with the
events `trace` behind it. -/
def masterBefore {σ : Type} (env : ProcessEnv σ) (useMinNumProc : Int)
    (haveCollectiveCB : Bool) (trace : List MasterEvent) : Master σ :=
  { id := env.rank, numProc := env.size,
    minNumProc := max (ID_FirstTask + 1) useMinNumProc,
    haveCollectiveCB := haveCollectiveCB, argv := env.argv,
    pController := none, pBlackboard := none, pTask := none, taskDestroyed := none,
    trace := trace }

/-- What holds of the controller and the flags at the head of every turn of the loop of
`Activate`, for `size` work tasks from rank `idFirstTask` on: the flags `requestedInitAll`
and `tasksAreStarted` tell exactly which broadcasts have been made. -/
def Controller.Activate.Steady (idFirstTask : Int) (size : Nat) (c : Controller)
    (f : Controller.Flags) : Prop :=
  c.idFirstTask = idFirstTask ∧ c.pTracker.Size = size ∧
  c.trace.filter Event.isInitOrStartSend
    = (if f.requestedInitAll then broadcastSends idFirstTask size Tag_InitializeTask else [])
      ++ (if f.tasksAreStarted then broadcastSends idFirstTask size Tag_StartTask else []) ∧
  (f.tasksAreInitialized = true → f.requestedInitAll = true) ∧
  f.tasksAreStarted = f.tasksAreInitialized ∧
  (f.tasksAreCreated = true → f.requestedInitAll = false → c.pTracker.AreAllCreated = true)

/-- A state that counts as stopped for the tracker. -/
def StoppedState (s : State) : Prop :=
  s = State_Unknown ∨ s = State_Completed ∨ s = State_Terminated ∨ s = State_Error

instance (s : State) : Decidable (StoppedState s) := by
  unfold StoppedState; infer_instance

/-! ## Tracker: lemmas -/

theorem areAllCreated_loop_false (l : List State) :
    Tracker.AreAllCreated.loop l false = false := by
  cases l <;> simp [Tracker.AreAllCreated.loop]

theorem areAllCreated_loop_true (l : List State) :
    Tracker.AreAllCreated.loop l true = true ↔ ∀ s ∈ l, s = State_Created := by
  induction l with
  | nil => simp [Tracker.AreAllCreated.loop]
  | cons a l ih =>
    by_cases ha : a = State_Created
    · simp [Tracker.AreAllCreated.loop, IsCreated, ha, ih]
    · have hb : (a == State_Created) = false := by simpa using ha
      simp [Tracker.AreAllCreated.loop, IsCreated, ha, hb, areAllCreated_loop_false]

theorem areAllInitialized_loop_false (l : List State) :
    Tracker.AreAllInitialized.loop l false = false := by
  cases l <;> simp [Tracker.AreAllInitialized.loop]

theorem areAllInitialized_loop_true (l : List State) :
    Tracker.AreAllInitialized.loop l true = true ↔ ∀ s ∈ l, s = State_Initialized := by
  induction l with
  | nil => simp [Tracker.AreAllInitialized.loop]
  | cons a l ih =>
    by_cases ha : a = State_Initialized
    · simp [Tracker.AreAllInitialized.loop, IsInitialized, ha, ih]
    · have hb : (a == State_Initialized) = false := by simpa using ha
      simp [Tracker.AreAllInitialized.loop, IsInitialized, ha, hb,
        areAllInitialized_loop_false]

theorem areAllStopped_loop_false (l : List State) :
    Tracker.AreAllStopped.loop l false = false := by
  cases l <;> simp [Tracker.AreAllStopped.loop]

theorem stoppedState_iff (s : State) :
    (IsCompleted s || IsTerminated s || IsError s || IsUnknown s) = true ↔ StoppedState s := by
  simp only [IsCompleted, IsTerminated, IsError, IsUnknown, StoppedState, Bool.or_eq_true,
    beq_iff_eq]
  tauto

theorem areAllStopped_loop_true (l : List State) :
    Tracker.AreAllStopped.loop l true = true ↔ ∀ s ∈ l, StoppedState s := by
  induction l with
  | nil => simp [Tracker.AreAllStopped.loop]
  | cons a l ih =>
    by_cases ha : StoppedState a
    · have hb := (stoppedState_iff a).mpr ha
      simp only [Tracker.AreAllStopped.loop, if_true, Bool.true_and, hb, ih,
        List.forall_mem_cons, ha, true_and]
    · have hb : (IsCompleted a || IsTerminated a || IsError a || IsUnknown a) = false := by
        rw [← Bool.not_eq_true]
        exact fun h => ha ((stoppedState_iff a).mp h)
      simp only [Tracker.AreAllStopped.loop, if_true, Bool.true_and, hb,
        areAllStopped_loop_false, List.forall_mem_cons, ha, false_and]
      simp

theorem areAllStopped_iff (t : Tracker) :
    t.AreAllStopped = true ↔ ∀ s ∈ t.taskStateArray, StoppedState s :=
  areAllStopped_loop_true t.taskStateArray

/-! ## Tracker: statements -/

/-- C2. The three aggregate queries of the tracker are folds over the state array:
`AreAllStopped` holds exactly when every slot is UNKNOWN, COMPLETED, TERMINATED or ERROR,
`AreAllCreated` exactly when every slot is CREATED and `AreAllInitialized` exactly when
every slot is INITIALIZED; all three hold on the empty tracker. They are `const` members:
each yields a Boolean and nothing else, so the tracker is the same after the call. -/
theorem tracker_aggregate_queries (t : Tracker) :
    (t.AreAllStopped = true ↔
      ∀ s ∈ t.taskStateArray,
        s = State_Unknown ∨ s = State_Completed ∨ s = State_Terminated ∨ s = State_Error) ∧
    (t.AreAllCreated = true ↔ ∀ s ∈ t.taskStateArray, s = State_Created) ∧
    (t.AreAllInitialized = true ↔ ∀ s ∈ t.taskStateArray, s = State_Initialized) ∧
    (Tracker.mk []).AreAllStopped = true ∧
    (Tracker.mk []).AreAllCreated = true ∧
    (Tracker.mk []).AreAllInitialized = true := by
  refine ⟨areAllStopped_iff t, areAllCreated_loop_true _, areAllInitialized_loop_true _,
    rfl, rfl, rfl⟩

/-- C3. A tracker constructed for `numTasks` tasks has that many slots, all UNKNOWN; on any
tracker, `SetState` at an index below the size returns the state held there before, leaves
the new state in that slot and changes neither another slot nor the size. -/
theorem tracker_setState_frame (numTasks : Int) (t : Tracker) (index : Nat) (newState : State)
    (hn : 0 ≤ numTasks) (h : index < t.Size) :
    (∃ t0, Tracker.new numTasks = .ok t0 ∧ (t0.Size : Int) = numTasks ∧
      ∀ i, i < t0.Size → t0.GetState i = some State_Unknown) ∧
    (∃ oldState t', t.SetState index newState = .ok (oldState, t') ∧
      t.GetState index = some oldState ∧
      t'.GetState index = some newState ∧
      (∀ j, j ≠ index → t'.GetState j = t.GetState j) ∧
      t'.Size = t.Size) := by
  constructor
  · refine ⟨⟨List.replicate numTasks.toNat State_Unknown⟩, by simp [Tracker.new, hn], ?_, ?_⟩
    · simp [Tracker.Size, Int.toNat_of_nonneg hn]
    · intro i hi
      simp only [Tracker.Size, List.length_replicate] at hi
      simp [Tracker.GetState, hi]
  · have h' : index < t.taskStateArray.length := h
    refine ⟨t.taskStateArray[index], ⟨t.taskStateArray.set index newState⟩,
      by simp [Tracker.SetState, h'], ?_, ?_, ?_, ?_⟩
    · simp [Tracker.GetState, h']
    · simp [Tracker.GetState, h']
    · intro j hj
      simp [Tracker.GetState, List.getElem?_set, Ne.symm hj]
    · simp [Tracker.Size]

/-- C3, at a concrete input: a tracker of three tasks, slot 1 set to RUNNING. -/
theorem tracker_setState_frame_witness :
    (∃ t0, Tracker.new 3 = .ok t0 ∧ (t0.Size : Int) = 3 ∧
      ∀ i, i < t0.Size → t0.GetState i = some State_Unknown) ∧
    (∃ oldState t',
      (Tracker.mk [State_Created, State_Initialized, State_Unknown]).SetState 1 State_Running
        = .ok (oldState, t') ∧
      (Tracker.mk [State_Created, State_Initialized, State_Unknown]).GetState 1
        = some oldState ∧
      t'.GetState 1 = some State_Running ∧
      (∀ j, j ≠ 1 → t'.GetState j
        = (Tracker.mk [State_Created, State_Initialized, State_Unknown]).GetState j) ∧
      t'.Size = (Tracker.mk [State_Created, State_Initialized, State_Unknown]).Size) :=
  tracker_setState_frame 3 (Tracker.mk [State_Created, State_Initialized, State_Unknown]) 1
    State_Running (by decide) (by decide)

/-! ## CommStrings: lemmas -/

theorem prepareData_fst (V : StrVec) :
    (CommStrings.PrepareData V).1 = V.map (fun s => s ++ [lineDelimiter]) := by
  induction V with
  | nil => rfl
  | cons s rest ih => simp [CommStrings.PrepareData, ih]

theorem prepareData_snd (V : StrVec) :
    (CommStrings.PrepareData V).2 = (packedLines V).length := by
  induction V with
  | nil => rfl
  | cons s rest ih =>
    simp only [CommStrings.PrepareData, packedLines, ih, List.length_append, List.length_cons,
      List.length_nil]
    omega

theorem pack_into_padding (s pre : List Char) (n : Nat) (h : s.length ≤ n) :
    CommStrings.Pack s (pre ++ List.replicate n NULL_CHAR) pre.length
      = some (pre ++ s ++ List.replicate (n - s.length) NULL_CHAR, pre.length + s.length) := by
  have hle : pre.length + s.length ≤ (pre ++ List.replicate n NULL_CHAR).length := by
    simp; omega
  simp only [CommStrings.Pack, hle, if_true, List.take_left, Option.some.injEq, Prod.mk.injEq,
    and_true]
  rw [List.drop_append_eq_append_drop]
  have h1 : pre.length + s.length - pre.length = s.length := by omega
  have h2 : List.drop (pre.length + s.length) pre = [] := by
    apply List.drop_eq_nil_of_le; omega
  simp [h1, h2]

theorem packData_loop_lines (env : MpiEnv) (V : StrVec) (pre : List Char) (n : Nat)
    (h : (packedLines V).length ≤ n) :
    CommStrings.PackData.loop env (V.map (fun s => s ++ [lineDelimiter]))
        (pre ++ List.replicate n NULL_CHAR) pre.length
      = .ok (pre ++ packedLines V ++ List.replicate (n - (packedLines V).length) NULL_CHAR,
          pre.length + (packedLines V).length) := by
  induction V generalizing pre n with
  | nil => simp [CommStrings.PackData.loop, packedLines]
  | cons s rest ih =>
    simp only [packedLines, List.length_append, List.length_cons] at h
    have hs : (s ++ [lineDelimiter]).length ≤ n := by simp; omega
    have hpos : (pre.length + (s ++ [lineDelimiter]).length == 0) = false := by
      simp
    simp only [List.map_cons, CommStrings.PackData.loop, pack_into_padding _ _ _ hs, hpos,
      Bool.and_false, Bool.false_eq_true, if_false]
    have hrest : (packedLines rest).length ≤ n - (s ++ [lineDelimiter]).length := by
      simp; omega
    have := ih (pre ++ (s ++ [lineDelimiter])) (n - (s ++ [lineDelimiter]).length) hrest
    simp only [List.length_append, List.append_assoc] at this ⊢
    rw [this]
    simp only [packedLines, List.length_append, List.length_cons, List.length_nil,
      List.singleton_append, List.append_assoc, List.length_singleton]
    have e1 : n - (s.length + (0 + 1)) - (packedLines rest).length
        = n - (s.length + ((packedLines rest).length + 1)) := by omega
    have e2 : pre.length + (s.length + (0 + 1)) + (packedLines rest).length
        = pre.length + (s.length + ((packedLines rest).length + 1)) := by omega
    rw [e1, e2]
    simp

theorem isend_posts_lines (env : MpiEnv) (ch : CommStrings) (dest : Int) (tag : MsgTags)
    (V : StrVec) (hpack : env.packOverhead = 0) (hslot : ch.sendCount < ch.asyncBuffers.length) :
    ∃ r, ch.Isend env dest tag V = .ok r ∧ r.posted.tag = tag ∧ r.posted.dest = dest ∧
      r.posted.payload = packedLines V ∧
      r.strVec = V.map (fun s => s ++ [lineDelimiter]) := by
  have hloop := packData_loop_lines env V [] (packedLines V).length (le_refl _)
  simp only [List.nil_append, List.length_nil, Nat.zero_add, Nat.sub_self,
    List.replicate_zero, List.append_nil] at hloop
  simp [CommStrings.Isend, CommStrings.PackData, hslot, hpack, prepareData_fst,
    prepareData_snd, hloop]

theorem receive_loop_line (s : List Char) (packed bufUnpacked : List Char) (strVec : StrVec)
    (hne : bufUnpacked ++ s ≠ []) (hlen : bufUnpacked.length + s.length < maxLineLength)
    (hnl : lineDelimiter ∉ s) :
    CommStrings.Receive.loop (s ++ lineDelimiter :: packed) bufUnpacked strVec
      = CommStrings.Receive.loop packed [] (strVec ++ [bufUnpacked ++ s]) := by
  induction s generalizing bufUnpacked with
  | nil =>
    simp only [List.append_nil, List.length_nil, Nat.add_zero] at hne hlen
    have hne' : bufUnpacked.isEmpty = false := by
      cases bufUnpacked with
      | nil => exact absurd rfl hne
      | cons _ _ => rfl
    simp [CommStrings.Receive.loop, hlen, hne']
  | cons c s ih =>
    simp only [List.length_cons] at hlen
    have hc : (c == lineDelimiter) = false := by
      simp only [beq_eq_false_iff_ne, ne_eq]
      intro hcd
      exact hnl (by simp [hcd])
    have hlt : bufUnpacked.length < maxLineLength := by omega
    have hne2 : (bufUnpacked.length == maxLineLength) = false := by
      simp only [beq_eq_false_iff_ne, ne_eq]; omega
    have hnl' : lineDelimiter ∉ s := fun hm => hnl (List.mem_cons_of_mem _ hm)
    have := ih (bufUnpacked ++ [c]) (by simp) (by simp; omega) hnl'
    simp only [List.cons_append, CommStrings.Receive.loop, hlt, if_true, hc, hne2,
      List.isEmpty_eq_true, List.append_eq_nil, Bool.or_false, Bool.false_or]
    simp only [List.append_assoc, List.singleton_append] at this
    simpa using this

theorem receive_loop_lines (V : StrVec) (strVec : StrVec)
    (hV : ∀ s ∈ V, s ≠ [] ∧ s.length < maxLineLength ∧ lineDelimiter ∉ s) :
    CommStrings.Receive.loop (packedLines V) [] strVec = strVec ++ V := by
  induction V generalizing strVec with
  | nil => simp [packedLines, CommStrings.Receive.loop]
  | cons s rest ih =>
    obtain ⟨hne, hlen, hnl⟩ := hV s (List.mem_cons_self _ _)
    have hrest : ∀ x ∈ rest, x ≠ [] ∧ x.length < maxLineLength ∧ lineDelimiter ∉ x :=
      fun x hx => hV x (List.mem_cons_of_mem _ hx)
    rw [packedLines, receive_loop_line s _ [] strVec (by simpa using hne) (by simpa using hlen)
      hnl, ih _ hrest]
    simp

/-! ## CommStrings: statements -/

/-- C1, as stated, fails on the code. A line that contains the delimiter comes back split
(the one line "a\nb", sent with the valid tag `Tag_Data`, is received as "a" and "b"), and
with a tag that is not valid (`Tag_LAST`) `Receive` returns without receiving anything,
although each line sent is non-empty and shorter than 2048 bytes. -/
theorem commStrings_roundtrip_counterexample :
    ((∀ s ∈ [['a', '\n', 'b']], s ≠ [] ∧ s.length < 2048) ∧
      ∃ r, (CommStrings.new 0 3).Isend ⟨0, true⟩ 1 Tag_Data [['a', '\n', 'b']] = .ok r ∧
        CommStrings.Receive r.posted.tag r.posted.payload [] = [['a'], ['b']] ∧
        CommStrings.Receive r.posted.tag r.posted.payload [] ≠ [['a', '\n', 'b']]) ∧
    ((∀ s ∈ [['a']], s ≠ [] ∧ s.length < 2048) ∧
      ∃ r, (CommStrings.new 0 3).Isend ⟨0, true⟩ 1 Tag_LAST [['a']] = .ok r ∧
        CommStrings.Receive r.posted.tag r.posted.payload [] = [] ∧
        CommStrings.Receive r.posted.tag r.posted.payload [] ≠ [['a']]) :=
  ⟨⟨by decide, _, rfl, by decide, by decide⟩, ⟨by decide, _, rfl, by decide, by decide⟩⟩

/-- C1, amended. Round trip of the packed-string channel: for every vector `V` of non-empty
strings that contain no delimiter and are shorter than 2048 bytes each, sent with a valid
message tag by an `Isend` that finds a buffer slot (send count below the number of slots),
packing being byte concatenation, the lines that `Receive` appends to an empty output
vector for the message posted are exactly `V`, in the same order. -/
theorem commStrings_roundtrip (env : MpiEnv) (ch : CommStrings) (dest : Int) (tag : MsgTags)
    (V : StrVec) (hpack : env.packOverhead = 0)
    (hslot : ch.sendCount < ch.asyncBuffers.length)
    (htag : IsMsgTagValid tag = true)
    (hV : ∀ s ∈ V, s ≠ [] ∧ s.length < 2048 ∧ lineDelimiter ∉ s) :
    ∃ r, ch.Isend env dest tag V = .ok r ∧
      CommStrings.Receive r.posted.tag r.posted.payload [] = V := by
  obtain ⟨r, hr, htg, -, hpay, -⟩ := isend_posts_lines env ch dest tag V hpack hslot
  refine ⟨r, hr, ?_⟩
  rw [htg, hpay]
  unfold CommStrings.Receive
  simp only [htag, Bool.not_true, Bool.false_eq_true, if_false]
  split
  · simpa using receive_loop_lines V [] hV
  · rename_i hlen
    cases V with
    | nil => rfl
    | cons s rest => simp [packedLines] at hlen

/-- C1, amended, at a concrete input: the three lines of the test program, sent with
`Tag_Data` on a fresh channel of three processes. -/
theorem commStrings_roundtrip_witness :
    ∃ r, (CommStrings.new 0 3).Isend ⟨0, true⟩ 1 Tag_Data
        ["line 1".toList, "line 2".toList, "last line".toList] = .ok r ∧
      CommStrings.Receive r.posted.tag r.posted.payload []
        = ["line 1".toList, "line 2".toList, "last line".toList] :=
  commStrings_roundtrip ⟨0, true⟩ (CommStrings.new 0 3) 1 Tag_Data
    ["line 1".toList, "line 2".toList, "last line".toList] rfl (by decide) (by decide)
    (by decide)

/-! ## Controller: lemmas -/

namespace Controller

@[simp] theorem emit_trace (c : Controller) (e : Event) : (c.emit e).trace = c.trace ++ [e] := rfl
@[simp] theorem emit_pTracker (c : Controller) (e : Event) : (c.emit e).pTracker = c.pTracker := rfl
@[simp] theorem emit_stateBB (c : Controller) (e : Event) : (c.emit e).stateBB = c.stateBB := rfl
@[simp] theorem emit_idFirstTask (c : Controller) (e : Event) :
    (c.emit e).idFirstTask = c.idFirstTask := rfl
@[simp] theorem emit_idBlackboard (c : Controller) (e : Event) :
    (c.emit e).idBlackboard = c.idBlackboard := rfl

theorem stopBlackboard_pTracker (c : Controller) : (StopBlackboard c).pTracker = c.pTracker := by
  unfold StopBlackboard; split <;> rfl

theorem stopBlackboard_stateBB (c : Controller) : (StopBlackboard c).stateBB = State_Completed := by
  unfold StopBlackboard
  split
  · rfl
  · rename_i h
    simpa using h

theorem stopBlackboard_idBlackboard (c : Controller) :
    (StopBlackboard c).idBlackboard = c.idBlackboard := by
  unfold StopBlackboard; split <;> rfl

theorem stopBlackboard_trace (c : Controller) :
    (StopBlackboard c).trace =
      if c.stateBB = State_Completed then c.trace
      else c.trace ++ [.send c.idBlackboard Tag_StopBlackboard (.chars []),
        .recv c.idBlackboard Tag_Confirmation, .sleep] := by
  unfold StopBlackboard
  by_cases h : c.stateBB = State_Completed
  · simp [h]
  · simp [h, emit]

theorem finish_pTracker (c : Controller) : (Activate.finish c).pTracker = c.pTracker := by
  simp [Activate.finish, stopBlackboard_pTracker]

theorem finish_stateBB (c : Controller) : (Activate.finish c).stateBB = State_Completed := by
  simp [Activate.finish, stopBlackboard_stateBB]

theorem activate_loop_exit (probes : List Message) (c : Controller) (f : Flags)
    (c' : Controller) (h : Activate.loop probes c f = .ok c') :
    c'.pTracker.AreAllStopped = true ∧ c'.stateBB = State_Completed := by
  induction probes generalizing c f with
  | nil => simp [Activate.loop] at h
  | cons status probes ih =>
    unfold Activate.loop at h
    simp only at h
    split at h
    · exact absurd h (by simp)
    · rename_i c1 _
      split at h
      · rename_i hs
        simp only [Except.ok.injEq] at h
        subst h
        simp [finish_pTracker, finish_stateBB, hs]
      · exact ih _ _ h

theorem stopAllTasks_loop_eq (iter : List State) (taskNum : Nat) (c : Controller)
    (h : c.pTracker.taskStateArray.drop taskNum = iter) :
    StopAllTasks.loop iter taskNum c
      = .ok { c with trace := c.trace ++ stopRequests c.idFirstTask iter taskNum } := by
  induction iter generalizing taskNum c with
  | nil => simp [StopAllTasks.loop, stopRequests]
  | cons s iter ih =>
    have hget : c.pTracker.GetState taskNum = some s := by
      have := congrArg (fun l => l[0]?) h
      simpa [Tracker.GetState, List.getElem?_drop] using this
    have hdrop : c.pTracker.taskStateArray.drop (taskNum + 1) = iter := by
      have := congrArg (List.drop 1) h
      simpa [List.drop_drop, Nat.add_comm] using this
    unfold StopAllTasks.loop
    simp only [hget]
    by_cases hs : s = State_Completed ∨ s = State_Terminated ∨ s = State_Error
    · have hb : (s != State_Completed && s != State_Terminated && s != State_Error) = false := by
        rcases hs with h1 | h1 | h1 <;> simp [h1]
      simp only [hb, Bool.false_eq_true, if_false]
      rw [ih _ _ hdrop]
      simp [stopRequests, hs]
    · have hb : (s != State_Completed && s != State_Terminated && s != State_Error) = true := by
        simp only [not_or] at hs
        simp [hs.1, hs.2.1, hs.2.2]
      simp only [hb, if_true]
      rw [ih _ _ (by simpa using hdrop)]
      simp [stopRequests, hs, emit]

theorem stopAllTasks_eq (c : Controller) :
    StopAllTasks c = .ok (c.pTracker.AreAllStopped,
      { c with trace := c.trace ++ Event.log "Controller stopping all tasks."
          :: stopRequests c.idFirstTask c.pTracker.taskStateArray 0 }) := by
  unfold StopAllTasks
  rw [stopAllTasks_loop_eq _ 0 _ (by simp)]
  simp [emit]

end Controller

theorem stopRequests_no_stopBlackboard (idFirstTask : Int) (states : List State) (taskNum : Nat) :
    (stopRequests idFirstTask states taskNum).countP Event.isStopBlackboardSend = 0 ∧
    (stopRequests idFirstTask states taskNum).countP Event.isConfirmationRecv = 0 := by
  induction states generalizing taskNum with
  | nil => simp [stopRequests]
  | cons s states ih =>
    unfold stopRequests
    split
    · exact ih _
    · simp [List.countP_cons, Event.isStopBlackboardSend, Event.isConfirmationRecv, ih]

theorem stopRequests_mem (idFirstTask : Int) (states : List State) (taskNum : Nat) (e : Event) :
    e ∈ stopRequests idFirstTask states taskNum ↔
      ∃ i s, states[i]? = some s ∧
        ¬(s = State_Completed ∨ s = State_Terminated ∨ s = State_Error) ∧
        e = .send (idFirstTask + ((taskNum + i : Nat) : Int)) Tag_RequestStopTask (.chars []) := by
  induction states generalizing taskNum with
  | nil => simp [stopRequests]
  | cons a states ih =>
    have step : (∃ i s, (a :: states)[i]? = some s ∧
          ¬(s = State_Completed ∨ s = State_Terminated ∨ s = State_Error) ∧
          e = .send (idFirstTask + ((taskNum + i : Nat) : Int)) Tag_RequestStopTask (.chars []))
        ↔ ((¬(a = State_Completed ∨ a = State_Terminated ∨ a = State_Error) ∧
            e = .send (idFirstTask + (taskNum : Int)) Tag_RequestStopTask (.chars [])) ∨
          ∃ i s, states[i]? = some s ∧
            ¬(s = State_Completed ∨ s = State_Terminated ∨ s = State_Error) ∧
            e = .send (idFirstTask + ((taskNum + 1 + i : Nat) : Int)) Tag_RequestStopTask
              (.chars [])) := by
      constructor
      · rintro ⟨i, s, hi, hs, he⟩
        cases i with
        | zero =>
          simp only [List.getElem?_cons_zero, Option.some.injEq] at hi
          subst hi
          exact Or.inl ⟨hs, by simpa using he⟩
        | succ j =>
          simp only [List.getElem?_cons_succ] at hi
          refine Or.inr ⟨j, s, hi, hs, ?_⟩
          rw [he]
          congr 2
          omega
      · rintro (⟨hs, he⟩ | ⟨j, s, hi, hs, he⟩)
        · exact ⟨0, a, by simp, hs, by simpa using he⟩
        · refine ⟨j + 1, s, by simpa using hi, hs, ?_⟩
          rw [he]
          congr 2
          omega
    rw [step]
    unfold stopRequests
    split
    · rename_i ha
      rw [ih]
      simp [ha]
    · rename_i ha
      rw [List.mem_cons, ih]
      simp [ha]

theorem stopRequests_length (idFirstTask : Int) (states : List State) (taskNum : Nat) :
    (stopRequests idFirstTask states taskNum).length
      = states.countP (fun s =>
          s != State_Completed && s != State_Terminated && s != State_Error) := by
  induction states generalizing taskNum with
  | nil => rfl
  | cons s states ih =>
    unfold stopRequests
    by_cases hs : s = State_Completed ∨ s = State_Terminated ∨ s = State_Error
    · have hb : (s != State_Completed && s != State_Terminated && s != State_Error) = false := by
        rcases hs with h1 | h1 | h1 <;> simp [h1]
      simp [hs, hb, ih, List.countP_cons]
    · have hb : (s != State_Completed && s != State_Terminated && s != State_Error) = true := by
        simp only [not_or] at hs
        simp [hs.1, hs.2.1, hs.2.2]
      simp [hs, hb, ih, List.countP_cons]

theorem setTaskState_cases (c : Controller) (status : Message) (rank st : Int) (rest : List Int)
    (hpay : status.payload = .ints (rank :: st :: rest)) :
    (rank < 0 →
      Controller.SetTaskState c status = .ok (c.emit (.recv status.source Tag_State))) ∧
    (0 ≤ rank → rank < c.idFirstTask → c.idFirstTask < 2 ^ 31 → c.pTracker.Size < 2 ^ 63 →
      Controller.SetTaskState c status
        = .error (.thrown "mtbmpi::Tracker: invalid index to state array")) ∧
    (0 ≤ rank → c.idFirstTask ≤ rank → rank < 2 ^ 31 → -(2 ^ 31) ≤ c.idFirstTask →
      (rank - c.idFirstTask).toNat < c.pTracker.Size →
      Controller.SetTaskState c status
        = .ok { c with
            pTracker := ⟨c.pTracker.taskStateArray.set (rank - c.idFirstTask).toNat st⟩
            trace := c.trace ++ [.recv status.source Tag_State,
              .setState (rank - c.idFirstTask).toNat st] }) := by
  refine ⟨?_, ?_, ?_⟩
  · intro h
    have : ¬ rank ≥ 0 := by omega
    simp [Controller.SetTaskState, hpay, this]
  · intro h0 h1 h2 h3
    have hidx : ¬ ((rank - c.idFirstTask) % 18446744073709551616).toNat
        < c.pTracker.taskStateArray.length := by
      have : (c.pTracker.taskStateArray.length : Int) < 2 ^ 63 := by
        have := h3
        unfold Tracker.Size at this
        exact_mod_cast this
      omega
    simp [Controller.SetTaskState, hpay, h0, Tracker.SetState, hidx]
  · intro h0 h1 h2 h3 h4
    have hmod : (rank - c.idFirstTask) % 18446744073709551616 = rank - c.idFirstTask := by
      omega
    have h4' : (rank - c.idFirstTask).toNat < c.pTracker.taskStateArray.length := h4
    simp [Controller.SetTaskState, hpay, h0, Tracker.SetState, hmod, h4', Controller.emit]

/-! ## Controller: statements -/

/-- C4. Whenever `Activate` of the controller returns, the tracker answers
`AreAllStopped`, that is, every slot is UNKNOWN, COMPLETED, TERMINATED or ERROR, and the
cached blackboard state is COMPLETED: a run of the loop that ends normally can only end
through the all-stopped exit. -/
theorem controller_activate_exit (c : Controller) (probes : List Message) (c' : Controller)
    (h : c.Activate probes = .ok c') :
    c'.pTracker.AreAllStopped = true ∧
    (∀ s ∈ c'.pTracker.taskStateArray, StoppedState s) ∧
    c'.stateBB = State_Completed := by
  have := Controller.activate_loop_exit _ _ _ _ h
  exact ⟨this.1, (areAllStopped_iff _).mp this.1, this.2⟩

/-- C4, at a concrete input: one work task (rank 2) reports CREATED, INITIALIZED and
COMPLETED; the loop returns after the third message. -/
theorem controller_activate_exit_witness :
    ∃ c', Controller.Activate
        { idFirstTask := 2, idBlackboard := 1, argv := [['p']],
          pTracker := ⟨[State_Unknown]⟩, pConfig := [], stateBB := State_Running, trace := [] }
        [⟨2, Tag_State, .ints [2, State_Created]⟩, ⟨2, Tag_State, .ints [2, State_Initialized]⟩,
          ⟨2, Tag_State, .ints [2, State_Completed]⟩] = .ok c' ∧
      c'.pTracker.AreAllStopped = true ∧
      (∀ s ∈ c'.pTracker.taskStateArray, StoppedState s) ∧
      c'.stateBB = State_Completed := by
  have h : ∃ c', Controller.Activate
        { idFirstTask := 2, idBlackboard := 1, argv := [['p']],
          pTracker := ⟨[State_Unknown]⟩, pConfig := [], stateBB := State_Running, trace := [] }
        [⟨2, Tag_State, .ints [2, State_Created]⟩, ⟨2, Tag_State, .ints [2, State_Initialized]⟩,
          ⟨2, Tag_State, .ints [2, State_Completed]⟩] = .ok c' := ⟨_, rfl⟩
  obtain ⟨c', hc⟩ := h
  exact ⟨c', hc, controller_activate_exit _ _ c' hc⟩

/-- C10, as stated, fails on the code: with one task tracked as RUNNING, `StopAllTasks`
sends the stop request and returns at once with the result false, the slot still RUNNING. -/
theorem controller_stopAllTasks_counterexample :
    ∃ c', Controller.StopAllTasks
        { idFirstTask := 2, idBlackboard := 1, argv := [['p']],
          pTracker := ⟨[State_Running]⟩, pConfig := [], stateBB := State_Running, trace := [] }
        = .ok (false, c') ∧
      c'.pTracker.taskStateArray = [State_Running] ∧ ¬ StoppedState State_Running ∧
      c'.pTracker.AreAllStopped = false :=
  ⟨_, rfl, rfl, by decide, rfl⟩

/-- C10, amended. `StopAllTasks` sends `Tag_RequestStopTask` to exactly the work tasks whose
tracked state is none of COMPLETED, TERMINATED, ERROR (rank `idFirstTask + i` for slot `i`,
one message each, in slot order, after its log line), changes neither the tracker nor the cached blackboard
state, does not wait, and returns the value `AreAllStopped` has at that moment: true
exactly when every slot is already in a stopped state. -/
theorem controller_stopAllTasks (c : Controller) :
    ∃ c', c.StopAllTasks = .ok (c.pTracker.AreAllStopped, c') ∧
      c'.pTracker = c.pTracker ∧ c'.stateBB = c.stateBB ∧
      c'.trace = c.trace ++ Event.log "Controller stopping all tasks."
          :: stopRequests c.idFirstTask c.pTracker.taskStateArray 0 ∧
      (∀ e, e ∈ stopRequests c.idFirstTask c.pTracker.taskStateArray 0 ↔
        ∃ i s, c.pTracker.GetState i = some s ∧
          ¬(s = State_Completed ∨ s = State_Terminated ∨ s = State_Error) ∧
          e = .send (c.idFirstTask + (i : Int)) Tag_RequestStopTask (.chars [])) ∧
      (stopRequests c.idFirstTask c.pTracker.taskStateArray 0).length
        = c.pTracker.taskStateArray.countP (fun s =>
            s != State_Completed && s != State_Terminated && s != State_Error) ∧
      (c.pTracker.AreAllStopped = true ↔ ∀ s ∈ c.pTracker.taskStateArray, StoppedState s) := by
  refine ⟨_, Controller.stopAllTasks_eq c, rfl, rfl, rfl, ?_, stopRequests_length _ _ _,
    areAllStopped_iff _⟩
  intro e
  rw [stopRequests_mem]
  simp [Tracker.GetState]

/-- C9, the code at the failing input. First task rank 2, two tasks tracked: a state message
from rank 2 whose payload names rank 1 passes the guard `taskID >= 0`, the index -1 becomes
2^64 - 1 as a `size_type`, `Tracker::SetState` is called with it and throws; only a
negative payload rank is skipped without a call. -/
theorem controller_setTaskState_low_rank :
    Controller.DoActionState
        { idFirstTask := 2, idBlackboard := 1, argv := [['p']],
          pTracker := ⟨[State_Unknown, State_Unknown]⟩, pConfig := [],
          stateBB := State_Running, trace := [] }
        ⟨2, Tag_State, .ints [1, State_Completed]⟩
      = .error (.thrown "mtbmpi::Tracker: invalid index to state array") ∧
    (((1 : Int) - 2) % 2 ^ 64).toNat = 18446744073709551615 ∧
    (Tracker.mk [State_Unknown, State_Unknown]).SetState 18446744073709551615 State_Completed
      = .error (.thrown "mtbmpi::Tracker: invalid index to state array") ∧
    Controller.DoActionState
        { idFirstTask := 2, idBlackboard := 1, argv := [['p']],
          pTracker := ⟨[State_Unknown, State_Unknown]⟩, pConfig := [],
          stateBB := State_Running, trace := [] }
        ⟨2, Tag_State, .ints [-1, State_Completed]⟩
      = .ok { idFirstTask := 2, idBlackboard := 1, argv := [['p']],
              pTracker := ⟨[State_Unknown, State_Unknown]⟩, pConfig := [],
              stateBB := State_Running, trace := [.recv 2 Tag_State] } :=
  ⟨rfl, by decide, rfl, rfl⟩

/-! ## Blackboard shutdown by the controller -/

theorem stopBlackboard_counts (c : Controller) :
    (Controller.StopBlackboard c).trace.countP Event.isStopBlackboardSend
      = c.trace.countP Event.isStopBlackboardSend + (if c.stateBB = State_Completed then 0 else 1) ∧
    (Controller.StopBlackboard c).trace.countP Event.isConfirmationRecv
      = c.trace.countP Event.isConfirmationRecv + (if c.stateBB = State_Completed then 0 else 1) := by
  rw [Controller.stopBlackboard_trace]
  by_cases h : c.stateBB = State_Completed
  · simp [h]
  · simp [h, List.countP_append, List.countP_cons, Event.isStopBlackboardSend,
      Event.isConfirmationRecv]

theorem shutdownCall_run_counts (call : ShutdownCall) (c c1 : Controller)
    (h : call.run c = .ok c1) :
    c1.stateBB = State_Completed ∧
    c1.trace.countP Event.isStopBlackboardSend
      = c.trace.countP Event.isStopBlackboardSend + (if c.stateBB = State_Completed then 0 else 1) ∧
    c1.trace.countP Event.isConfirmationRecv
      = c.trace.countP Event.isConfirmationRecv + (if c.stateBB = State_Completed then 0 else 1) := by
  cases call with
  | requestStopHandler status =>
    simp only [ShutdownCall.run, Controller.DoActionRequestStop, Controller.stopAllTasks_eq,
      Except.ok.injEq] at h
    subst h
    refine ⟨Controller.stopBlackboard_stateBB _, ?_⟩
    have hs := stopRequests_no_stopBlackboard c.idFirstTask c.pTracker.taskStateArray 0
    have := stopBlackboard_counts
      (Controller.emit
        { ((c.emit (.log "Controller: received stop request.")).emit
              (.recv status.source Tag_RequestStop)) with
          trace := ((c.emit (.log "Controller: received stop request.")).emit
              (.recv status.source Tag_RequestStop)).trace ++
            Event.log "Controller stopping all tasks."
              :: stopRequests c.idFirstTask c.pTracker.taskStateArray 0 }
        (.log (if c.pTracker.AreAllStopped = true then "Controller: all tasks stopped."
               else "Controller: stop all tasks failed.")))
    simp only [Controller.emit_trace, Controller.emit_stateBB, Controller.emit_idFirstTask,
      Controller.emit_pTracker, List.countP_append, List.countP_cons, List.countP_nil,
      Event.isStopBlackboardSend, Event.isConfirmationRecv, hs.1, hs.2] at this ⊢
    simpa using this
  | activateExit =>
    simp only [ShutdownCall.run, Except.ok.injEq] at h
    subst h
    refine ⟨Controller.finish_stateBB _, ?_⟩
    have := stopBlackboard_counts
      ((((c.emit (.hook .AfterTasks)).emit (.log "Controller: all tasks are stopped.")).emit
        .timerStop).emit (.log "Elapsed time for all tasks (seconds): "))
    simp only [Controller.emit_trace, Controller.emit_stateBB, List.countP_append,
      List.countP_cons, List.countP_nil, Event.isStopBlackboardSend,
      Event.isConfirmationRecv] at this
    simpa [Controller.Activate.finish] using this
  | waitUntilCanStop =>
    simp only [ShutdownCall.run, Controller.WaitUntilCanStop] at h
    split at h
    · exact absurd h (by simp)
    · split at h
      · simp only [Except.ok.injEq] at h
        subst h
        exact ⟨Controller.stopBlackboard_stateBB _, stopBlackboard_counts c⟩
      · rename_i hbb
        simp only [Except.ok.injEq] at h
        subst h
        have hbb' : c.stateBB = State_Completed := by simpa using hbb
        simp [hbb']

theorem shutdownCall_runAll_completed (calls : List ShutdownCall) (c c' : Controller)
    (hrun : ShutdownCall.runAll calls c = .ok c') (hbb : c.stateBB = State_Completed) :
    c'.stateBB = State_Completed ∧
    c'.trace.countP Event.isStopBlackboardSend = c.trace.countP Event.isStopBlackboardSend ∧
    c'.trace.countP Event.isConfirmationRecv = c.trace.countP Event.isConfirmationRecv := by
  induction calls generalizing c with
  | nil =>
    simp only [ShutdownCall.runAll, Except.ok.injEq] at hrun
    subst hrun
    exact ⟨hbb, rfl, rfl⟩
  | cons call calls ih =>
    unfold ShutdownCall.runAll at hrun
    split at hrun
    · exact absurd hrun (by simp)
    · rename_i c1 h1
      obtain ⟨hb1, hs1, hc1⟩ := shutdownCall_run_counts call c c1 h1
      obtain ⟨hb, hs, hc⟩ := ih c1 hrun hb1
      simp only [hbb, if_true, Nat.add_zero] at hs1 hc1
      exact ⟨hb, hs.trans hs1, hc.trans hc1⟩

/-- C5. Over any sequence of blackboard-shutdown calls of the controller (from the handler
of `Tag_RequestStop`, from the end of the loop of `Activate` and from `WaitUntilCanStop`)
that starts while the cached blackboard state is not COMPLETED, `Tag_StopBlackboard` is sent
exactly once and `Tag_Confirmation` is received exactly once: both by the first call, which
leaves the cached state COMPLETED; the calls after it add no such send and no such receive,
as does any call made while the cached state is COMPLETED, when `StopBlackboard` itself does
nothing at all. -/
theorem blackboard_shutdown_once (calls : List ShutdownCall) (c c' : Controller)
    (hrun : ShutdownCall.runAll calls c = .ok c') (hbb : c.stateBB ≠ State_Completed)
    (hne : calls ≠ []) :
    c'.trace.countP Event.isStopBlackboardSend = c.trace.countP Event.isStopBlackboardSend + 1 ∧
    c'.trace.countP Event.isConfirmationRecv = c.trace.countP Event.isConfirmationRecv + 1 ∧
    c'.stateBB = State_Completed ∧
    (∃ first rest c1, calls = first :: rest ∧ first.run c = .ok c1 ∧
      ShutdownCall.runAll rest c1 = .ok c' ∧ c1.stateBB = State_Completed ∧
      c1.trace.countP Event.isStopBlackboardSend
        = c.trace.countP Event.isStopBlackboardSend + 1 ∧
      c1.trace.countP Event.isConfirmationRecv
        = c.trace.countP Event.isConfirmationRecv + 1 ∧
      c'.trace.countP Event.isStopBlackboardSend
        = c1.trace.countP Event.isStopBlackboardSend ∧
      c'.trace.countP Event.isConfirmationRecv
        = c1.trace.countP Event.isConfirmationRecv) ∧
    (∀ (call : ShutdownCall) (a b : Controller), a.stateBB = State_Completed →
      call.run a = .ok b →
      b.stateBB = State_Completed ∧
      b.trace.countP Event.isStopBlackboardSend = a.trace.countP Event.isStopBlackboardSend ∧
      b.trace.countP Event.isConfirmationRecv = a.trace.countP Event.isConfirmationRecv) ∧
    (∀ a : Controller, a.stateBB = State_Completed → Controller.StopBlackboard a = a) := by
  have noop : ∀ a : Controller, a.stateBB = State_Completed →
      Controller.StopBlackboard a = a := by
    intro a ha
    simp [Controller.StopBlackboard, ha]
  have later : ∀ (call : ShutdownCall) (a b : Controller), a.stateBB = State_Completed →
      call.run a = .ok b →
      b.stateBB = State_Completed ∧
      b.trace.countP Event.isStopBlackboardSend = a.trace.countP Event.isStopBlackboardSend ∧
      b.trace.countP Event.isConfirmationRecv = a.trace.countP Event.isConfirmationRecv := by
    intro call a b ha hab
    have := shutdownCall_run_counts call a b hab
    simpa [ha] using this
  cases calls with
  | nil => exact absurd rfl hne
  | cons first rest =>
    unfold ShutdownCall.runAll at hrun
    split at hrun
    · exact absurd hrun (by simp)
    · rename_i c1 h1
      obtain ⟨hb1, hs1, hc1⟩ := shutdownCall_run_counts first c c1 h1
      obtain ⟨hb, hs, hc⟩ := shutdownCall_runAll_completed rest c1 c' hrun hb1
      simp only [hbb, if_false] at hs1 hc1
      exact ⟨hs.trans hs1, hc.trans hc1, hb,
        ⟨first, rest, c1, rfl, h1, hrun, hb1, hs1, hc1, hs, hc⟩, later, noop⟩

/-- C5, at a concrete input: with the only task COMPLETED and the blackboard cached as
RUNNING, a stop request is handled, then the loop of `Activate` ends, then the master waits
until it can stop. -/
theorem blackboard_shutdown_once_witness :
    ∃ c', ShutdownCall.runAll
        [.requestStopHandler ⟨2, Tag_RequestStop, .chars ['x']⟩, .activateExit, .waitUntilCanStop]
        { idFirstTask := 2, idBlackboard := 1, argv := [['p']],
          pTracker := ⟨[State_Completed]⟩, pConfig := [], stateBB := State_Running,
          trace := [] } = .ok c' ∧
      c'.trace.countP Event.isStopBlackboardSend = 1 ∧
      c'.trace.countP Event.isConfirmationRecv = 1 ∧
      c'.stateBB = State_Completed := by
  have h : ∃ c', ShutdownCall.runAll
        [.requestStopHandler ⟨2, Tag_RequestStop, .chars ['x']⟩, .activateExit, .waitUntilCanStop]
        { idFirstTask := 2, idBlackboard := 1, argv := [['p']],
          pTracker := ⟨[State_Completed]⟩, pConfig := [], stateBB := State_Running,
          trace := [] } = .ok c' := ⟨_, rfl⟩
  obtain ⟨c', hc⟩ := h
  have := blackboard_shutdown_once _ _ c' hc (by decide) (by simp)
  exact ⟨c', hc, by simpa using this.1, by simpa using this.2.1, this.2.2.1⟩

/-! ## Task: lemmas -/

namespace Task

variable {σ : Type}

@[simp] theorem task_emit_trace (t : Task σ) (e : Event) : (t.emit e).trace = t.trace ++ [e] := rfl
@[simp] theorem task_emit_state (t : Task σ) (e : Event) : (t.emit e).state = t.state := rfl
@[simp] theorem task_emit_pTaskAdapter (t : Task σ) (e : Event) :
    (t.emit e).pTaskAdapter = t.pTaskAdapter := rfl
@[simp] theorem task_emit_idController (t : Task σ) (e : Event) :
    (t.emit e).idController = t.idController := rfl
@[simp] theorem task_emit_idStr (t : Task σ) (e : Event) : (t.emit e).idStr = t.idStr := rfl
@[simp] theorem task_emit_id (t : Task σ) (e : Event) : (t.emit e).id = t.id := rfl
@[simp] theorem task_emit_bufferState0 (t : Task σ) (e : Event) :
    (t.emit e).bufferState0 = t.bufferState0 := rfl

@[simp] theorem task_setState_state (t : Task σ) (s : State) : (SetState t s).state = s := rfl
@[simp] theorem task_setState_pTaskAdapter (t : Task σ) (s : State) :
    (SetState t s).pTaskAdapter = t.pTaskAdapter := rfl
@[simp] theorem task_setState_idController (t : Task σ) (s : State) :
    (SetState t s).idController = t.idController := rfl
@[simp] theorem task_setState_idStr (t : Task σ) (s : State) : (SetState t s).idStr = t.idStr := rfl
@[simp] theorem task_setState_id (t : Task σ) (s : State) : (SetState t s).id = t.id := rfl
@[simp] theorem task_setState_bufferState0 (t : Task σ) (s : State) :
    (SetState t s).bufferState0 = t.bufferState0 := rfl
@[simp] theorem task_setState_trace (t : Task σ) (s : State) :
    (SetState t s).trace
      = t.trace ++ [.send t.idController Tag_State (.ints [t.bufferState0, s])] := rfl

@[simp] theorem task_logState_state (t : Task σ) : (LogState t).state = t.state := rfl
@[simp] theorem task_logState_pTaskAdapter (t : Task σ) :
    (LogState t).pTaskAdapter = t.pTaskAdapter := rfl
@[simp] theorem task_logState_id (t : Task σ) : (LogState t).id = t.id := rfl
@[simp] theorem task_logState_bufferState0 (t : Task σ) :
    (LogState t).bufferState0 = t.bufferState0 := rfl
@[simp] theorem task_logState_trace (t : Task σ) :
    (LogState t).trace
      = t.trace ++ [.log ("Tracker ID " ++ t.idStr ++ ": state = " ++ AsString t.state)] := rfl

theorem task_drain_fields (iprobe : Nat → Bool) (checks count : Nat) (t : Task σ) :
    (DoActionStop.drain iprobe checks count t).state = t.state ∧
    (DoActionStop.drain iprobe checks count t).pTaskAdapter = t.pTaskAdapter ∧
    (DoActionStop.drain iprobe checks count t).id = t.id ∧
    (DoActionStop.drain iprobe checks count t).bufferState0 = t.bufferState0 ∧
    ∃ es, (DoActionStop.drain iprobe checks count t).trace = t.trace ++ es ∧
      ∀ e ∈ es, e = .recv t.idController MPI_ANY_TAG ∨ e = .sleep := by
  induction checks generalizing count t with
  | zero => exact ⟨rfl, rfl, rfl, rfl, [], by simp [DoActionStop.drain], by simp⟩
  | succ n ih =>
    unfold DoActionStop.drain
    by_cases hp : iprobe count = true
    · simp only [hp, if_true]
      obtain ⟨h1, h2, h3, h4, es, h5, h6⟩ := ih (count + 1) (t.emit (.recv t.idController MPI_ANY_TAG))
      refine ⟨h1, h2, h3, h4, .recv t.idController MPI_ANY_TAG :: es, by simp [h5], ?_⟩
      intro e he
      rcases List.mem_cons.mp he with he | he
      · exact Or.inl he
      · simpa using h6 e he
    · simp only [hp, Bool.false_eq_true, if_false]
      obtain ⟨h1, h2, h3, h4, es, h5, h6⟩ := ih (count + 1) (t.emit .sleep)
      refine ⟨h1, h2, h3, h4, .sleep :: es, by simp [h5], ?_⟩
      intro e he
      rcases List.mem_cons.mp he with he | he
      · exact Or.inr he
      · simpa using h6 e he

end Task

/-! ## Task: what is published -/

theorem lastPublished_append_state (tr : List Event) (d : Int) (p : Payload) :
    lastPublished (tr ++ [.send d Tag_State p]) = some p := by
  simp [lastPublished, List.foldl_append, Event.published]

theorem lastPublished_append_other (tr : List Event) (e : Event)
    (he : ∀ d p, e ≠ .send d Tag_State p) :
    lastPublished (tr ++ [e]) = lastPublished tr := by
  have hp : e.published = none := by
    cases e with
    | send d tag p =>
      have : tag ≠ Tag_State := fun ht => he d p (by rw [ht])
      simp [Event.published, this]
    | _ => rfl
  simp [lastPublished, List.foldl_append, hp]

theorem task_published_emit {σ : Type} (t : Task σ) (e : Event)
    (he : ∀ d p, e ≠ .send d Tag_State p) (h : t.Published) : (t.emit e).Published := by
  obtain ⟨b, hb⟩ := h
  exact ⟨b, by rw [Task.task_emit_trace, lastPublished_append_other _ _ he]; exact hb⟩

theorem task_published_setState {σ : Type} (t : Task σ) (s : State) :
    (Task.SetState t s).Published :=
  ⟨t.bufferState0, by rw [Task.task_setState_trace, lastPublished_append_state]; rfl⟩

theorem task_published_logState {σ : Type} (t : Task σ) (h : t.Published) :
    (Task.LogState t).Published := by
  obtain ⟨b, hb⟩ := h
  exact ⟨b, by
    rw [Task.task_logState_trace, lastPublished_append_other _ _ (by intro d p; simp)]
    exact hb⟩

theorem task_published_drain {σ : Type} (iprobe : Nat → Bool) (checks count : Nat) (t : Task σ)
    (h : t.Published) : (Task.DoActionStop.drain iprobe checks count t).Published := by
  induction checks generalizing count t with
  | zero => simpa [Task.DoActionStop.drain] using h
  | succ n ih =>
    unfold Task.DoActionStop.drain
    apply ih
    split
    · exact task_published_emit t _ (by intro d p; simp) h
    · exact task_published_emit t _ (by intro d p; simp) h

theorem task_published_of_fields {σ : Type} (t u : Task σ) (h1 : u.trace = t.trace)
    (h2 : u.state = t.state) (h : t.Published) : u.Published := by
  obtain ⟨b, hb⟩ := h
  exact ⟨b, by rw [h1, h2]; exact hb⟩

theorem task_published_recvBufferState {σ : Type} (t t1 : Task σ) (p : Payload)
    (h1 : Task.recvBufferState t p = .ok t1) (h : t.Published) : t1.Published := by
  unfold Task.recvBufferState at h1
  split at h1
  · simp only [Except.ok.injEq] at h1; subst h1; exact h
  · simp only [Except.ok.injEq] at h1; subst h1; exact h
  · simp only [Except.ok.injEq] at h1; subst h1; exact task_published_of_fields t _ rfl rfl h
  · simp only [Except.ok.injEq] at h1; subst h1; exact task_published_of_fields t _ rfl rfl h
  · simp at h1

theorem task_published_processMessage {σ : Type} (t t0 : Task σ) (status : Message)
    (action : ActionNeeded) (hpm : Task.ProcessMessage t status = .ok (action, t0))
    (h : t.Published) : t0.Published := by
  unfold Task.ProcessMessage at hpm
  split at hpm
  · simp only [Except.ok.injEq, Prod.mk.injEq] at hpm
    obtain ⟨-, rfl⟩ := hpm
    exact task_published_emit _ _ (by intro d p; simp) h
  split at hpm
  · simp only [Except.ok.injEq, Prod.mk.injEq] at hpm
    obtain ⟨-, rfl⟩ := hpm
    exact task_published_emit _ _ (by intro d p; simp) h
  split at hpm
  · simp only [Except.ok.injEq, Prod.mk.injEq] at hpm
    obtain ⟨-, rfl⟩ := hpm
    exact task_published_emit _ _ (by intro d p; simp) h
  split at hpm
  · simp only [Except.ok.injEq, Prod.mk.injEq] at hpm
    obtain ⟨-, rfl⟩ := hpm
    exact task_published_emit _ _ (by intro d p; simp) h
  split at hpm
  · split at hpm
    · simp at hpm
    · rename_i t1 hrecv
      simp only [Except.ok.injEq, Prod.mk.injEq] at hpm
      obtain ⟨-, rfl⟩ := hpm
      exact task_published_emit _ _ (by intro d p; simp)
        (task_published_recvBufferState _ _ _ hrecv h)
  split at hpm
  · split at hpm
    · simp at hpm
    · rename_i t1 hrecv
      simp only [Except.ok.injEq, Prod.mk.injEq] at hpm
      obtain ⟨-, rfl⟩ := hpm
      exact task_published_emit _ _ (by intro d p; simp)
        (task_published_recvBufferState _ _ _ hrecv h)
  split at hpm
  · simp only [Except.ok.injEq, Prod.mk.injEq] at hpm
    obtain ⟨-, rfl⟩ := hpm
    exact h
  · simp only [Except.ok.injEq, Prod.mk.injEq] at hpm
    obtain ⟨-, rfl⟩ := hpm
    exact h

theorem task_published_callAdapter {σ : Type} (t t1 : Task σ) (op : AdapterOp)
    (f : σ → State × σ) (s : State) (h1 : Task.callAdapter t op f = .ok (s, t1))
    (h : t.Published) : t1.Published := by
  unfold Task.callAdapter at h1
  split at h1
  · exact absurd h1 (by simp)
  · simp only [Except.ok.injEq, Prod.mk.injEq] at h1
    obtain ⟨-, rfl⟩ := h1
    exact task_published_of_fields (t.emit (.adapter op)) _ rfl rfl
      (task_published_emit t _ (by intro d p; simp) h)

theorem task_published_turn {σ : Type} (A : TaskAdapter σ) (iprobe : Nat → Bool)
    (t t' : Task σ) (status : Message) (h1 : Task.Activate.turn A iprobe t status = .ok t')
    (h : t.Published) : t'.Published := by
  unfold Task.Activate.turn at h1
  split at h1
  · exact absurd h1 (by simp)
  · rename_i action t0 hpm
    have h0 : t0.Published := task_published_processMessage t t0 status action hpm h
    have h0' : Task.Published { t0 with action := action } :=
      task_published_of_fields t0 _ rfl rfl h0
    generalize ({ t0 with action := action } : Task σ) = t1 at h1 h0'
    cases action with
    | ActionInitialize =>
      simp only [Task.DoActionInitialize] at h1
      split at h1
      · simp only [Except.ok.injEq] at h1; subst h1
        exact task_published_logState _ h0'
      · split at h1
        · exact absurd h1 (by simp)
        · simp only [Except.ok.injEq] at h1; subst h1
          exact task_published_logState _ (task_published_setState _ _)
    | ActionStart =>
      simp only [Task.DoActionStart] at h1
      split at h1
      · simp only [Except.ok.injEq] at h1; subst h1
        exact task_published_logState _ h0'
      · split at h1
        · simp only [Except.ok.injEq] at h1; subst h1
          exact task_published_logState _ (task_published_setState _ _)
        · split at h1
          · exact absurd h1 (by simp)
          · simp only [Except.ok.injEq] at h1; subst h1
            exact task_published_logState _ (task_published_setState _ _)
    | ActionStop =>
      simp only [Task.DoActionStop] at h1
      split at h1
      · exact absurd h1 (by simp)
      · simp only [Except.ok.injEq] at h1; subst h1
        apply task_published_drain
        apply task_published_logState
        split
        · exact task_published_setState _ _
        · exact task_published_of_fields (Task.SetState _ _) _ rfl rfl
            (task_published_setState _ _)
    | ActionPause =>
      simp only [Task.DoActionPause] at h1
      split at h1
      · exact absurd h1 (by simp)
      · simp only [Except.ok.injEq] at h1; subst h1
        split
        · exact task_published_of_fields (Task.LogState (Task.SetState _ _)) _ rfl rfl
            (task_published_logState _ (task_published_setState _ _))
        · exact task_published_logState _ (task_published_setState _ _)
    | ActionResume =>
      simp only [Task.DoActionResume] at h1
      split at h1
      · simp only [Except.ok.injEq] at h1; subst h1
        exact task_published_logState _ h0'
      · split at h1
        · exact absurd h1 (by simp)
        · simp only [Except.ok.injEq] at h1; subst h1
          split
          · exact task_published_of_fields (Task.LogState (Task.SetState _ _)) _ rfl rfl
              (task_published_logState _ (task_published_setState _ _))
          · exact task_published_logState _ (task_published_setState _ _)
    | ActionAcceptData =>
      simp only [Task.DoActionAcceptData, Except.ok.injEq] at h1
      subst h1
      split
      · exact task_published_logState _ h0'
      · exact h0'
    | NoAction =>
      simp only [Except.ok.injEq] at h1
      subst h1
      exact h0'

/-- The state part of the publication invariant holds on the code: the worker is created
with CREATED published; every turn of its loop leaves the state published last equal to
its current state; and when `Activate` returns, that state is COMPLETED, TERMINATED or
ERROR. (The rank part is what the pause and resume receives can break.) -/
theorem task_state_published {σ : Type} (A : TaskAdapter σ) (iprobe : Nat → Bool)
    (firstTaskID myID controllerID : Int) (adapter : σ) (probes : List Message) (t' : Task σ)
    (h : Task.Activate A iprobe probes (Task.new firstTaskID myID controllerID adapter)
      = .ok t') :
    lastPublished (Task.new firstTaskID myID controllerID adapter).trace
      = some (.ints [myID, State_Created]) ∧
    t'.Published ∧
    (t'.state = State_Completed ∨ t'.state = State_Terminated ∨ t'.state = State_Error) := by
  refine ⟨rfl, ?_⟩
  have key : ∀ (probes : List Message) (t : Task σ), t.Published →
      Task.Activate A iprobe probes t = .ok t' →
      t'.Published ∧
      (t'.state = State_Completed ∨ t'.state = State_Terminated ∨ t'.state = State_Error) := by
    intro probes
    induction probes with
    | nil =>
      intro t ht hrun
      unfold Task.Activate at hrun
      split at hrun
      · rename_i hterm
        simp only [Except.ok.injEq] at hrun
        subst hrun
        refine ⟨ht, ?_⟩
        simpa [IsCompleted, IsTerminated, IsError, or_assoc] using hterm
      · exact absurd hrun (by simp)
    | cons status probes ih =>
      intro t ht hrun
      unfold Task.Activate at hrun
      split at hrun
      · rename_i hterm
        simp only [Except.ok.injEq] at hrun
        subst hrun
        refine ⟨ht, ?_⟩
        simpa [IsCompleted, IsTerminated, IsError, or_assoc] using hterm
      · split at hrun
        · exact absurd hrun (by simp)
        · rename_i t1 hturn
          exact ih t1 (task_published_turn A iprobe t t1 status hturn ht) hrun
  exact key probes _ (task_published_setState _ _) h

/-! ## Task: statements -/

/-- C7. On `Tag_StartTask` the worker receives the message and then: in state INITIALIZED it
calls `StartTask` of the adapter and sets and publishes the state returned; in any other
state except ERROR it does not call the adapter but logs the failed initialization and sets
and publishes ERROR; in state ERROR it only logs its state, calls nothing and publishes
nothing. -/
theorem task_start_gate {σ : Type} (A : TaskAdapter σ) (iprobe : Nat → Bool) (t : Task σ)
    (status : Message) (htag : status.tag = Tag_StartTask) :
    (t.state = State_Initialized → ∀ a, t.pTaskAdapter = some a →
      ∃ t', Task.Activate.turn A iprobe t status = .ok t' ∧
        t'.state = (A.StartTask a).1 ∧ t'.pTaskAdapter = some (A.StartTask a).2 ∧
        t'.trace = t.trace ++
          [.recv t.idController Tag_StartTask, .adapter .StartTask,
           .send t.idController Tag_State (.ints [t.bufferState0, (A.StartTask a).1]),
           .log ("Tracker ID " ++ t.idStr ++ ": state = " ++ AsString (A.StartTask a).1)]) ∧
    (t.state ≠ State_Initialized → t.state ≠ State_Error →
      ∃ t', Task.Activate.turn A iprobe t status = .ok t' ∧
        t'.state = State_Error ∧ t'.pTaskAdapter = t.pTaskAdapter ∧
        t'.trace = t.trace ++
          [.recv t.idController Tag_StartTask, .logTagged "initialization failed" t.idStr,
           .send t.idController Tag_State (.ints [t.bufferState0, State_Error]),
           .log ("Tracker ID " ++ t.idStr ++ ": state = " ++ AsString State_Error)]) ∧
    (t.state = State_Error →
      ∃ t', Task.Activate.turn A iprobe t status = .ok t' ∧
        t'.state = State_Error ∧ t'.pTaskAdapter = t.pTaskAdapter ∧
        t'.trace = t.trace ++
          [.recv t.idController Tag_StartTask,
           .log ("Tracker ID " ++ t.idStr ++ ": state = " ++ AsString State_Error)]) := by
  have hpm : Task.ProcessMessage t status
      = .ok (.ActionStart, t.emit (.recv t.idController Tag_StartTask)) := by
    simp [Task.ProcessMessage, htag]
  refine ⟨?_, ?_, ?_⟩
  · intro hs a ha
    refine ⟨Task.LogState (Task.SetState
        { Task.emit { t.emit (.recv t.idController Tag_StartTask) with action := .ActionStart }
            (.adapter .StartTask) with pTaskAdapter := some (A.StartTask a).2 }
        (A.StartTask a).1), ?_, ?_⟩
    · simp [Task.Activate.turn, hpm, Task.DoActionStart, hs, IsError, IsInitialized,
        Task.callAdapter, ha]
    · simp [Task.emit, Task.SetState, Task.SendStateToController, Task.LogState]
  · intro hs he
    have h1 : IsError t.state = false := by simpa [IsError] using he
    have h2 : IsInitialized t.state = false := by simpa [IsInitialized] using hs
    refine ⟨Task.LogState (Task.SetState (Task.SendMsgToLog
        { t.emit (.recv t.idController Tag_StartTask) with action := .ActionStart }
        "initialization failed") State_Error), ?_, ?_⟩
    · simp [Task.Activate.turn, hpm, Task.DoActionStart, h1, h2]
    · simp [Task.emit, Task.SetState, Task.SendStateToController, Task.LogState,
        Task.SendMsgToLog]
  · intro hs
    refine ⟨Task.LogState
        { t.emit (.recv t.idController Tag_StartTask) with action := .ActionStart }, ?_, ?_⟩
    · simp [Task.Activate.turn, hpm, Task.DoActionStart, hs, IsError]
    · simp [Task.emit, Task.LogState, hs]

/-- C7, at concrete inputs: the worker of rank 2 with the batch adapter, in state
INITIALIZED (start is called and returns COMPLETED), in state CREATED (ERROR is set) and
in state ERROR (nothing changes). -/
theorem task_start_gate_witness :
    (∃ t', Task.Activate.turn batchAdapter (fun _ => false)
        { workerTwo with state := State_Initialized } ⟨0, Tag_StartTask, .chars []⟩ = .ok t' ∧
      t'.state = State_Completed ∧ t'.pTaskAdapter = some ()) ∧
    (∃ t', Task.Activate.turn batchAdapter (fun _ => false)
        workerTwo ⟨0, Tag_StartTask, .chars []⟩ = .ok t' ∧
      t'.state = State_Error ∧ t'.pTaskAdapter = some ()) ∧
    (∃ t', Task.Activate.turn batchAdapter (fun _ => false)
        { workerTwo with state := State_Error } ⟨0, Tag_StartTask, .chars []⟩ = .ok t' ∧
      t'.state = State_Error ∧ t'.pTaskAdapter = some ()) := by
  obtain ⟨t1, h1, h2, h3, -⟩ :=
    (task_start_gate batchAdapter (fun _ => false) { workerTwo with state := State_Initialized }
      ⟨0, Tag_StartTask, .chars []⟩ rfl).1 rfl () rfl
  obtain ⟨t2, k1, k2, k3, -⟩ :=
    (task_start_gate batchAdapter (fun _ => false) workerTwo
      ⟨0, Tag_StartTask, .chars []⟩ rfl).2.1 (by decide) (by decide)
  obtain ⟨t3, l1, l2, l3, -⟩ :=
    (task_start_gate batchAdapter (fun _ => false) { workerTwo with state := State_Error }
      ⟨0, Tag_StartTask, .chars []⟩ rfl).2.2 rfl
  exact ⟨⟨t1, h1, h2, h3⟩, ⟨t2, k1, k2, k3⟩, ⟨t3, l1, l2, l3⟩⟩

/-- C8, as stated, fails on the code: when `StopTask` of the adapter returns ERROR, a
terminal state, the worker of rank 2 does not keep ERROR; the adapter is discarded and the
resulting state is TERMINATED. -/
theorem task_stop_counterexample :
    (failingStopAdapter.StopTask ()).1 = State_Error ∧
    (Task.Activate.turn failingStopAdapter (fun _ => false)
        { workerTwo with state := State_Running } ⟨0, Tag_RequestStopTask, .chars []⟩).toOption.map
        (fun t => (t.state, t.pTaskAdapter))
      = some (State_Terminated, none) ∧
    State_Terminated ≠ State_Error := by
  refine ⟨rfl, rfl, by decide⟩

/-- C8, amended. On `Tag_RequestStopTask` or `Tag_RequestStop` the worker receives the
message and calls `StopTask` of the adapter; if the state returned is COMPLETED or
TERMINATED, the resulting state of the worker is that state and the adapter is kept; for any
other state returned, ERROR included, the adapter is discarded and the resulting state is
TERMINATED. -/
theorem task_stop {σ : Type} (A : TaskAdapter σ) (iprobe : Nat → Bool) (t : Task σ)
    (status : Message) (a : σ)
    (htag : status.tag = Tag_RequestStopTask ∨ status.tag = Tag_RequestStop)
    (ha : t.pTaskAdapter = some a) :
    ∃ t', Task.Activate.turn A iprobe t status = .ok t' ∧
      (∃ es, t'.trace = t.trace ++ .recv t.idController status.tag :: .adapter .StopTask :: es) ∧
      ((A.StopTask a).1 = State_Completed ∨ (A.StopTask a).1 = State_Terminated →
        t'.state = (A.StopTask a).1 ∧ t'.pTaskAdapter = some (A.StopTask a).2) ∧
      (¬((A.StopTask a).1 = State_Completed ∨ (A.StopTask a).1 = State_Terminated) →
        t'.state = State_Terminated ∧ t'.pTaskAdapter = none) := by
  have hpm : Task.ProcessMessage t status
      = .ok (.ActionStop, t.emit (.recv t.idController status.tag)) := by
    rcases htag with h | h <;> simp [Task.ProcessMessage, h]
  by_cases hs : (A.StopTask a).1 = State_Completed ∨ (A.StopTask a).1 = State_Terminated
  · have hb : (!IsCompleted (A.StopTask a).1 && !IsTerminated (A.StopTask a).1) = false := by
      rcases hs with h | h <;> simp [IsCompleted, IsTerminated, h]
    have hturn : Task.Activate.turn A iprobe t status
        = .ok (Task.DoActionStop.drain iprobe 10 0 (Task.LogState
            { Task.SetState
                { Task.emit { t.emit (.recv t.idController status.tag) with action := .ActionStop }
                    (.adapter .StopTask) with pTaskAdapter := some (A.StopTask a).2 }
                (A.StopTask a).1 with action := .NoAction })) := by
      simp [Task.Activate.turn, hpm, Task.DoActionStop, Task.callAdapter, ha, hb]
    obtain ⟨d1, d2, -, -, es, d5, -⟩ := Task.task_drain_fields iprobe 10 0 (Task.LogState
            { Task.SetState
                { Task.emit { t.emit (.recv t.idController status.tag) with action := .ActionStop }
                    (.adapter .StopTask) with pTaskAdapter := some (A.StopTask a).2 }
                (A.StopTask a).1 with action := .NoAction })
    refine ⟨_, hturn, ⟨_, by rw [d5]; simp [Task.emit, Task.SetState,
      Task.SendStateToController, Task.LogState]; rfl⟩, ?_, fun h => absurd hs h⟩
    intro _
    exact ⟨by rw [d1]; rfl, by rw [d2]; rfl⟩
  · have hb : (!IsCompleted (A.StopTask a).1 && !IsTerminated (A.StopTask a).1) = true := by
      simp only [not_or] at hs
      simp [IsCompleted, IsTerminated, hs.1, hs.2]
    have hturn : Task.Activate.turn A iprobe t status
        = .ok (Task.DoActionStop.drain iprobe 10 0 (Task.LogState
            (Task.SetState
              (Task.emit
                { Task.SetState
                    { Task.emit
                        { t.emit (.recv t.idController status.tag) with action := .ActionStop }
                        (.adapter .StopTask) with pTaskAdapter := some (A.StopTask a).2 }
                    (A.StopTask a).1 with pTaskAdapter := none }
                .adapterReset)
              State_Terminated))) := by
      simp [Task.Activate.turn, hpm, Task.DoActionStop, Task.callAdapter, ha, hb]
    obtain ⟨d1, d2, -, -, es, d5, -⟩ := Task.task_drain_fields iprobe 10 0 (Task.LogState
            (Task.SetState
              (Task.emit
                { Task.SetState
                    { Task.emit
                        { t.emit (.recv t.idController status.tag) with action := .ActionStop }
                        (.adapter .StopTask) with pTaskAdapter := some (A.StopTask a).2 }
                    (A.StopTask a).1 with pTaskAdapter := none }
                .adapterReset)
              State_Terminated))
    refine ⟨_, hturn, ⟨_, by rw [d5]; simp [Task.emit, Task.SetState,
      Task.SendStateToController, Task.LogState]; rfl⟩, fun h => absurd h hs, ?_⟩
    intro _
    exact ⟨by rw [d1]; rfl, by rw [d2]; rfl⟩

/-- C8, amended, at concrete inputs: the batch adapter returns COMPLETED from its stop and
is kept; the adapter whose stop returns ERROR is discarded and the state is TERMINATED. -/
theorem task_stop_witness :
    (∃ t', Task.Activate.turn batchAdapter (fun _ => false)
        { workerTwo with state := State_Running } ⟨0, Tag_RequestStopTask, .chars []⟩ = .ok t' ∧
      t'.state = State_Completed ∧ t'.pTaskAdapter = some ()) ∧
    (∃ t', Task.Activate.turn failingStopAdapter (fun _ => false)
        { workerTwo with state := State_Running } ⟨0, Tag_RequestStop, .chars []⟩ = .ok t' ∧
      t'.state = State_Terminated ∧ t'.pTaskAdapter = none) := by
  obtain ⟨t1, h1, -, h3, -⟩ :=
    task_stop batchAdapter (fun _ => false) { workerTwo with state := State_Running }
      ⟨0, Tag_RequestStopTask, .chars []⟩ () (Or.inl rfl) rfl
  obtain ⟨t2, k1, -, -, k4⟩ :=
    task_stop failingStopAdapter (fun _ => false) { workerTwo with state := State_Running }
      ⟨0, Tag_RequestStop, .chars []⟩ () (Or.inr rfl) rfl
  exact ⟨⟨t1, h1, h3 (Or.inl rfl)⟩, ⟨t2, k1, k4 (by decide)⟩⟩

/-- C6, the code at the failing input. The worker of rank 2 is initialized, then receives
`Tag_RequestPauseTask` with the two integers 7 and 0, which `Recv` stores in `bufferState`,
then is stopped: every state message from the pause on carries 7 in place of the rank, so
when `Activate` returns in state COMPLETED the message published last is [7, COMPLETED]. -/
theorem task_publication_rank_overwritten :
    (Task.Activate batchAdapter (fun _ => false)
        [⟨0, Tag_InitializeTask, .chars []⟩, ⟨0, Tag_RequestPauseTask, .ints [7, 0]⟩,
          ⟨0, Tag_RequestStopTask, .chars []⟩] workerTwo).toOption.map
        (fun t => (t.id, t.state, lastPublished t.trace))
      = some (2, State_Completed, some (.ints [7, State_Completed])) ∧
    lastPublished workerTwo.trace = some (.ints [2, State_Created]) := by
  refine ⟨rfl, rfl⟩

/-! ## Message tags: statements -/

/-- C20. For every integer `t`, the tag check holds exactly when `Tag_FIRST < t < Tag_LAST`,
that is 101 < t < 122; the overload for the enumeration and the overload for `int` give the
same answer on every value. -/
theorem msgTag_valid_iff (t : Int) :
    (IsMsgTagValid_int t = true ↔ Tag_FIRST < t ∧ t < Tag_LAST) ∧
    (IsMsgTagValid_int t = true ↔ 101 < t ∧ t < 122) ∧
    (IsMsgTagValid t = true ↔ Tag_FIRST < t ∧ t < Tag_LAST) ∧
    IsMsgTagValid t = IsMsgTagValid_int t := by
  refine ⟨?_, ?_, ?_, rfl⟩ <;> simp [IsMsgTagValid, IsMsgTagValid_int]

/-! ## CommStrings: what Receive commits -/

theorem receive_loop_commits (packed bufUnpacked : List Char) (strVec : StrVec)
    (hacc : lineDelimiter ∉ bufUnpacked) :
    ∃ lines, CommStrings.Receive.loop packed bufUnpacked strVec = strVec ++ lines ∧
      ∀ l ∈ lines, l ≠ [] ∧ lineDelimiter ∉ l ∧ l.length < maxLineLength := by
  induction packed generalizing bufUnpacked strVec with
  | nil => exact ⟨[], by simp [CommStrings.Receive.loop], by simp⟩
  | cons c packed ih =>
    unfold CommStrings.Receive.loop
    by_cases hlen : bufUnpacked.length < maxLineLength
    · simp only [hlen, if_true]
      by_cases hcommit :
          (c == lineDelimiter || (packed.isEmpty || bufUnpacked.length == maxLineLength)) = true
      · simp only [hcommit, if_true]
        by_cases hempty : bufUnpacked.isEmpty = true
        · simp only [hempty, Bool.not_true, Bool.false_eq_true, if_false]
          exact ih [] strVec (by simp)
        · simp only [hempty, Bool.not_false, if_true]
          obtain ⟨lines, h1, h2⟩ := ih [] (strVec ++ [bufUnpacked]) (by simp)
          refine ⟨bufUnpacked :: lines, by simpa using h1, ?_⟩
          intro l hl
          rcases List.mem_cons.mp hl with rfl | hl
          · exact ⟨by simpa using hempty, hacc, hlen⟩
          · exact h2 l hl
      · simp only [hcommit, Bool.false_eq_true, if_false]
        have hc : c ≠ lineDelimiter := by
          intro hcd
          apply hcommit
          simp [hcd]
        apply ih
        simp only [List.mem_append, List.mem_singleton, not_or]
        exact ⟨hacc, fun h => hc h.symm⟩
    · simp only [hlen, if_false]
      exact ⟨[], by simp, by simp⟩

theorem receive_loop_overlong (s packed bufUnpacked : List Char) (strVec : StrVec)
    (hnl : lineDelimiter ∉ s) (hlen : bufUnpacked.length + s.length = maxLineLength)
    (hmore : packed ≠ []) :
    CommStrings.Receive.loop (s ++ packed) bufUnpacked strVec = strVec := by
  induction s generalizing bufUnpacked with
  | nil =>
    simp only [List.length_nil, Nat.add_zero] at hlen
    cases packed with
    | nil => exact absurd rfl hmore
    | cons c packed => simp [CommStrings.Receive.loop, hlen]
  | cons c s ih =>
    simp only [List.length_cons] at hlen
    have hc : (c == lineDelimiter) = false := by
      simp only [beq_eq_false_iff_ne, ne_eq]
      intro hcd
      exact hnl (by simp [hcd])
    have hlt : bufUnpacked.length < maxLineLength := by omega
    have hne2 : (bufUnpacked.length == maxLineLength) = false := by
      simp only [beq_eq_false_iff_ne, ne_eq]; omega
    have hrest : (s ++ packed).isEmpty = false := by
      cases s with
      | nil =>
        cases packed with
        | nil => exact absurd rfl hmore
        | cons _ _ => rfl
      | cons _ _ => rfl
    have := ih (bufUnpacked ++ [c]) (fun hm => hnl (List.mem_cons_of_mem _ hm))
      (by simp; omega)
    simpa [CommStrings.Receive.loop, hlt, hc, hne2, hrest] using this

/-- C16. For every received buffer and every initial output vector, what `Receive` returns
is the initial vector followed by the lines it commits, and each of these is non-empty,
contains no delimiter and is shorter than 2048 bytes. -/
theorem receive_commits_wellformed (msgTag : MsgTags) (buffer : List Char) (strVec : StrVec) :
    ∃ lines, CommStrings.Receive msgTag buffer strVec = strVec ++ lines ∧
      ∀ l ∈ lines, l ≠ [] ∧ lineDelimiter ∉ l ∧ l.length < 2048 := by
  unfold CommStrings.Receive
  split
  · exact ⟨[], by simp, by simp⟩
  · split
    · exact receive_loop_commits buffer [] strVec (by simp)
    · exact ⟨[], by simp, by simp⟩

theorem receive_overlong_general (s : List Char) (hs : s.length = 2048)
    (hnl : lineDelimiter ∉ s) :
    CommStrings.Receive Tag_Data (s ++ "\nab\n".toList) [] = [] := by
  have h := receive_loop_overlong s "\nab\n".toList [] [] hnl (by simpa using hs) (by decide)
  have hlen : (s ++ "\nab\n".toList).length > 0 := by simp
  simp only [CommStrings.Receive, show IsMsgTagValid Tag_Data = true from rfl, Bool.not_true,
    Bool.false_eq_true, if_false, hlen, if_true]
  exact h

theorem receive_longest_general (s : List Char) (hs : s.length = 2047)
    (hnl : lineDelimiter ∉ s) :
    CommStrings.Receive Tag_Data (s ++ "\nab\n".toList) [] = [s, "ab".toList] := by
  have hne : s ≠ [] := by
    intro h
    rw [h] at hs
    simp at hs
  have h := receive_loop_lines [s, "ab".toList] []
    (by
      intro l hl
      simp only [List.mem_cons, List.mem_singleton, List.not_mem_nil, or_false] at hl
      rcases hl with rfl | rfl
      · exact ⟨hne, by rw [hs]; decide, hnl⟩
      · exact ⟨by decide, by decide, by decide⟩)
  have hlen : (s ++ "\nab\n".toList).length > 0 := by simp
  have hp : packedLines [s, "ab".toList] = s ++ "\nab\n".toList := by
    simp [packedLines]
  simp only [CommStrings.Receive, show IsMsgTagValid Tag_Data = true from rfl, Bool.not_true,
    Bool.false_eq_true, if_false, hlen, if_true]
  rw [← hp]
  simpa using h

/-- C15, the code at the failing input. A buffer that holds a line of 2048 bytes, then the
delimiter, then the line "ab": `Receive` commits nothing at all, neither a piece of the
long line nor the line after it; the loop ends when the line buffer is full, before the
test for the full buffer that would commit it. With 2047 bytes both lines are committed. -/
theorem receive_overlong_line_lost :
    CommStrings.Receive Tag_Data (List.replicate 2048 'x' ++ "\nab\n".toList) [] = [] ∧
    CommStrings.Receive Tag_Data (List.replicate 2047 'x' ++ "\nab\n".toList) []
      = [List.replicate 2047 'x', "ab".toList] :=
  ⟨receive_overlong_general _ (List.length_replicate 2048 'x')
      (fun hm => absurd (List.eq_of_mem_replicate hm) (by decide)),
    receive_longest_general _ (List.length_replicate 2047 'x')
      (fun hm => absurd (List.eq_of_mem_replicate hm) (by decide))⟩

/-! ## Logger and blackboard texts -/

theorem errorText_eq (p : List Char) :
    Blackboard.ReceiveAndLogError.text p
      = if "Error: ".toList.isPrefixOf p then p else "Error: ".toList ++ p := by
  have hE : "Error: ".toList = ['E', 'r', 'r', 'o', 'r', ':', ' '] := rfl
  have hN : NULL_CHAR ≠ ' ' := by decide
  have hN1 : NULL_CHAR ≠ 'E' := by decide
  have hN2 : NULL_CHAR ≠ 'r' := by decide
  have hN3 : NULL_CHAR ≠ 'o' := by decide
  have hN4 : NULL_CHAR ≠ ':' := by decide
  simp only [Blackboard.ReceiveAndLogError.text, hE]
  rcases p with _ | ⟨a, _ | ⟨b, _ | ⟨c, _ | ⟨d, _ | ⟨e, _ | ⟨f, _ | ⟨g, r⟩⟩⟩⟩⟩⟩⟩
  case cons.cons.cons.cons.cons.cons.cons =>
    simp only [List.isPrefixOf, List.length_cons, List.length_nil, List.cons_append,
      List.take_succ_cons, List.take_zero, bne_iff_ne, ne_eq, List.cons.injEq, and_true,
      Bool.and_eq_true, beq_iff_eq, Bool.and_true, ite_not]
    by_cases h : 'E' = a ∧ 'r' = b ∧ 'r' = c ∧ 'o' = d ∧ 'r' = e ∧ ':' = f ∧ ' ' = g
    · obtain ⟨rfl, rfl, rfl, rfl, rfl, rfl, rfl⟩ := h
      simp
    · have h' : ¬(a = 'E' ∧ b = 'r' ∧ c = 'r' ∧ d = 'o' ∧ e = 'r' ∧ f = ':' ∧ g = ' ') := by
        intro k
        exact h ⟨k.1.symm, k.2.1.symm, k.2.2.1.symm, k.2.2.2.1.symm, k.2.2.2.2.1.symm,
          k.2.2.2.2.2.1.symm, k.2.2.2.2.2.2.symm⟩
      simp [h, h']
  all_goals simp [List.isPrefixOf, hN, hN1, hN2, hN3, hN4]

theorem errorText_fresh (received : List Char) (h : ∀ rest, received ≠ 'E' :: rest) :
    Blackboard.ReceiveAndLogError.text received = "Error: ".toList ++ received := by
  rw [errorText_eq]
  have hE : "Error: ".toList = ['E', 'r', 'r', 'o', 'r', ':', ' '] := rfl
  cases received with
  | nil => simp [hE, List.isPrefixOf]
  | cons c r =>
    have hc : c ≠ 'E' := fun hc => h r (by rw [hc])
    have hc' : ('E' == c) = false := by
      simp only [beq_eq_false_iff_ne, ne_eq]
      exact fun k => hc k.symm
    simp [hE, List.isPrefixOf, hc']

theorem errorTurn_writes (stamp : StdString) (bb : Blackboard) (source : Int)
    (p : List Char) (hopen : bb.pRunLogMgr.isOpen = true) :
    ∃ bb', Blackboard.Activate.turn stamp bb ⟨source, Tag_ErrorMessage, .chars p⟩
        = .ok (bb', false) ∧
      bb'.pRunLogMgr.written
        = bb.pRunLogMgr.written ++ [Blackboard.ReceiveAndLogError.text p] ∧
      bb'.trace = bb.trace ++ [.recv source Tag_ErrorMessage] := by
  refine ⟨{ bb.Recv source Tag_ErrorMessage with
      pRunLogMgr := (bb.Recv source Tag_ErrorMessage).pRunLogMgr.Write
        (Blackboard.ReceiveAndLogError.text p) }, ?_, ?_, rfl⟩
  · simp [Blackboard.Activate.turn, Blackboard.ReceiveAndLogError]
  · simp [Blackboard.Recv, RunLogMgr.Write, hopen]

/-- C19. For every payload `p` of an error message the text the blackboard writes is `p`
itself when `p` begins with "Error: " and "Error: " followed by `p` otherwise; the text
always begins with "Error: ", prefixing it again changes nothing, and the turn of the loop
for the message receives it and writes that text to the open run log. -/
theorem blackboard_error_prefixing (stamp : StdString) (bb : Blackboard) (source : Int)
    (p : List Char) (hopen : bb.pRunLogMgr.isOpen = true) :
    Blackboard.ReceiveAndLogError.text p
      = (if "Error: ".toList.isPrefixOf p then p else "Error: ".toList ++ p) ∧
    "Error: ".toList <+: Blackboard.ReceiveAndLogError.text p ∧
    Blackboard.ReceiveAndLogError.text (Blackboard.ReceiveAndLogError.text p)
      = Blackboard.ReceiveAndLogError.text p ∧
    ∃ bb', Blackboard.Activate.turn stamp bb ⟨source, Tag_ErrorMessage, .chars p⟩
        = .ok (bb', false) ∧
      bb'.pRunLogMgr.written
        = bb.pRunLogMgr.written ++ [Blackboard.ReceiveAndLogError.text p] ∧
      bb'.trace = bb.trace ++ [.recv source Tag_ErrorMessage] := by
  have hpre : "Error: ".toList <+: Blackboard.ReceiveAndLogError.text p := by
    rw [errorText_eq]
    split
    · rename_i h
      exact List.isPrefixOf_iff_prefix.mp h
    · exact List.prefix_append _ _
  refine ⟨errorText_eq p, hpre, ?_, ?_⟩
  · rw [errorText_eq (Blackboard.ReceiveAndLogError.text p),
      if_pos (List.isPrefixOf_iff_prefix.mpr hpre)]
  · exact errorTurn_writes stamp bb source p hopen

/-- C19, at concrete inputs: a payload that begins with "Error: " is written as it is, and
"disk full" is written as "Error: disk full". -/
theorem blackboard_error_prefixing_witness :
    Blackboard.ReceiveAndLogError.text "Error: disk full".toList = "Error: disk full".toList ∧
    Blackboard.ReceiveAndLogError.text "disk full".toList = "Error: disk full".toList ∧
    ∃ bb', Blackboard.Activate.turn "2020-01-02_03-04-05".toList
        { id := 1, idController := 0, HaveOutputMgr := false,
          pRunLogMgr := ⟨"run.log".toList, true, []⟩,
          pending := [⟨2, Tag_ErrorMessage, .chars "disk full".toList⟩], trace := [] }
        ⟨2, Tag_ErrorMessage, .chars "disk full".toList⟩ = .ok (bb', false) ∧
      bb'.pRunLogMgr.written = [] ++ [Blackboard.ReceiveAndLogError.text "disk full".toList] ∧
      bb'.trace = [] ++ [.recv 2 Tag_ErrorMessage] :=
  ⟨by decide, by decide,
    (blackboard_error_prefixing "2020-01-02_03-04-05".toList
      { id := 1, idController := 0, HaveOutputMgr := false,
        pRunLogMgr := ⟨"run.log".toList, true, []⟩,
        pending := [⟨2, Tag_ErrorMessage, .chars "disk full".toList⟩], trace := [] }
      2 "disk full".toList rfl).2.2.2⟩

/-- C18, the code at the failing input. `LogMessage::Warning (msg)` builds the stamped text
and drops it: "disk low" stays "disk low", and that is what the logger sends to the
blackboard, not "<timestamp>: Warning: disk low". The overloads for a task id and for an id
string do replace the message. -/
theorem logMessage_warning_not_replaced :
    LogMessage.Warning "2020-01-02_03-04-05".toList "disk low".toList = "disk low".toList ∧
    (LoggerMPI.mk 1).Warning "2020-01-02_03-04-05".toList "disk low".toList
      = ⟨1, Tag_LogMessage, "disk low".toList⟩ ∧
    "disk low".toList ≠ "2020-01-02_03-04-05: Warning: disk low".toList ∧
    (LoggerMPI.mk 1).Warning_TaskID "2020-01-02_03-04-05".toList "disk low".toList 7
      = ⟨1, Tag_LogMessage, "2020-01-02_03-04-05: Tracker ID 7: Warning: disk low".toList⟩ ∧
    (LoggerMPI.mk 1).Warning_IDStr "2020-01-02_03-04-05".toList "disk low".toList "7".toList
      = ⟨1, Tag_LogMessage, "2020-01-02_03-04-05: Tracker ID 7: Warning: disk low".toList⟩ ∧
    (LoggerMPI.mk 1).Error "2020-01-02_03-04-05".toList "disk low".toList
      = ⟨1, Tag_ErrorMessage, "2020-01-02_03-04-05: ERROR: disk low".toList⟩ := by
  refine ⟨rfl, rfl, by decide, by decide, by decide, by decide⟩

/-- C17, as stated, fails on the code: for the message "boom" and the task id 5 the logger
sends "<timestamp>: Tracker ID 5: ERROR: boom", and the blackboard, finding no "Error: " at
the front of that text, writes "Error: <timestamp>: Tracker ID 5: ERROR: boom". -/
theorem logger_error_line_counterexample :
    ((LoggerMPI.mk 1).Error_TaskID "2020-01-02_03-04-05".toList "boom".toList 5).payload
      = "2020-01-02_03-04-05: Tracker ID 5: ERROR: boom".toList ∧
    (Blackboard.Activate.turn "2020-01-02_03-04-06".toList
        { id := 1, idController := 0, HaveOutputMgr := false,
          pRunLogMgr := ⟨"run.log".toList, true, []⟩, pending := [], trace := [] }
        (((LoggerMPI.mk 1).Error_TaskID "2020-01-02_03-04-05".toList "boom".toList 5).delivered
          2)).toOption.map (fun r => r.1.pRunLogMgr.written)
      = some ["Error: 2020-01-02_03-04-05: Tracker ID 5: ERROR: boom".toList] ∧
    "Error: 2020-01-02_03-04-05: Tracker ID 5: ERROR: boom".toList
      ≠ "2020-01-02_03-04-05: Tracker ID 5: ERROR: boom".toList := by
  refine ⟨by decide, by decide, by decide⟩

/-- C17, amended. For every message `m` and task id `n`, `Error (m, TaskID n)` of the
logger sends to the blackboard, as an error message, the text
"<timestamp>: Tracker ID <n>: ERROR: <m>", where <timestamp> is the stamp taken when the
message was formatted; the stamp not beginning with the letter E, the blackboard writes
exactly "Error: " followed by that text to its open run log. -/
theorem logger_error_line (logger : LoggerMPI) (stamp stampBB m : StdString) (n : Int)
    (bb : Blackboard) (source : Int) (hopen : bb.pRunLogMgr.isOpen = true)
    (hstamp : ∀ rest, stamp ≠ 'E' :: rest) :
    logger.Error_TaskID stamp m n
      = ⟨logger.idBlackboard, Tag_ErrorMessage,
          stamp ++ ": ".toList ++ ("Tracker ID ".toList ++ (toString n).toList ++ ": ".toList)
            ++ "ERROR: ".toList ++ m⟩ ∧
    ∃ bb', Blackboard.Activate.turn stampBB bb ((logger.Error_TaskID stamp m n).delivered source)
        = .ok (bb', false) ∧
      bb'.pRunLogMgr.written = bb.pRunLogMgr.written ++
        ["Error: ".toList ++ (stamp ++ ": ".toList
          ++ ("Tracker ID ".toList ++ (toString n).toList ++ ": ".toList)
          ++ "ERROR: ".toList ++ m)] := by
  have hsend : logger.Error_TaskID stamp m n
      = ⟨logger.idBlackboard, Tag_ErrorMessage,
          stamp ++ ": ".toList ++ ("Tracker ID ".toList ++ (toString n).toList ++ ": ".toList)
            ++ "ERROR: ".toList ++ m⟩ := rfl
  refine ⟨hsend, ?_⟩
  have hfront : ∀ rest, stamp ++ ": ".toList
      ++ ("Tracker ID ".toList ++ (toString n).toList ++ ": ".toList)
      ++ "ERROR: ".toList ++ m ≠ 'E' :: rest := by
    intro rest
    cases stamp with
    | nil =>
      intro hk
      have hk' := congrArg List.head? hk
      simp at hk'
    | cons c r =>
      intro hk
      have hc : c = 'E' := by
        have hk' := congrArg List.head? hk
        simpa using hk'
      exact hstamp r (by rw [hc])
  obtain ⟨bb', h1, h2, _⟩ := errorTurn_writes stampBB bb source
    (stamp ++ ": ".toList ++ ("Tracker ID ".toList ++ (toString n).toList ++ ": ".toList)
      ++ "ERROR: ".toList ++ m) hopen
  refine ⟨bb', ?_, ?_⟩
  · rw [hsend]
    exact h1
  · rw [h2, errorText_fresh _ hfront]

/-- C17, amended, at a concrete input: the message "boom" of task id 5, sent by rank 2. -/
theorem logger_error_line_witness :
    (LoggerMPI.mk 1).Error_TaskID "2020-01-02_03-04-05".toList "boom".toList 5
      = ⟨1, Tag_ErrorMessage,
          "2020-01-02_03-04-05".toList ++ ": ".toList
            ++ ("Tracker ID ".toList ++ (toString (5 : Int)).toList ++ ": ".toList)
            ++ "ERROR: ".toList ++ "boom".toList⟩ ∧
    ∃ bb', Blackboard.Activate.turn "2020-01-02_03-04-06".toList
        { id := 1, idController := 0, HaveOutputMgr := false,
          pRunLogMgr := ⟨"run.log".toList, true, []⟩, pending := [], trace := [] }
        (((LoggerMPI.mk 1).Error_TaskID "2020-01-02_03-04-05".toList "boom".toList 5).delivered
          2) = .ok (bb', false) ∧
      bb'.pRunLogMgr.written = [] ++
        ["Error: ".toList ++ ("2020-01-02_03-04-05".toList ++ ": ".toList
          ++ ("Tracker ID ".toList ++ (toString (5 : Int)).toList ++ ": ".toList)
          ++ "ERROR: ".toList ++ "boom".toList)] :=
  logger_error_line (LoggerMPI.mk 1) "2020-01-02_03-04-05".toList "2020-01-02_03-04-06".toList
    "boom".toList 5
    { id := 1, idController := 0, HaveOutputMgr := false,
      pRunLogMgr := ⟨"run.log".toList, true, []⟩, pending := [], trace := [] }
    2 rfl (by
      intro rest h
      have h1 := congrArg List.head? h
      have h2 : List.head? "2020-01-02_03-04-05".toList = some '2' := rfl
      rw [h2] at h1
      simp at h1)

/-! ## CommStrings: the same vector sent to several destinations -/

theorem isend_step (env : MpiEnv) (ch : CommStrings) (dest : Int) (tag : MsgTags)
    (V : StrVec) (hpack : env.packOverhead = 0) (hslot : ch.sendCount < ch.asyncBuffers.length) :
    ∃ r, ch.Isend env dest tag V = .ok r ∧
      r.posted = ⟨dest, tag, packedLines V⟩ ∧
      r.strVec = V.map (fun s => s ++ [lineDelimiter]) ∧
      r.channel.sendCount = ch.sendCount + 1 ∧
      r.channel.asyncBuffers.length = ch.asyncBuffers.length := by
  have hloop := packData_loop_lines env V [] (packedLines V).length (le_refl _)
  simp only [List.nil_append, List.length_nil, Nat.zero_add, Nat.sub_self,
    List.replicate_zero, List.append_nil] at hloop
  simp [CommStrings.Isend, CommStrings.PackData, hslot, hpack, prepareData_fst,
    prepareData_snd, hloop]

theorem replicate_append_cons (j : Nat) (a : Char) (l : List Char) :
    List.replicate j a ++ a :: l = a :: (List.replicate j a ++ l) := by
  induction j with
  | zero => rfl
  | succ j ih => simp [List.replicate_succ, ih]

theorem receive_loop_delims (j : Nat) (packed : List Char) (strVec : StrVec) :
    CommStrings.Receive.loop (List.replicate j lineDelimiter ++ packed) [] strVec
      = CommStrings.Receive.loop packed [] strVec := by
  induction j with
  | zero => simp
  | succ j ih =>
    rw [List.replicate_succ, List.cons_append]
    simpa [CommStrings.Receive.loop] using ih

theorem receive_loop_padded_lines (V : StrVec) (j : Nat) (strVec : StrVec)
    (hV : ∀ s ∈ V, s ≠ [] ∧ s.length < maxLineLength ∧ lineDelimiter ∉ s) :
    CommStrings.Receive.loop
        (packedLines (V.map (fun s => s ++ List.replicate j lineDelimiter))) [] strVec
      = strVec ++ V := by
  induction V generalizing strVec with
  | nil => simp [packedLines, CommStrings.Receive.loop]
  | cons s rest ih =>
    obtain ⟨hne, hlen, hnl⟩ := hV s (List.mem_cons_self _ _)
    have hrest : ∀ x ∈ rest, x ≠ [] ∧ x.length < maxLineLength ∧ lineDelimiter ∉ x :=
      fun x hx => hV x (List.mem_cons_of_mem _ hx)
    have hshape : packedLines ((s :: rest).map (fun s => s ++ List.replicate j lineDelimiter))
        = s ++ lineDelimiter :: (List.replicate j lineDelimiter
            ++ packedLines (rest.map (fun s => s ++ List.replicate j lineDelimiter))) := by
      simp only [List.map_cons, packedLines, List.append_assoc]
      rw [replicate_append_cons]
    rw [hshape, receive_loop_line s _ [] strVec (by simpa using hne) (by simpa using hlen) hnl,
      receive_loop_delims, ih _ hrest]
    simp

theorem sendStrings_loop_posts (env : MpiEnv) (hpack : env.packOverhead = 0)
    (dests : List Int) (ch : CommStrings) (W : StrVec) (posted : List Posted)
    (hslots : ch.sendCount + dests.length ≤ ch.asyncBuffers.length) :
    ∃ ch' W' new, SendStrings.loop env dests ch W posted = .ok (ch', W', posted ++ new) ∧
      new.length = dests.length ∧
      ∀ (i : Nat) (d : Int), dests[i]? = some d →
        new[i]? = some (⟨d, Tag_Data,
          packedLines (W.map (fun s => s ++ List.replicate i lineDelimiter))⟩ : Posted) := by
  induction dests generalizing ch W posted with
  | nil => exact ⟨ch, W, [], by simp [SendStrings.loop], rfl, by simp⟩
  | cons d more ih =>
    simp only [List.length_cons] at hslots
    obtain ⟨r, hr, hp, hs, hc, ha⟩ := isend_step env ch d Tag_Data W hpack (by omega)
    obtain ⟨ch', W', new, hloop, hlen, hget⟩ :=
      ih r.channel r.strVec (posted ++ [r.posted]) (by rw [hc, ha]; omega)
    refine ⟨ch', W', r.posted :: new, ?_, by simp [hlen], ?_⟩
    · simp only [SendStrings.loop, hr, hloop]
      simp
    · intro i d' hi
      cases i with
      | zero =>
        simp only [List.getElem?_cons_zero, Option.some.injEq] at hi
        subst hi
        simp [hp]
      | succ i =>
        simp only [List.getElem?_cons_succ] at hi
        have := hget i d' hi
        simp only [List.getElem?_cons_succ, this, hs, List.map_map, Option.some.injEq,
          Posted.mk.injEq, true_and]
        congr 1
        apply List.map_congr_left
        intro s _
        simp [List.replicate_succ]

/-- C14. The sender of the test hands one and the same vector `V` to `Isend` once per
destination, rank 1 to rank `commSize - 1` of its communicator, so that the `k`-th send
finds `k - 1` delimiters already appended to every string. For every `k >= 1` that names
such a destination and every `V` of non-empty strings that contain no delimiter and are
shorter than 2048 bytes, the sends succeed, the `k`-th message goes to rank `k` with
`Tag_Data` and carries the lines with `k` delimiters each, and the receiver of the test
obtains exactly `V` from it (packing being byte concatenation). -/
theorem sendStrings_roundtrip (env : MpiEnv) (myRank : Int) (commSize : Nat) (V : StrVec)
    (k : Nat) (hpack : env.packOverhead = 0) (hk1 : 1 ≤ k) (hk2 : k < commSize)
    (hV : ∀ s ∈ V, s ≠ [] ∧ s.length < 2048 ∧ lineDelimiter ∉ s) :
    ∃ ch posted p, SendStrings env myRank commSize V = .ok (ch, posted) ∧
      posted.length = commSize - 1 ∧
      posted[k - 1]? = some p ∧ p.dest = (k : Int) ∧ p.tag = Tag_Data ∧
      p.payload = packedLines (V.map (fun s => s ++ List.replicate (k - 1) lineDelimiter)) ∧
      ReceiveStrings p.payload = V := by
  obtain ⟨ch', W', new, hloop, hlen, hget⟩ :=
    sendStrings_loop_posts env hpack
      ((List.range (commSize - 1)).map (fun i => ((i + 1 : Nat) : Int)))
      (CommStrings.new myRank commSize) V []
      (by simp [CommStrings.new])
  have hdest : ((List.range (commSize - 1)).map (fun i => ((i + 1 : Nat) : Int)))[k - 1]?
      = some (k : Int) := by
    have hlt : k - 1 < commSize - 1 := by omega
    have hk : k - 1 + 1 = k := by omega
    simp only [List.getElem?_map, List.getElem?_range hlt, Option.map_some', hk]
  have hp := hget (k - 1) (k : Int) hdest
  refine ⟨ch'.WaitAll, new, _, ?_, by simpa using hlen, hp, rfl, rfl, rfl, ?_⟩
  · simp only [SendStrings, hloop]
    simp
  · have hrecv := receive_loop_padded_lines V (k - 1) [] hV
    simp only [ReceiveStrings, CommStrings.Receive, show IsMsgTagValid Tag_Data = true from rfl,
      Bool.not_true, Bool.false_eq_true, if_false]
    split
    · simpa using hrecv
    · rename_i hzero
      cases V with
      | nil => rfl
      | cons s rest => simp [packedLines] at hzero

/-- C14, at a concrete input: the three lines of the test, a communicator of three
processes, the second send. -/
theorem sendStrings_roundtrip_witness :
    ∃ ch posted p, SendStrings ⟨0, true⟩ 0 3
        ["line 1".toList, "line 2".toList, "last line".toList] = .ok (ch, posted) ∧
      posted.length = 3 - 1 ∧
      posted[2 - 1]? = some p ∧ p.dest = ((2 : Nat) : Int) ∧ p.tag = Tag_Data ∧
      p.payload = packedLines
        (["line 1".toList, "line 2".toList, "last line".toList].map
          (fun s => s ++ List.replicate (2 - 1) lineDelimiter)) ∧
      ReceiveStrings p.payload = ["line 1".toList, "line 2".toList, "last line".toList] :=
  sendStrings_roundtrip ⟨0, true⟩ 0 3 ["line 1".toList, "line 2".toList, "last line".toList] 2
    rfl (by decide) (by decide) (by decide)

/-! ## Blackboard: lemmas -/

theorem blackboard_turn_stop (stamp : StdString) (bb : Blackboard) (status : Message)
    (h : IsBlackboardStopTag status.tag) :
    Blackboard.Activate.turn stamp bb status
      = .ok (Blackboard.emit
          (Blackboard.Message stamp (bb.Recv status.source status.tag)
            "Blackboard stopped.\n".toList)
          (.send bb.idController Tag_Confirmation (.chars [])), true) := by
  have h1 : status.tag ≠ Tag_TaskResults := by
    rcases h with h | h | h <;> rw [h] <;> decide
  have h2 : status.tag ≠ Tag_LogMessage := by
    rcases h with h | h | h <;> rw [h] <;> decide
  have h3 : status.tag ≠ Tag_ErrorMessage := by
    rcases h with h | h | h <;> rw [h] <;> decide
  have h' : status.tag = Tag_StopBlackboard ∨ status.tag = Tag_RequestStop
      ∨ status.tag = Tag_RequestStopTask := h
  simp only [Blackboard.Activate.turn, h1, h2, h3, h', if_true, if_false]
  rfl

theorem receiveAndLogMessage_ok (bb : Blackboard) (status : Message) (bb1 : Blackboard)
    (h : bb.ReceiveAndLogMessage status = .ok bb1) :
    ∃ msg, bb1 = { bb.Recv status.source status.tag with
      pRunLogMgr := (bb.Recv status.source status.tag).pRunLogMgr.Write msg } := by
  unfold Blackboard.ReceiveAndLogMessage at h
  split at h
  · simp at h
  · simp only [Except.ok.injEq] at h
    exact ⟨_, h.symm⟩

theorem receiveAndLogError_ok (bb : Blackboard) (status : Message) (bb1 : Blackboard)
    (h : bb.ReceiveAndLogError status = .ok bb1) :
    ∃ msg, bb1 = { bb.Recv status.source status.tag with
      pRunLogMgr := (bb.Recv status.source status.tag).pRunLogMgr.Write msg } := by
  unfold Blackboard.ReceiveAndLogError at h
  split at h
  · simp at h
  · simp only [Except.ok.injEq] at h
    exact ⟨_, h.symm⟩

theorem blackboard_turn_facts (stamp : StdString) (bb : Blackboard) (status : Message)
    (bb1 : Blackboard) (b : Bool) (h : Blackboard.Activate.turn stamp bb status = .ok (bb1, b)) :
    (b = true ↔ IsBlackboardStopTag status.tag) ∧
    (∀ m ∈ bb1.pending, m ∈ bb.pending) ∧
    bb1.idController = bb.idController ∧
    bb1.trace.countP Event.isConfirmationSend
      = bb.trace.countP Event.isConfirmationSend + (if b then 1 else 0) := by
  by_cases hs : IsBlackboardStopTag status.tag
  · rw [blackboard_turn_stop stamp bb status hs] at h
    simp only [Except.ok.injEq, Prod.mk.injEq] at h
    obtain ⟨rfl, rfl⟩ := h
    refine ⟨by simp [hs], ?_, rfl, ?_⟩
    · intro m hm
      exact List.mem_of_mem_eraseP hm
    · simp [Blackboard.emit, Blackboard.Message, Blackboard.Recv, List.countP_append,
        Event.isConfirmationSend]
  · have hs' : ¬(status.tag = Tag_StopBlackboard ∨ status.tag = Tag_RequestStop
        ∨ status.tag = Tag_RequestStopTask) := hs
    unfold Blackboard.Activate.turn at h
    split at h
    · simp only [Except.ok.injEq, Prod.mk.injEq] at h
      obtain ⟨rfl, rfl⟩ := h
      refine ⟨by simp [hs], ?_, ?_, ?_⟩
      · intro m hm
        split at hm
        · exact List.mem_of_mem_eraseP hm
        · exact hm
      · split <;> rfl
      · split <;>
          simp [Blackboard.HandleOutputMessage, Blackboard.Recv, List.countP_append,
            Event.isConfirmationSend]
    split at h
    · split at h
      · simp at h
      · rename_i bbx heq
        simp only [Except.ok.injEq, Prod.mk.injEq] at h
        obtain ⟨rfl, rfl⟩ := h
        obtain ⟨msg, rfl⟩ := receiveAndLogMessage_ok bb status _ heq
        refine ⟨by simp [hs], ?_, rfl, ?_⟩
        · intro m hm
          exact List.mem_of_mem_eraseP hm
        · simp [Blackboard.Recv, List.countP_append, Event.isConfirmationSend]
    split at h
    · split at h
      · simp at h
      · rename_i bbx heq
        simp only [Except.ok.injEq, Prod.mk.injEq] at h
        obtain ⟨rfl, rfl⟩ := h
        obtain ⟨msg, rfl⟩ := receiveAndLogError_ok bb status _ heq
        refine ⟨by simp [hs], ?_, rfl, ?_⟩
        · intro m hm
          exact List.mem_of_mem_eraseP hm
        · simp [Blackboard.Recv, List.countP_append, Event.isConfirmationSend]
    simp only [hs', if_false, Except.ok.injEq, Prod.mk.injEq] at h
    obtain ⟨rfl, rfl⟩ := h
    exact ⟨by simp [hs], fun m hm => hm, rfl, by simp⟩

theorem blackboard_loop_facts (stamp : StdString) (turns : Nat) (bb : Blackboard)
    (r : Blackboard.LoopEnd) (h : Blackboard.Activate stamp turns bb = .ok r) :
    match r with
    | .returned bb' =>
      bb'.trace.countP Event.isConfirmationSend
        = bb.trace.countP Event.isConfirmationSend + 1 ∧
      ∃ status ∈ bb.pending, IsBlackboardStopTag status.tag ∧
        ∃ before, bb'.trace = before ++
          [.recv status.source status.tag, .send bb.idController Tag_Confirmation (.chars [])]
    | .running bb' =>
      bb'.trace.countP Event.isConfirmationSend = bb.trace.countP Event.isConfirmationSend := by
  induction turns generalizing bb with
  | zero =>
    simp only [Blackboard.Activate, Except.ok.injEq] at h
    subst h
    rfl
  | succ turns ih =>
    unfold Blackboard.Activate at h
    split at h
    · simp at h
    · rename_i status rest hpend
      split at h
      · simp at h
      · rename_i bb1 hturn
        simp only [Except.ok.injEq] at h
        subst h
        obtain ⟨hb, -, -, hcount⟩ := blackboard_turn_facts stamp bb status bb1 true hturn
        have hs : IsBlackboardStopTag status.tag := hb.mp rfl
        refine ⟨by simpa using hcount, status, by simp [hpend], hs, bb.trace, ?_⟩
        rw [blackboard_turn_stop stamp bb status hs] at hturn
        simp only [Except.ok.injEq, Prod.mk.injEq, and_true] at hturn
        subst hturn
        simp [Blackboard.emit, Blackboard.Message, Blackboard.Recv]
      · rename_i bb1 hturn
        obtain ⟨-, hsub, hid, hcount⟩ := blackboard_turn_facts stamp bb status bb1 false hturn
        have := ih bb1 h
        simp only [Bool.false_eq_true, if_false, Nat.add_zero] at hcount
        cases r with
        | returned bb' =>
          simp only at this ⊢
          obtain ⟨hc, st, hst, htag, before, htrace⟩ := this
          exact ⟨by rw [hc, hcount], st, hsub st hst, htag, before, by rw [htrace, hid]⟩
        | running bb' =>
          simp only at this ⊢
          rw [this, hcount]

theorem blackboard_spins (stamp : StdString) (bb : Blackboard) (status : Message)
    (rest : List Message) (hpend : bb.pending = status :: rest)
    (hturn : Blackboard.Activate.turn stamp bb status = .ok (bb, false)) (turns : Nat) :
    Blackboard.Activate stamp turns bb = .ok (.running bb) := by
  induction turns with
  | zero => rfl
  | succ turns ih =>
    unfold Blackboard.Activate
    simp only [hpend, hturn]
    exact ih

/-! ## Blackboard: statements -/

/-- C11, as stated, fails on the code: a `Tag_RequestStop` message sent by rank 3, which is
not the controller (rank 0), ends the loop of the blackboard; the rank of the sender is
never looked at. -/
theorem blackboard_activate_exit_counterexample :
    (∃ bb', Blackboard.Activate "2020-01-02_03-04-05".toList 1
        (exampleBoard [⟨3, Tag_RequestStop, .chars []⟩]) = .ok (.returned bb')) ∧
    (exampleBoard [⟨3, Tag_RequestStop, .chars []⟩]).idController = 0 ∧
    (3 : Int) ≠ (exampleBoard [⟨3, Tag_RequestStop, .chars []⟩]).idController :=
  ⟨⟨_, rfl⟩, rfl, by decide⟩

/-- C11, amended. The loop of the blackboard returns only in response to a message tagged
`Tag_StopBlackboard`, `Tag_RequestStop` or `Tag_RequestStopTask`, whichever rank sent it:
when `Activate` returns, such a message was pending and the last things done are its
receive and the confirmation; and a turn of the loop ends it exactly when the tag of the
probed message is one of the three, so that a message with any other tag never does. -/
theorem blackboard_activate_exit (stamp : StdString) (turns : Nat) (bb bb' : Blackboard)
    (h : Blackboard.Activate stamp turns bb = .ok (.returned bb')) :
    (∃ status ∈ bb.pending,
      (status.tag = Tag_StopBlackboard ∨ status.tag = Tag_RequestStop
        ∨ status.tag = Tag_RequestStopTask) ∧
      ∃ before, bb'.trace = before ++
        [.recv status.source status.tag, .send bb.idController Tag_Confirmation (.chars [])]) ∧
    (∀ (bbx : Blackboard) (status : Message) (bb1 : Blackboard) (b : Bool),
      Blackboard.Activate.turn stamp bbx status = .ok (bb1, b) →
      (b = true ↔ (status.tag = Tag_StopBlackboard ∨ status.tag = Tag_RequestStop
        ∨ status.tag = Tag_RequestStopTask))) := by
  have := blackboard_loop_facts stamp turns bb (.returned bb') h
  simp only at this
  exact ⟨this.2, fun bbx status bb1 b hturn =>
    (blackboard_turn_facts stamp bbx status bb1 b hturn).1⟩

/-- C11, amended, at a concrete input: a log line from rank 2, then `Tag_StopBlackboard`
from the controller; the loop returns on the second turn. -/
theorem blackboard_activate_exit_witness :
    ∃ bb', Blackboard.Activate "2020-01-02_03-04-05".toList 2
        (exampleBoard [⟨2, Tag_LogMessage, .chars "hello".toList⟩,
          ⟨0, Tag_StopBlackboard, .chars []⟩]) = .ok (.returned bb') ∧
      ∃ status ∈ (exampleBoard [⟨2, Tag_LogMessage, .chars "hello".toList⟩,
          ⟨0, Tag_StopBlackboard, .chars []⟩]).pending,
        (status.tag = Tag_StopBlackboard ∨ status.tag = Tag_RequestStop
          ∨ status.tag = Tag_RequestStopTask) ∧
        ∃ before, bb'.trace = before ++
          [.recv status.source status.tag, .send 0 Tag_Confirmation (.chars [])] := by
  have h : ∃ bb', Blackboard.Activate "2020-01-02_03-04-05".toList 2
        (exampleBoard [⟨2, Tag_LogMessage, .chars "hello".toList⟩,
          ⟨0, Tag_StopBlackboard, .chars []⟩]) = .ok (.returned bb') := ⟨_, rfl⟩
  obtain ⟨bb', hb⟩ := h
  exact ⟨bb', hb, (blackboard_activate_exit _ _ _ bb' hb).1⟩

/-- C12. When the first pending message is tagged `Tag_StopBlackboard`, `Tag_RequestStop` or
`Tag_RequestStopTask`, the blackboard receives it, writes the stamped text
"Blackboard stopped." (with its line end) to the open run log, sends one zero-byte
`Tag_Confirmation` to the controller rank and `Activate` returns. A turn for any other tag
sends no confirmation and does not return, so a run of the loop, however long, sends at
most one confirmation: one when it has returned, none while it is still running. -/
theorem blackboard_stop_confirms (stamp : StdString) (turns : Nat) (bb : Blackboard)
    (status : Message) (rest : List Message)
    (htag : status.tag = Tag_StopBlackboard ∨ status.tag = Tag_RequestStop
      ∨ status.tag = Tag_RequestStopTask)
    (hpend : bb.pending = status :: rest) (hopen : bb.pRunLogMgr.isOpen = true) :
    (∃ bb', Blackboard.Activate stamp (turns + 1) bb = .ok (.returned bb') ∧
      bb'.pending = rest ∧
      bb'.pRunLogMgr.written = bb.pRunLogMgr.written
        ++ [stamp ++ ": ".toList ++ "Blackboard stopped.\n".toList] ∧
      bb'.trace = bb.trace ++
        [.recv status.source status.tag, .send bb.idController Tag_Confirmation (.chars [])]) ∧
    (∀ (bbx : Blackboard) (st : Message) (bb1 : Blackboard) (b : Bool),
      ¬(st.tag = Tag_StopBlackboard ∨ st.tag = Tag_RequestStop ∨ st.tag = Tag_RequestStopTask) →
      Blackboard.Activate.turn stamp bbx st = .ok (bb1, b) →
      b = false ∧
      bb1.trace.countP Event.isConfirmationSend = bbx.trace.countP Event.isConfirmationSend) ∧
    (∀ (n : Nat) (bbx : Blackboard) (r : Blackboard.LoopEnd),
      Blackboard.Activate stamp n bbx = .ok r →
      r.board.trace.countP Event.isConfirmationSend
        = bbx.trace.countP Event.isConfirmationSend
          + (match r with | .returned _ => 1 | .running _ => 0)) := by
  refine ⟨?_, ?_, ?_⟩
  · have hturn := blackboard_turn_stop stamp bb status htag
    refine ⟨Blackboard.emit (Blackboard.Message stamp (bb.Recv status.source status.tag)
      "Blackboard stopped.\n".toList) (.send bb.idController Tag_Confirmation (.chars [])),
      ?_, ?_, ?_, ?_⟩
    · unfold Blackboard.Activate
      simp only [hpend, hturn]
    · simp [Blackboard.emit, Blackboard.Message, Blackboard.Recv, hpend]
    · simp [Blackboard.emit, Blackboard.Message, Blackboard.Recv, RunLogMgr.Write, hopen,
        DateTimeStampPrefix]
    · simp [Blackboard.emit, Blackboard.Message, Blackboard.Recv]
  · intro bbx st bb1 b hst hturn
    obtain ⟨hb, -, -, hcount⟩ := blackboard_turn_facts stamp bbx st bb1 b hturn
    have hbf : b = false := by
      cases b with
      | false => rfl
      | true => exact absurd (hb.mp rfl) hst
    subst hbf
    exact ⟨rfl, by simpa using hcount⟩
  · intro n bbx r hr
    have := blackboard_loop_facts stamp n bbx r hr
    cases r with
    | returned bb' => exact this.1
    | running bb' => exact this

/-- C12, at a concrete input: `Tag_StopBlackboard` from the controller is the only pending
message. -/
theorem blackboard_stop_confirms_witness :
    ∃ bb', Blackboard.Activate "2020-01-02_03-04-05".toList (0 + 1)
        (exampleBoard [⟨0, Tag_StopBlackboard, .chars []⟩]) = .ok (.returned bb') ∧
      bb'.pending = [] ∧
      bb'.pRunLogMgr.written = (exampleBoard [⟨0, Tag_StopBlackboard, .chars []⟩]).pRunLogMgr.written
        ++ ["2020-01-02_03-04-05".toList ++ ": ".toList ++ "Blackboard stopped.\n".toList] ∧
      bb'.trace = (exampleBoard [⟨0, Tag_StopBlackboard, .chars []⟩]).trace ++
        [.recv 0 Tag_StopBlackboard, .send 0 Tag_Confirmation (.chars [])] :=
  (blackboard_stop_confirms "2020-01-02_03-04-05".toList 0
    (exampleBoard [⟨0, Tag_StopBlackboard, .chars []⟩]) ⟨0, Tag_StopBlackboard, .chars []⟩ []
    (Or.inl rfl) rfl rfl).1

/-- C13, the code at the failing inputs. Without an output manager, a turn for a pending
`Tag_TaskResults` message receives nothing: the message stays first in the queue, every
further `Probe` announces it again and the loop never reaches the stop message behind it,
however many turns it runs. The same holds for a tag the switch does not handle
(`Tag_Data`). With an output manager the results message is received. -/
theorem blackboard_unconsumed_message :
    Blackboard.Activate.turn "2020-01-02_03-04-05".toList
        (exampleBoard [⟨2, Tag_TaskResults, .chars ['r']⟩, ⟨0, Tag_StopBlackboard, .chars []⟩])
        ⟨2, Tag_TaskResults, .chars ['r']⟩
      = .ok (exampleBoard [⟨2, Tag_TaskResults, .chars ['r']⟩,
          ⟨0, Tag_StopBlackboard, .chars []⟩], false) ∧
    (∀ turns, Blackboard.Activate "2020-01-02_03-04-05".toList turns
        (exampleBoard [⟨2, Tag_TaskResults, .chars ['r']⟩, ⟨0, Tag_StopBlackboard, .chars []⟩])
      = .ok (.running (exampleBoard [⟨2, Tag_TaskResults, .chars ['r']⟩,
          ⟨0, Tag_StopBlackboard, .chars []⟩]))) ∧
    (∀ turns, Blackboard.Activate "2020-01-02_03-04-05".toList turns
        (exampleBoard [⟨2, Tag_Data, .chars ['d']⟩, ⟨0, Tag_StopBlackboard, .chars []⟩])
      = .ok (.running (exampleBoard [⟨2, Tag_Data, .chars ['d']⟩,
          ⟨0, Tag_StopBlackboard, .chars []⟩]))) ∧
    (Blackboard.Activate.turn "2020-01-02_03-04-05".toList
        { exampleBoard [⟨2, Tag_TaskResults, .chars ['r']⟩, ⟨0, Tag_StopBlackboard, .chars []⟩]
          with HaveOutputMgr := true }
        ⟨2, Tag_TaskResults, .chars ['r']⟩).toOption.map (fun r => r.1.pending)
      = some [⟨0, Tag_StopBlackboard, .chars []⟩] :=
  ⟨rfl, blackboard_spins _ _ _ _ rfl rfl, blackboard_spins _ _ _ _ rfl rfl, by decide⟩

/-! ## CommStrings: the last line of a buffer -/

theorem receive_loop_any_lines (V : StrVec) (packed : List Char) (strVec : StrVec)
    (hV : ∀ s ∈ V, s.length < maxLineLength ∧ lineDelimiter ∉ s) :
    CommStrings.Receive.loop (packedLines V ++ packed) [] strVec
      = CommStrings.Receive.loop packed [] (strVec ++ V.filter (fun s => !s.isEmpty)) := by
  induction V generalizing strVec with
  | nil => simp [packedLines]
  | cons s rest ih =>
    obtain ⟨hlen, hnl⟩ := hV s (List.mem_cons_self _ _)
    have hrest : ∀ x ∈ rest, x.length < maxLineLength ∧ lineDelimiter ∉ x :=
      fun x hx => hV x (List.mem_cons_of_mem _ hx)
    cases s with
    | nil =>
      have := ih strVec hrest
      simpa [packedLines, CommStrings.Receive.loop] using this
    | cons a s =>
      have hstep := receive_loop_line (a :: s) (packedLines rest ++ packed) [] strVec
        (by simp) (by simpa using hlen) hnl
      simp only [List.nil_append] at hstep
      simp only [packedLines, List.append_assoc, List.cons_append]
      simp only [List.cons_append] at hstep
      rw [hstep, ih _ hrest]
      simp

theorem receive_loop_unterminated (l : List Char) (c : Char) (bufUnpacked : List Char)
    (strVec : StrVec) (hl : lineDelimiter ∉ l)
    (hlen : bufUnpacked.length + l.length < maxLineLength) :
    CommStrings.Receive.loop (l ++ [c]) bufUnpacked strVec
      = if bufUnpacked ++ l = [] then strVec else strVec ++ [bufUnpacked ++ l] := by
  induction l generalizing bufUnpacked with
  | nil =>
    simp only [List.length_nil, Nat.add_zero] at hlen
    cases bufUnpacked with
    | nil => simp [CommStrings.Receive.loop]
    | cons b bs =>
      have hlen' : bs.length + 1 < maxLineLength := by simpa using hlen
      simp [CommStrings.Receive.loop, hlen']
  | cons a l ih =>
    simp only [List.length_cons] at hlen
    have ha : a ≠ lineDelimiter := fun h => hl (by simp [h])
    have hl' : lineDelimiter ∉ l := fun h => hl (List.mem_cons_of_mem _ h)
    have hlt : bufUnpacked.length < maxLineLength := by omega
    have hne : bufUnpacked.length ≠ maxLineLength := by omega
    have := ih (bufUnpacked ++ [a]) hl' (by simp; omega)
    simpa [CommStrings.Receive.loop, hlt, ha, hne] using this

/-- C30. A buffer that does not end with the delimiter: its lines `V`, each followed by the
delimiter, and then a last line `l` followed by one more byte `c` that is not the
delimiter. When every line is shorter than 2048 bytes, `Receive` appends to the output
vector the non-empty lines of `V` in full and then `l`, the last line without its last
byte `c`; when the last line is the single byte `c`, nothing is committed for it. -/
theorem receive_unterminated_last_line (msgTag : MsgTags) (V : StrVec) (l : List Char)
    (c : Char) (strVec : StrVec) (htag : IsMsgTagValid msgTag = true)
    (hV : ∀ s ∈ V, s.length < 2048 ∧ lineDelimiter ∉ s)
    (hl : lineDelimiter ∉ l) (hc : c ≠ lineDelimiter) (hlen : (l ++ [c]).length < 2048) :
    (packedLines V ++ (l ++ [c])).getLast? ≠ some lineDelimiter ∧
    CommStrings.Receive msgTag (packedLines V ++ (l ++ [c])) strVec
      = strVec ++ V.filter (fun s => !s.isEmpty) ++ (if l = [] then [] else [l]) := by
  refine ⟨by simpa [← List.append_assoc] using hc, ?_⟩
  have hpos : (packedLines V ++ (l ++ [c])).length > 0 := by simp
  simp only [CommStrings.Receive, htag, Bool.not_true, Bool.false_eq_true, if_false, hpos,
    if_true]
  rw [receive_loop_any_lines V _ _ hV,
    receive_loop_unterminated l c [] _ hl
      (by simp only [List.length_append, List.length_cons, List.length_nil] at hlen
          simp only [List.length_nil, Nat.zero_add]
          exact Nat.lt_of_succ_lt hlen)]
  by_cases hnil : l = []
  · simp [hnil]
  · simp [hnil]

/-- C30, at a concrete input: the buffer "ab", delimiter, "cde" loses the "e"; the buffer
"ab", delimiter, "c" gives the one line "ab". -/
theorem receive_unterminated_last_line_witness :
    CommStrings.Receive Tag_Data (packedLines ["ab".toList] ++ ("cd".toList ++ ['e'])) []
      = [] ++ ["ab".toList].filter (fun s => !s.isEmpty)
        ++ (if "cd".toList = [] then [] else ["cd".toList]) ∧
    CommStrings.Receive Tag_Data "ab\ncde".toList [] = ["ab".toList, "cd".toList] ∧
    CommStrings.Receive Tag_Data "ab\nc".toList [] = ["ab".toList] :=
  ⟨(receive_unterminated_last_line Tag_Data ["ab".toList] "cd".toList 'e' [] rfl
      (by decide) (by decide) (by decide) (by decide)).2, by decide, by decide⟩

/-! ## JoinStrings -/

theorem intercalate_cons_eq (c : Char) (x : List Char) (xs : List (List Char)) :
    List.intercalate [c] (x :: xs) = x ++ (xs.map (fun y => c :: y)).flatten := by
  induction xs generalizing x with
  | nil => simp [List.intercalate]
  | cons y ys ih =>
    have := ih y
    simp [List.intercalate] at this ⊢
    simpa using this

theorem joinStrings_loop_onto (v : StrVec) (c : Char) (str : StdString) (hc : c ≠ NULL_CHAR)
    (hs : str ≠ []) :
    JoinStrings.loop v c str = str ++ (v.map (fun y => c :: y)).flatten := by
  induction v generalizing str with
  | nil => simp [JoinStrings.loop]
  | cons x rest ih =>
    have hne : str.isEmpty = false := by
      cases str with
      | nil => exact absurd rfl hs
      | cons _ _ => rfl
    have hb : (c != NULL_CHAR) = true := by simpa using hc
    simp only [JoinStrings.loop, hne, Bool.not_false, hb, Bool.and_self, if_true]
    rw [ih _ (by simp)]
    simp

theorem joinStrings_loop_fresh (v : StrVec) (c : Char) (hc : c ≠ NULL_CHAR) :
    JoinStrings.loop v c [] = List.intercalate [c] (v.dropWhile (fun s => s.isEmpty)) := by
  induction v with
  | nil => simp [JoinStrings.loop, List.intercalate]
  | cons x rest ih =>
    cases x with
    | nil => simpa [JoinStrings.loop] using ih
    | cons a x =>
      simp only [JoinStrings.loop, List.isEmpty_nil, Bool.not_true, Bool.false_and,
        Bool.false_eq_true, if_false, List.nil_append]
      rw [joinStrings_loop_onto rest c (a :: x) hc (by simp)]
      simp [List.dropWhile_cons, intercalate_cons_eq]

/-- C24, as stated, fails on the code: for the vector of the empty string and "a" and the
separator `'\n'`, `JoinStrings` onto an empty string gives "a" of length 1; no separator
stands between the two elements. -/
theorem joinStrings_counterexample :
    JoinStrings [] [[], ['a']] NL_CHAR = (['a'], 1) ∧
    NL_CHAR ≠ NULL_CHAR ∧
    List.intercalate [NL_CHAR] [[], ['a']] = [NL_CHAR, 'a'] ∧
    (JoinStrings [] [[], ['a']] NL_CHAR).1 ≠ List.intercalate [NL_CHAR] [[], ['a']] := by
  refine ⟨rfl, by decide, rfl, by decide⟩

/-- C24, amended. For every string vector `v` and separator `c` other than NUL,
`JoinStrings` applied to an empty result string skips the empty strings at the front of
`v` and produces the remaining elements in order with exactly one `c` between each pair
of consecutive elements, and returns the length of that string; so when the first element
of `v` is not empty the result is all of `v` joined with `c`. The reply to a request for
the command-line arguments is the configuration arguments joined in this way with
`'\n'`, sent with `Tag_CmdLineArgs` to the rank that asked. -/
theorem joinStrings_joined (v : StrVec) (c : Char) (ctl : Controller) (status : Message)
    (hc : c ≠ NULL_CHAR) :
    JoinStrings [] v c
      = (List.intercalate [c] (v.dropWhile (fun s => s.isEmpty)),
         (List.intercalate [c] (v.dropWhile (fun s => s.isEmpty))).length) ∧
    (v.head? ≠ some [] → (JoinStrings [] v c).1 = List.intercalate [c] v) ∧
    (Controller.DoActionRequestCmdLineArgs ctl status).trace
      = ctl.trace ++ [.recv status.source Tag_RequestCmdLineArgs,
          .send status.source Tag_CmdLineArgs
            (.chars (List.intercalate [NL_CHAR] (ctl.pConfig.dropWhile (fun s => s.isEmpty))))] := by
  refine ⟨?_, ?_, ?_⟩
  · simp [JoinStrings, joinStrings_loop_fresh v c hc]
  · intro hhead
    simp only [JoinStrings, joinStrings_loop_fresh v c hc]
    cases v with
    | nil => rfl
    | cons x rest =>
      cases x with
      | nil => exact absurd rfl hhead
      | cons a x => simp [List.dropWhile_cons]
  · simp [Controller.DoActionRequestCmdLineArgs, JoinStrings,
      joinStrings_loop_fresh _ NL_CHAR (by decide), Controller.emit]

/-- C24, amended, at a concrete input: the arguments "-n", "4", "run" joined with
`'\n'`. -/
theorem joinStrings_joined_witness :
    JoinStrings [] ["-n".toList, "4".toList, "run".toList] NL_CHAR
      = ("-n\n4\nrun".toList, 8) ∧
    (JoinStrings [] ["-n".toList, "4".toList, "run".toList] NL_CHAR).1
      = List.intercalate [NL_CHAR] ["-n".toList, "4".toList, "run".toList] := by
  have h := joinStrings_joined ["-n".toList, "4".toList, "run".toList] NL_CHAR
    { idFirstTask := 2, idBlackboard := 1, argv := [['p']], pTracker := ⟨[State_Unknown]⟩,
      pConfig := [], stateBB := State_Running, trace := [] }
    ⟨2, Tag_RequestCmdLineArgs, .chars []⟩ (by decide)
  exact ⟨rfl, h.2.1 (by decide)⟩

/-! ## CommStrings: buffer slots -/

/-- C25, the code at the failing input. A channel of a group of two processes has two
buffer slots. Two sends use the slots 0 and 1; `WaitAll` completes them and leaves the send
count at 2 (it never resets it, whatever the channel); the next `Isend` indexes slot 2,
past the end of the slot array, which is undefined behaviour. -/
theorem isend_slot_past_end :
    (CommStrings.new 0 2).asyncBuffers.length = 2 ∧
    (∀ ch : CommStrings, ch.WaitAll.sendCount = ch.sendCount ∧
      ch.WaitAll.asyncBuffers = ch.asyncBuffers ∧ ch.WaitAll.requests = []) ∧
    (∃ r1 r2, (CommStrings.new 0 2).Isend ⟨0, true⟩ 1 Tag_Data [['a']] = .ok r1 ∧
      r1.channel.sendCount = 1 ∧
      r1.channel.Isend ⟨0, true⟩ 1 Tag_Data [['b']] = .ok r2 ∧
      r2.channel.sendCount = 2 ∧
      r2.channel.WaitAll.sendCount = 2 ∧ r2.channel.WaitAll.requests = [] ∧
      r2.channel.WaitAll.asyncBuffers.length = 2 ∧
      r2.channel.WaitAll.Isend ⟨0, true⟩ 1 Tag_Data [['c']] = .error .undefined) := by
  refine ⟨rfl, ?_, _, _, rfl, rfl, rfl, rfl, rfl, rfl, rfl, rfl⟩
  intro ch
  unfold CommStrings.WaitAll
  split
  · exact ⟨rfl, rfl, rfl⟩
  · rename_i h
    refine ⟨rfl, rfl, ?_⟩
    cases hr : ch.requests with
    | nil => rfl
    | cons a l => simp [hr] at h

/-! ## Controller: order of the shutdown -/

/-- C26, the code at the failing input. One work task (rank 2) tracked as RUNNING, the
blackboard not yet stopped. The handler of a stop request sends `Tag_RequestStopTask` to
the task, finds that not all tasks are stopped, logs the failure and stops the blackboard
all the same: `Tag_StopBlackboard` is sent while the slot is still RUNNING. In the run of
`Activate` for this request followed by the state message COMPLETED of the task, the
blackboard is stopped before the tracker hears of the task. For every controller, the
handler stops a blackboard that is not yet stopped and leaves the tracker as it is. -/
theorem requestStop_stops_blackboard_early :
    (∃ c', Controller.DoActionRequestStop
        { idFirstTask := 2, idBlackboard := 1, argv := [['p']],
          pTracker := ⟨[State_Running]⟩, pConfig := [], stateBB := State_Running, trace := [] }
        ⟨2, Tag_RequestStop, .chars []⟩ = .ok c' ∧
      c'.trace = [.log "Controller: received stop request.", .recv 2 Tag_RequestStop,
        .log "Controller stopping all tasks.", .send 2 Tag_RequestStopTask (.chars []),
        .log "Controller: stop all tasks failed.",
        .send 1 Tag_StopBlackboard (.chars []), .recv 1 Tag_Confirmation, .sleep] ∧
      c'.pTracker.taskStateArray = [State_Running] ∧ c'.pTracker.AreAllStopped = false ∧
      ¬ StoppedState State_Running) ∧
    (∃ c', Controller.Activate
        { idFirstTask := 2, idBlackboard := 1, argv := [['p']],
          pTracker := ⟨[State_Running]⟩, pConfig := [], stateBB := State_Running, trace := [] }
        [⟨2, Tag_RequestStop, .chars []⟩, ⟨2, Tag_State, .ints [2, State_Completed]⟩]
        = .ok c' ∧
      c'.trace = [.log "Command-line arguments: none", .hook .BeforeTasks,
        .log "Controller: received stop request.", .recv 2 Tag_RequestStop,
        .log "Controller stopping all tasks.", .send 2 Tag_RequestStopTask (.chars []),
        .log "Controller: stop all tasks failed.",
        .send 1 Tag_StopBlackboard (.chars []), .recv 1 Tag_Confirmation, .sleep,
        .recv 2 Tag_State, .setState 0 State_Completed,
        .hook .AfterTasks, .log "Controller: all tasks are stopped.", .timerStop,
        .log "Elapsed time for all tasks (seconds): ", .log "Controller stopped."]) ∧
    (∀ (c : Controller) (status : Message),
      ∃ c', Controller.DoActionRequestStop c status = .ok c' ∧
        c'.pTracker = c.pTracker ∧
        c'.trace.countP Event.isStopBlackboardSend
          = c.trace.countP Event.isStopBlackboardSend
            + (if c.stateBB = State_Completed then 0 else 1)) := by
  refine ⟨⟨_, rfl, rfl, rfl, rfl, by decide⟩, ⟨_, rfl, rfl⟩, ?_⟩
  intro c status
  have h : ∃ c', Controller.DoActionRequestStop c status = .ok c' := by
    simp [Controller.DoActionRequestStop, Controller.stopAllTasks_eq]
  obtain ⟨c', hc'⟩ := h
  refine ⟨c', hc', ?_, (shutdownCall_run_counts (.requestStopHandler status) c c' hc').2.1⟩
  simp only [Controller.DoActionRequestStop, Controller.stopAllTasks_eq, Except.ok.injEq] at hc'
  subst hc'
  simp [Controller.stopBlackboard_pTracker]

/-! ## Task: the end of a worker -/

theorem publishedStates_append (a b : List Event) :
    publishedStates (a ++ b) = publishedStates a ++ publishedStates b := by
  simp [publishedStates, List.filterMap_append]

theorem task_destroy_trace {σ : Type} (t : Task σ) :
    t.destroy.trace
      = t.trace ++ [.send t.idController Tag_State (.ints [t.bufferState0, State_Terminated])] :=
  rfl

/-- C29. The destructor of a worker publishes a state message that carries TERMINATED,
whatever the state of the worker is, and `MakeTask` of the master destroys the worker as
soon as its `Activate` has returned: the states a worker publishes over its lifetime end
with TERMINATED, also when the worker finished as COMPLETED or ERROR. -/
theorem task_lifetime_ends_terminated {σ : Type} (env : ProcessEnv σ) (m m' : Master σ)
    (id : Int) (hmake : Master.MakeTask env m id = .ok m') :
    (∀ t : Task σ,
      t.destroy.trace = t.trace
        ++ [.send t.idController Tag_State (.ints [t.bufferState0, State_Terminated])] ∧
      t.destroy.state = State_Terminated ∧
      publishedStates t.destroy.trace = publishedStates t.trace ++ [State_Terminated]) ∧
    ∃ task, Task.Activate env.adapter env.iprobe env.inbox
        (Task.new ID_FirstTask id ID_Master (env.Create ("Task " ++ ToString id) m.argv))
        = .ok task ∧
      (IsCompleted task.state || IsTerminated task.state || IsError task.state) = true ∧
      m'.pTask = none ∧ m'.taskDestroyed = some task.destroy ∧
      publishedStates task.destroy.trace = publishedStates task.trace ++ [State_Terminated] ∧
      task.destroy.trace.getLast?
        = some (.send task.idController Tag_State
            (.ints [task.bufferState0, State_Terminated])) := by
  have hdestroy : ∀ t : Task σ,
      publishedStates t.destroy.trace = publishedStates t.trace ++ [State_Terminated] := by
    intro t
    rw [task_destroy_trace, publishedStates_append]
    simp [publishedStates, Event.publishedState]
  refine ⟨fun t => ⟨rfl, rfl, hdestroy t⟩, ?_⟩
  unfold Master.MakeTask at hmake
  simp only at hmake
  split at hmake
  · exact absurd hmake (by simp)
  · rename_i task htask
    simp only [Except.ok.injEq] at hmake
    subst hmake
    refine ⟨task, htask, ?_, rfl, rfl, hdestroy task, by simp [task_destroy_trace]⟩
    have hstate := (task_state_published _ _ _ _ _ _ _ task htask).2.2
    rcases hstate with h | h | h <;> simp [h, IsCompleted, IsTerminated, IsError]

/-- C29, at a concrete input: the worker of rank 2 is initialized and started, completes,
and is destroyed: it publishes CREATED, INITIALIZED, COMPLETED and then TERMINATED. -/
theorem task_lifetime_ends_terminated_witness :
    ∃ m' task, Master.MakeTask
        (exampleEnv 2 3 [⟨0, Tag_InitializeTask, .chars []⟩, ⟨0, Tag_StartTask, .chars []⟩])
        { id := 2, numProc := 3, minNumProc := 3, haveCollectiveCB := false, argv := [['p']],
          pController := none, pBlackboard := none, pTask := none, taskDestroyed := none,
          trace := [] } 2 = .ok m' ∧
      m'.taskDestroyed = some task ∧ task.state = State_Terminated ∧
      publishedStates task.trace
        = [State_Created, State_Initialized, State_Completed, State_Terminated] := by
  have h : ∃ m', Master.MakeTask
        (exampleEnv 2 3 [⟨0, Tag_InitializeTask, .chars []⟩, ⟨0, Tag_StartTask, .chars []⟩])
        { id := 2, numProc := 3, minNumProc := 3, haveCollectiveCB := false, argv := [['p']],
          pController := none, pBlackboard := none, pTask := none, taskDestroyed := none,
          trace := [] } 2 = .ok m' := ⟨_, rfl⟩
  obtain ⟨m', hm⟩ := h
  obtain ⟨-, task, htask, -, -, hdest, -, -⟩ := task_lifetime_ends_terminated _ _ m' 2 hm
  have htask' : task = (Task.Activate batchAdapter (fun _ => false)
      [⟨0, Tag_InitializeTask, .chars []⟩, ⟨0, Tag_StartTask, .chars []⟩]
      (Task.new 2 2 0 ())).toOption.get (by rfl) := by
    have : (Task.Activate batchAdapter (fun _ => false)
      [⟨0, Tag_InitializeTask, .chars []⟩, ⟨0, Tag_StartTask, .chars []⟩]
      (Task.new 2 2 0 ())) = .ok task := htask
    simp [this, Except.toOption]
  refine ⟨m', task.destroy, hm, hdest, rfl, ?_⟩
  rw [htask']
  rfl

/-! ## Blackboard: the name of the log file -/

theorem replaceChar_append (a b : StdString) (x y : Char) :
    replaceChar (a ++ b) x y = replaceChar a x y ++ replaceChar b x y := by
  simp [replaceChar]

theorem replaceChar_cons_self (b : StdString) (x y : Char) :
    replaceChar (x :: b) x y = y :: replaceChar b x y := by
  simp [replaceChar]

theorem replaceChar_absent (a : StdString) (x y : Char) (h : x ∉ a) :
    replaceChar a x y = a := by
  induction a with
  | nil => rfl
  | cons c a ih =>
    have hc : c ≠ x := fun hc => h (by simp [hc])
    have ha : x ∉ a := fun ha => h (List.mem_cons_of_mem _ ha)
    have := ih ha
    simp only [replaceChar, beq_iff_eq] at this ⊢
    simp [hc, this]

theorem replaceChar_three (a b c : StdString) (x y : Char) (ha : x ∉ a) (hb : x ∉ b)
    (hc : x ∉ c) :
    replaceChar (a ++ x :: (b ++ x :: c)) x y = a ++ y :: (b ++ y :: c) := by
  rw [replaceChar_append, replaceChar_cons_self, replaceChar_append, replaceChar_cons_self,
    replaceChar_absent a x y ha, replaceChar_absent b x y hb, replaceChar_absent c x y hc]

/-- C23, as stated, fails on the code: with the root "SimpleExample.log", the name the
example programs hand in, the blackboard opens the file "SimpleExample.log" itself; neither
date and time nor ".txt" are appended. -/
theorem blackboard_log_file_name_counterexample :
    (Blackboard.new "2020/01/02".toList "03:04:05".toList true [] 1 0 false
        "SimpleExample.log".toList).toOption.map (fun bb => bb.pRunLogMgr.fileName)
      = some "SimpleExample.log".toList ∧
    "SimpleExample.log".toList ≠ "SimpleExample.log.2020-01-02.03-04-05.txt".toList := by
  refine ⟨rfl, by decide⟩

/-- C23, amended. The blackboard opens the file named by the root itself when the root is
not empty. When the root is empty the name is the product short name followed by "_Log"
("MTBMPI_Log"), a dot, the current date "yyyy-mm-dd" (the date "yyyy/mm/dd" with dashes
for the slashes), a dot, the current time "hh-mm-ss" (the time "hh:mm:ss" with dashes for
the colons) and ".txt". The constructor throws when the file cannot be opened. -/
theorem blackboard_log_file_name (root : StdString) (yyyy mm dd hh mi ss : StdString)
    (pending : List Message) (myID controllerID : Int) (useOutputMgr : Bool)
    (hy : '/' ∉ yyyy) (hm : '/' ∉ mm) (hd : '/' ∉ dd)
    (hh' : ':' ∉ hh) (hmi : ':' ∉ mi) (hs : ':' ∉ ss) :
    (∃ bb, Blackboard.new (yyyy ++ '/' :: (mm ++ '/' :: dd)) (hh ++ ':' :: (mi ++ ':' :: ss))
        true pending myID controllerID useOutputMgr root = .ok bb ∧
      bb.pRunLogMgr.isOpen = true ∧ bb.pRunLogMgr.written = [] ∧
      bb.pRunLogMgr.fileName
        = if root = [] then
            "MTBMPI_Log".toList ++ '.' :: (yyyy ++ '-' :: (mm ++ '-' :: dd))
              ++ '.' :: (hh ++ '-' :: (mi ++ '-' :: ss)) ++ ".txt".toList
          else root) ∧
    (∃ what, Blackboard.new (yyyy ++ '/' :: (mm ++ '/' :: dd)) (hh ++ ':' :: (mi ++ ':' :: ss))
        false pending myID controllerID useOutputMgr root = .error (.thrown what)) := by
  refine ⟨?_, ⟨_, rfl⟩⟩
  refine ⟨_, rfl, rfl, rfl, ?_⟩
  by_cases hroot : root = []
  · subst hroot
    simp only [List.isEmpty_nil, if_true, Blackboard.CreateLogFileName,
      replaceChar_three _ _ _ _ _ hy hm hd, replaceChar_three _ _ _ _ _ hh' hmi hs]
    simp [ProductNameShort]
  · have hne : root.isEmpty = false := by
      cases root with
      | nil => exact absurd rfl hroot
      | cons _ _ => rfl
    simp [hne, hroot]

/-- C23, amended, at a concrete input: no root, the second of January 2020, five seconds
past 03:04. -/
theorem blackboard_log_file_name_witness :
    ∃ bb, Blackboard.new "2020/01/02".toList "03:04:05".toList true [] 1 0 false [] = .ok bb ∧
      bb.pRunLogMgr.fileName = "MTBMPI_Log.2020-01-02.03-04-05.txt".toList := by
  obtain ⟨bb, hbb, -, -, hname⟩ :=
    (blackboard_log_file_name [] "2020".toList "01".toList "02".toList "03".toList
      "04".toList "05".toList [] 1 0 false (by decide) (by decide) (by decide) (by decide)
      (by decide) (by decide)).1
  exact ⟨bb, hbb, by rw [hname]; rfl⟩

/-! ## Master: lemmas -/

theorem master_new_refusal {σ : Type} (env : ProcessEnv σ) (useMinNumProc : Int)
    (useOutputMgr haveCollectiveCB : Bool) (logFileName : StdString)
    (h : env.size < max (ID_FirstTask + 1) useMinNumProc) :
    Master.new env useMinNumProc useOutputMgr haveCollectiveCB logFileName
      = .ok (masterBefore env useMinNumProc haveCollectiveCB
          (handlerLine env ++ (if env.rank = ID_Master then
            [diagnosticLine env.size (max (ID_FirstTask + 1) useMinNumProc)] else []))) := by
  unfold Master.new
  by_cases hmsg : env.msgErrorHandler.isEmpty = true <;>
    by_cases hrank : env.rank = ID_Master <;>
    simp [hmsg, hrank, h, Master.emit, Master.GetMinimumNumberOfProcesses,
      Master.GetFirstTaskID, masterBefore, handlerLine, diagnosticLine]

theorem master_new_creates {σ : Type} (env : ProcessEnv σ) (useMinNumProc : Int)
    (useOutputMgr haveCollectiveCB : Bool) (logFileName : StdString)
    (h : max (ID_FirstTask + 1) useMinNumProc ≤ env.size) :
    Master.new env useMinNumProc useOutputMgr haveCollectiveCB logFileName
      = Master.CreateProcesses env (masterBefore env useMinNumProc haveCollectiveCB
          (handlerLine env ++ (if ID_Blackboard < env.rank ∧ haveCollectiveCB = true then
            [.cbInitialize env.rank] else []))) logFileName useOutputMgr := by
  have h' : ¬ env.size < max (ID_FirstTask + 1) useMinNumProc := not_lt.mpr h
  unfold Master.new
  by_cases hmsg : env.msgErrorHandler.isEmpty = true <;>
    by_cases hrank : ID_Blackboard < env.rank <;>
    cases haveCollectiveCB <;>
    simp [hmsg, hrank, h', Master.emit, Master.GetMinimumNumberOfProcesses,
      Master.GetFirstTaskID, masterBefore, handlerLine]

theorem createProcesses_controller {σ : Type} (env : ProcessEnv σ) (m : Master σ)
    (logFileName : StdString) (useOutputMgr : Bool) (hid : m.id = ID_Master)
    (hn : ID_FirstTask ≤ m.numProc) :
    Master.CreateProcesses env m logFileName useOutputMgr
      = .ok { m with
          pController := some (Controller.mk ID_FirstTask ID_Blackboard m.argv
            ⟨List.replicate (m.numProc - ID_FirstTask).toNat State_Unknown⟩
            (m.argv.drop 1) State_Running []) } := by
  have h0 : (0 : Int) ≤ m.numProc - 2 := by
    have : (2 : Int) ≤ m.numProc := hn
    omega
  simp [Master.CreateProcesses, hid, Controller.new, Tracker.new, Master.GetFirstTaskID,
    Master.GetBlackboardID, h0, Controller.SetBlackboardState]

theorem createProcesses_blackboard {σ : Type} (env : ProcessEnv σ) (m m' : Master σ)
    (logFileName : StdString) (useOutputMgr : Bool) (hid : m.id = ID_Blackboard)
    (h : Master.CreateProcesses env m logFileName useOutputMgr = .ok m') :
    ∃ bb0 bb, Blackboard.new env.date env.time env.logOpens env.inbox ID_Blackboard ID_Master
        useOutputMgr logFileName = .ok bb0 ∧
      Blackboard.Activate env.stamp (bb0.pending.length + 1) bb0 = .ok (.returned bb) ∧
      m' = { m with pBlackboard := some bb } := by
  have h10 : ¬ ((1 : Int) = 0) := by decide
  simp only [Master.CreateProcesses, hid, h10, if_false, if_true, Master.GetControllerID] at h
  split at h
  · exact absurd h (by simp)
  · rename_i bb0 hbb0
    split at h
    · exact absurd h (by simp)
    · rename_i bb hbb
      simp only [Except.ok.injEq] at h
      exact ⟨bb0, bb, hbb0, hbb, by rw [← h, hid]⟩
    · exact absurd h (by simp)

theorem createProcesses_task {σ : Type} (env : ProcessEnv σ) (m m' : Master σ)
    (logFileName : StdString) (useOutputMgr : Bool) (hid : ID_FirstTask ≤ m.id)
    (h : Master.CreateProcesses env m logFileName useOutputMgr = .ok m') :
    ∃ task, Task.Activate env.adapter env.iprobe env.inbox
        (Task.new ID_FirstTask m.id ID_Master
          (env.Create ("Task " ++ ToString m.id) m.argv)) = .ok task ∧
      m' = { m with
        trace := m.trace ++ [.makeTask ("Task " ++ ToString m.id) m.id]
        pTask := none
        taskDestroyed := some task.destroy } := by
  have h0 : ¬ (m.id = 0) := by
    have : (2 : Int) ≤ m.id := hid
    omega
  have h1 : ¬ (m.id = 1) := by
    have : (2 : Int) ≤ m.id := hid
    omega
  simp only [Master.CreateProcesses, h0, h1, if_false, Master.MakeTask] at h
  split at h
  · exact absurd h (by simp)
  · rename_i task htask
    simp only [Except.ok.injEq] at h
    exact ⟨task, htask, h.symm⟩

/-! ## Master: statements -/

/-- C21. The constructor of the master refuses to run exactly when the number of processes
is below the larger of `ID_FirstTask + 1` and the configured minimum: it then returns with
no controller, no blackboard and no task created on any rank, and only rank 0 prints the
diagnostic. Otherwise rank 0 creates the controller with a tracker of
`numProc - ID_FirstTask` slots, rank 1 the blackboard (and runs it) and every rank from 2
on the task named "Task <rank>" (and runs and destroys it). -/
theorem master_refuses_or_creates {σ : Type} (env : ProcessEnv σ) (useMinNumProc : Int)
    (useOutputMgr haveCollectiveCB : Bool) (logFileName : StdString) :
    (env.size < max (ID_FirstTask + 1) useMinNumProc →
      ∃ m, Master.new env useMinNumProc useOutputMgr haveCollectiveCB logFileName = .ok m ∧
        m.pController = none ∧ m.pBlackboard = none ∧ m.pTask = none ∧
        m.taskDestroyed = none ∧ m.IsInitialized = false ∧
        m.trace = handlerLine env ++ (if env.rank = ID_Master then
          [diagnosticLine env.size (max (ID_FirstTask + 1) useMinNumProc)] else [])) ∧
    (max (ID_FirstTask + 1) useMinNumProc ≤ env.size →
      (env.rank = ID_Master →
        ∃ m c, Master.new env useMinNumProc useOutputMgr haveCollectiveCB logFileName = .ok m ∧
          m.pController = some c ∧
          c.pTracker = ⟨List.replicate (env.size - ID_FirstTask).toNat State_Unknown⟩ ∧
          (c.pTracker.Size : Int) = env.size - ID_FirstTask ∧
          c.idFirstTask = ID_FirstTask ∧ c.idBlackboard = ID_Blackboard ∧
          m.pBlackboard = none ∧ m.taskDestroyed = none ∧ m.trace = handlerLine env) ∧
      (env.rank = ID_Blackboard →
        ∀ m, Master.new env useMinNumProc useOutputMgr haveCollectiveCB logFileName = .ok m →
          ∃ bb0 bb, Blackboard.new env.date env.time env.logOpens env.inbox ID_Blackboard
              ID_Master useOutputMgr logFileName = .ok bb0 ∧
            Blackboard.Activate env.stamp (bb0.pending.length + 1) bb0 = .ok (.returned bb) ∧
            m.pBlackboard = some bb ∧ m.pController = none ∧ m.taskDestroyed = none ∧
            m.trace = handlerLine env) ∧
      (ID_FirstTask ≤ env.rank →
        ∀ m, Master.new env useMinNumProc useOutputMgr haveCollectiveCB logFileName = .ok m →
          ∃ task, Task.Activate env.adapter env.iprobe env.inbox
              (Task.new ID_FirstTask env.rank ID_Master
                (env.Create ("Task " ++ ToString env.rank) env.argv)) = .ok task ∧
            m.taskDestroyed = some task.destroy ∧
            m.pController = none ∧ m.pBlackboard = none ∧
            MasterEvent.makeTask ("Task " ++ ToString env.rank) env.rank ∈ m.trace ∧
            ∀ name id, MasterEvent.makeTask name id ∈ m.trace →
              name = "Task " ++ ToString env.rank ∧ id = env.rank)) := by
  refine ⟨fun h => ?_, fun h => ⟨fun hrank => ?_, fun hrank m hm => ?_, fun hrank m hm => ?_⟩⟩
  · refine ⟨_, master_new_refusal env useMinNumProc useOutputMgr haveCollectiveCB logFileName h,
      rfl, rfl, rfl, rfl, ?_, rfl⟩
    simp only [Master.IsInitialized, masterBefore]
    split
    · rfl
    · split <;> rfl
  · have hsize : ID_FirstTask ≤ env.size := by
      have h3 : (ID_FirstTask + 1 : Int) ≤ max (ID_FirstTask + 1) useMinNumProc :=
        le_max_left _ _
      have h4 : (2 : Int) + 1 ≤ env.size := le_trans h3 h
      show (2 : Int) ≤ env.size
      omega
    have hnot : ¬ (ID_Blackboard < env.rank ∧ haveCollectiveCB = true) := by
      rw [hrank]
      exact fun hc => absurd hc.1 (by decide)
    have hnew := master_new_creates env useMinNumProc useOutputMgr haveCollectiveCB
      logFileName h
    rw [if_neg hnot, List.append_nil,
      createProcesses_controller env _ logFileName useOutputMgr hrank hsize] at hnew
    refine ⟨_, _, hnew, rfl, rfl, ?_, rfl, rfl, rfl, rfl, rfl⟩
    have h0 : (0 : Int) ≤ env.size - 2 := by
      have : (2 : Int) ≤ env.size := hsize
      omega
    simp only [Tracker.Size, masterBefore, List.length_replicate]
    exact Int.toNat_of_nonneg h0
  · have hnot : ¬ (ID_Blackboard < env.rank ∧ haveCollectiveCB = true) := by
      rw [hrank]
      exact fun hc => absurd hc.1 (by decide)
    rw [master_new_creates env useMinNumProc useOutputMgr haveCollectiveCB logFileName h,
      if_neg hnot, List.append_nil] at hm
    obtain ⟨bb0, bb, hbb0, hbb, rfl⟩ :=
      createProcesses_blackboard env _ m logFileName useOutputMgr hrank hm
    exact ⟨bb0, bb, hbb0, hbb, rfl, rfl, rfl, rfl⟩
  · rw [master_new_creates env useMinNumProc useOutputMgr haveCollectiveCB logFileName h] at hm
    obtain ⟨task, htask, rfl⟩ :=
      createProcesses_task env _ m logFileName useOutputMgr hrank hm
    refine ⟨task, htask, rfl, rfl, rfl, by simp [masterBefore], ?_⟩
    intro name id hmem
    simp only [masterBefore, handlerLine, List.mem_append, List.mem_singleton] at hmem
    rcases hmem with (hmem | hmem) | hmem
    · split at hmem <;> simp at hmem
    · split at hmem <;> simp at hmem
    · simpa using hmem

/-- C21, at concrete inputs: two processes are refused; of five processes rank 0 creates
the controller with three slots; of three processes rank 1 creates the blackboard, which
runs until it is told to stop, and rank 2 creates the task "Task 2", which is initialized
and started, completes and is destroyed. -/
theorem master_refuses_or_creates_witness :
    (∃ m, Master.new (exampleEnv 0 2 []) 0 false false [] = .ok m ∧
      m.pController = none ∧ m.pBlackboard = none ∧ m.pTask = none ∧
      m.taskDestroyed = none ∧ m.IsInitialized = false ∧
      m.trace = handlerLine (exampleEnv 0 2 []) ++ (if (exampleEnv 0 2 []).rank = ID_Master then
        [diagnosticLine (exampleEnv 0 2 []).size (max (ID_FirstTask + 1) 0)] else [])) ∧
    (∃ m c, Master.new (exampleEnv 0 5 []) 0 false false [] = .ok m ∧
      m.pController = some c ∧
      c.pTracker.taskStateArray = [State_Unknown, State_Unknown, State_Unknown]) ∧
    (∃ m bb, Master.new (exampleEnv 1 3 [⟨0, Tag_StopBlackboard, .chars []⟩]) 0 false false []
        = .ok m ∧ m.pBlackboard = some bb) ∧
    (∃ m task, Master.new (exampleEnv 2 3
        [⟨0, Tag_InitializeTask, .chars []⟩, ⟨0, Tag_StartTask, .chars []⟩]) 0 false false []
        = .ok m ∧ m.taskDestroyed = some task ∧ m.trace = [.makeTask "Task 2" 2]) :=
  ⟨(master_refuses_or_creates (exampleEnv 0 2 []) 0 false false []).1 (by decide),
    ⟨_, _, rfl, rfl, rfl⟩, ⟨_, _, rfl, rfl⟩, ⟨_, _, rfl, rfl, rfl⟩⟩

theorem master_destroy_worker {σ : Type} (m : Master σ) (h : m.id ≠ ID_Master) :
    m.destroy = .ok { m with
      trace := m.trace
        ++ (if ID_Blackboard < m.id ∧ m.haveCollectiveCB = true then [.cbFinalize] else [])
        ++ [.mpiFinalize] } := by
  unfold Master.destroy
  simp only [Master.GetControllerID, h, if_false]
  by_cases hc : ID_Blackboard < m.id ∧ m.haveCollectiveCB = true
  · have hb : (decide (m.id > ID_Blackboard) && m.haveCollectiveCB) = true := by
      simp [hc.1, hc.2]
    simp [hb, hc, Master.emit]
  · have hb : (decide (m.id > ID_Blackboard) && m.haveCollectiveCB) = false := by
      by_cases h1 : ID_Blackboard < m.id
      · have : m.haveCollectiveCB = false := by
          cases hcb : m.haveCollectiveCB with
          | false => rfl
          | true => exact absurd ⟨h1, hcb⟩ hc
        simp [this]
      · simp [h1]
    simp [hb, hc, Master.emit]

theorem master_destroy_controller {σ : Type} (m m' : Master σ) (h : m.id = ID_Master)
    (hd : m.destroy = .ok m') : m'.trace = m.trace ++ [.mpiFinalize] := by
  unfold Master.destroy at hd
  have hnot : (decide (m.id > ID_Blackboard) && m.haveCollectiveCB) = false := by
    rw [h]; rfl
  simp only [Master.GetControllerID, h, if_true] at hd
  split at hd
  · exact absurd hd (by simp)
  · rename_i m1 hm1
    have hm1' : m1.id = ID_Master ∧ m1.trace = m.trace := by
      unfold Master.WaitUntilStopped at hm1
      simp only [h, if_true] at hm1
      split at hm1
      · split at hm1
        · exact absurd hm1 (by simp)
        · simp only [Except.ok.injEq] at hm1
          subst hm1
          exact ⟨rfl, rfl⟩
      · simp only [Except.ok.injEq] at hm1
        subst hm1
        exact ⟨h, rfl⟩
    have hnot1 : (decide (m1.id > ID_Blackboard) && m1.haveCollectiveCB) = false := by
      rw [hm1'.1]; rfl
    simp only [hnot1, Bool.false_eq_true, if_false, Except.ok.injEq] at hd
    subst hd
    simp [Master.emit, hm1'.2]

/-- C22, as stated, fails on the code: on the controller rank 0 of a job of three processes
with a callback object, neither the constructor of the master runs `Initialize` nor its
destructor `Finalize`, although rank 0 is not the blackboard rank. -/
theorem collective_callbacks_counterexample :
    ∃ m m', Master.new (exampleEnv 0 3 []) 3 false true [] = .ok m ∧
      m.haveCollectiveCB = true ∧ m.pController.isSome = true ∧ m.trace = [] ∧
      m.destroy = .ok m' ∧ m'.trace = [.mpiFinalize] ∧
      MasterEvent.cbInitialize 0 ∉ m'.trace ∧ MasterEvent.cbFinalize ∉ m'.trace ∧
      (exampleEnv 0 3 []).rank ≠ ID_Blackboard :=
  ⟨_, _, rfl, rfl, rfl, rfl, rfl, rfl, by decide, by decide, by decide⟩

/-- C22, amended. When the process count is sufficient, the constructor of the master runs
the `Initialize` callback on rank r, and its destructor the `Finalize` callback, if and
only if a callback object is supplied and r is greater than the blackboard rank: on every
worker rank, and neither on the controller rank 0 nor on the blackboard rank 1.
`Initialize` comes before the role of the process is created and `Finalize` is the last
thing before the transport is finalized; on a rank other than 0 the destructor always
returns. -/
theorem collective_callbacks_on_workers {σ : Type} (env : ProcessEnv σ) (useMinNumProc : Int)
    (useOutputMgr haveCollectiveCB : Bool) (logFileName : StdString) (m : Master σ)
    (hsize : max (ID_FirstTask + 1) useMinNumProc ≤ env.size) (hrank : 0 ≤ env.rank)
    (hnew : Master.new env useMinNumProc useOutputMgr haveCollectiveCB logFileName = .ok m) :
    (MasterEvent.cbInitialize env.rank ∈ m.trace
      ↔ (ID_Blackboard < env.rank ∧ haveCollectiveCB = true)) ∧
    (∀ m', m.destroy = .ok m' →
      (MasterEvent.cbFinalize ∈ m'.trace
        ↔ (ID_Blackboard < env.rank ∧ haveCollectiveCB = true)) ∧
      m'.trace = handlerLine env
        ++ (if ID_Blackboard < env.rank ∧ haveCollectiveCB = true then
              [.cbInitialize env.rank] else [])
        ++ (if ID_FirstTask ≤ env.rank then
              [.makeTask ("Task " ++ ToString env.rank) env.rank] else [])
        ++ (if ID_Blackboard < env.rank ∧ haveCollectiveCB = true then [.cbFinalize] else [])
        ++ [.mpiFinalize]) ∧
    (env.rank ≠ ID_Master → ∃ m', m.destroy = .ok m') := by
  have hfacts : m.id = env.rank ∧ m.haveCollectiveCB = haveCollectiveCB ∧
      m.trace = handlerLine env
        ++ (if ID_Blackboard < env.rank ∧ haveCollectiveCB = true then
              [.cbInitialize env.rank] else [])
        ++ (if ID_FirstTask ≤ env.rank then
              [.makeTask ("Task " ++ ToString env.rank) env.rank] else []) := by
    rw [master_new_creates env useMinNumProc useOutputMgr haveCollectiveCB logFileName hsize]
      at hnew
    by_cases h0 : env.rank = ID_Master
    · have hsz : ID_FirstTask ≤ env.size := by
        have h3 : (ID_FirstTask + 1 : Int) ≤ max (ID_FirstTask + 1) useMinNumProc :=
          le_max_left _ _
        have h4 : (2 : Int) + 1 ≤ env.size := le_trans h3 hsize
        show (2 : Int) ≤ env.size
        omega
      rw [createProcesses_controller env _ logFileName useOutputMgr h0 hsz] at hnew
      simp only [Except.ok.injEq] at hnew
      subst hnew
      have h2 : ¬ (ID_FirstTask ≤ env.rank) := by rw [h0]; decide
      exact ⟨rfl, rfl, by simp [masterBefore, h2]⟩
    · by_cases h1 : env.rank = ID_Blackboard
      · obtain ⟨bb0, bb, -, -, rfl⟩ :=
          createProcesses_blackboard env _ m logFileName useOutputMgr h1 hnew
        have h2 : ¬ (ID_FirstTask ≤ env.rank) := by rw [h1]; decide
        exact ⟨rfl, rfl, by simp [masterBefore, h2]⟩
      · have h2 : ID_FirstTask ≤ env.rank := by
          have ha : env.rank ≠ 0 := h0
          have hb : env.rank ≠ 1 := h1
          show (2 : Int) ≤ env.rank
          omega
        obtain ⟨task, -, rfl⟩ :=
          createProcesses_task env _ m logFileName useOutputMgr h2 hnew
        exact ⟨rfl, rfl, by simp [masterBefore, h2]⟩
  obtain ⟨hid, hcb, htrace⟩ := hfacts
  have hworker : ID_Blackboard < env.rank → ID_FirstTask ≤ env.rank := by
    intro h
    have : (1 : Int) < env.rank := h
    show (2 : Int) ≤ env.rank
    omega
  have hhandler : ∀ e, e ∈ handlerLine env → ∃ text, e = .print text := by
    intro e he
    unfold handlerLine at he
    split at he
    · simp at he
    · exact ⟨_, by simpa using he⟩
  refine ⟨?_, ?_, ?_⟩
  · rw [htrace]
    by_cases hc : ID_Blackboard < env.rank ∧ haveCollectiveCB = true
    · simp [hc]
    · simp only [hc, if_false, List.append_nil, iff_false, List.mem_append, not_or]
      refine ⟨fun he => ?_, ?_⟩
      · obtain ⟨text, ht⟩ := hhandler _ he
        exact absurd ht (by simp)
      · split <;> simp
  · intro m' hd
    have htr : m'.trace = m.trace
        ++ (if ID_Blackboard < env.rank ∧ haveCollectiveCB = true then [.cbFinalize] else [])
        ++ [.mpiFinalize] := by
      by_cases h0 : env.rank = ID_Master
      · have hnot : ¬ (ID_Blackboard < env.rank ∧ haveCollectiveCB = true) := by
          rw [h0]
          exact fun hc => absurd hc.1 (by decide)
        rw [master_destroy_controller m m' (hid.trans h0) hd]
        simp [hnot]
      · rw [master_destroy_worker m (by rw [hid]; exact h0)] at hd
        simp only [Except.ok.injEq] at hd
        subst hd
        simp [hid, hcb]
    refine ⟨?_, by rw [htr, htrace]⟩
    rw [htr, htrace]
    by_cases hc : ID_Blackboard < env.rank ∧ haveCollectiveCB = true
    · simp [hc]
    · simp only [hc, if_false, List.append_nil, iff_false, List.mem_append, not_or,
        List.mem_singleton]
      refine ⟨⟨fun he => ?_, ?_⟩, by simp⟩
      · obtain ⟨text, ht⟩ := hhandler _ he
        exact absurd ht (by simp)
      · split <;> simp
  · intro h0
    exact ⟨_, master_destroy_worker m (by rw [hid]; exact h0)⟩

/-- C22, amended, at a concrete input: rank 2 of three processes, with a callback object;
the task is initialized and started, completes and is destroyed. -/
theorem collective_callbacks_on_workers_witness :
    ∃ m m', Master.new (exampleEnv 2 3
        [⟨0, Tag_InitializeTask, .chars []⟩, ⟨0, Tag_StartTask, .chars []⟩]) 3 false true []
        = .ok m ∧
      m.destroy = .ok m' ∧
      m'.trace = [.cbInitialize 2, .makeTask "Task 2" 2, .cbFinalize, .mpiFinalize] ∧
      (MasterEvent.cbInitialize 2 ∈ m.trace ↔ (ID_Blackboard < (2 : Int) ∧ true = true)) := by
  have h : ∃ m, Master.new (exampleEnv 2 3
        [⟨0, Tag_InitializeTask, .chars []⟩, ⟨0, Tag_StartTask, .chars []⟩]) 3 false true []
        = .ok m := ⟨_, rfl⟩
  obtain ⟨m, hm⟩ := h
  have hthm := collective_callbacks_on_workers _ 3 false true [] m (by decide) (by decide) hm
  obtain ⟨m', hm'⟩ := hthm.2.2 (by decide)
  refine ⟨m, m', hm, hm', ?_, hthm.1⟩
  rw [(hthm.2.1 m' hm').2]
  rfl

/-! ## Controller: the broadcasts -/

theorem broadcast_foldl (tag : MsgTags) (l : List Int) (c : Controller) :
    l.foldl (fun c taskNum => c.emit (.send (c.idFirstTask + taskNum) tag (.chars []))) c
      = { c with trace := c.trace
            ++ l.map (fun taskNum => Event.send (c.idFirstTask + taskNum) tag (.chars [])) } := by
  induction l generalizing c with
  | nil => simp
  | cons n l ih =>
    rw [List.foldl_cons, ih]
    simp [Controller.emit]

theorem broadcast_eq (c : Controller) (tag : MsgTags) :
    c.broadcast tag
      = { c with trace := c.trace ++ broadcastSends c.idFirstTask c.pTracker.Size tag } := by
  unfold Controller.broadcast broadcastSends
  simp only [bind_pure_comp, List.map_eq_map]
  rw [broadcast_foldl]
  simp [List.map_map, Function.comp_def]

theorem initializeAllTasks_eq (c : Controller) :
    c.InitializeAllTasks
      = { c with trace := c.trace ++ [.timerStart, .hook .AtInitTasks]
            ++ broadcastSends c.idFirstTask c.pTracker.Size Tag_InitializeTask } := by
  simp [Controller.InitializeAllTasks, broadcast_eq, Controller.emit]

theorem startAllTasks_eq (c : Controller) :
    c.StartAllTasks
      = { c with trace := c.trace ++ [.hook .BeforeTasksStart]
            ++ broadcastSends c.idFirstTask c.pTracker.Size Tag_StartTask } := by
  simp [Controller.StartAllTasks, broadcast_eq, Controller.emit]

theorem filter_broadcast_init (idFirstTask : Int) (size : Nat) :
    (broadcastSends idFirstTask size Tag_InitializeTask).filter Event.isInitOrStartSend
      = broadcastSends idFirstTask size Tag_InitializeTask := by
  rw [List.filter_eq_self]
  intro e he
  simp only [broadcastSends, List.mem_map] at he
  obtain ⟨n, -, rfl⟩ := he
  rfl

theorem filter_broadcast_start (idFirstTask : Int) (size : Nat) :
    (broadcastSends idFirstTask size Tag_StartTask).filter Event.isInitOrStartSend
      = broadcastSends idFirstTask size Tag_StartTask := by
  rw [List.filter_eq_self]
  intro e he
  simp only [broadcastSends, List.mem_map] at he
  obtain ⟨n, -, rfl⟩ := he
  rfl

theorem filter_stopRequests (idFirstTask : Int) (states : List State) (taskNum : Nat) :
    (stopRequests idFirstTask states taskNum).filter Event.isInitOrStartSend = [] := by
  induction states generalizing taskNum with
  | nil => simp [stopRequests]
  | cons s states ih =>
    unfold stopRequests
    split
    · exact ih _
    · simp [List.filter_cons, Event.isInitOrStartSend, ih]

theorem stopBlackboard_facts (c : Controller) :
    (Controller.StopBlackboard c).idFirstTask = c.idFirstTask ∧
    (Controller.StopBlackboard c).trace.filter Event.isInitOrStartSend
      = c.trace.filter Event.isInitOrStartSend := by
  constructor
  · unfold Controller.StopBlackboard; split <;> rfl
  · rw [Controller.stopBlackboard_trace]
    split
    · rfl
    · simp [List.filter_append, List.filter_cons, Event.isInitOrStartSend]

theorem dispatch_facts (c c' : Controller) (status : Message)
    (h : Controller.Activate.dispatch c status = .ok c') :
    c'.idFirstTask = c.idFirstTask ∧ c'.pTracker.Size = c.pTracker.Size ∧
    c'.trace.filter Event.isInitOrStartSend = c.trace.filter Event.isInitOrStartSend := by
  unfold Controller.Activate.dispatch at h
  split at h
  · -- Tag_State
    unfold Controller.DoActionState at h
    split at h
    · simp only [Except.ok.injEq] at h; subst h; exact ⟨rfl, rfl, rfl⟩
    · split at h
      · unfold Controller.SetTaskState at h
        split at h
        · simp only at h
          split at h
          · split at h
            · exact absurd h (by simp)
            · rename_i old tracker hset
              simp only [Except.ok.injEq] at h
              subst h
              unfold Tracker.SetState at hset
              split at hset
              · simp only [Except.ok.injEq, Prod.mk.injEq] at hset
                obtain ⟨-, rfl⟩ := hset
                refine ⟨rfl, by simp [Tracker.Size], ?_⟩
                simp [Controller.emit, List.filter_append, List.filter_cons,
                  Event.isInitOrStartSend]
              · exact absurd hset (by simp)
          · simp only [Except.ok.injEq] at h
            subst h
            refine ⟨rfl, rfl, ?_⟩
            simp [Controller.emit, List.filter_append, List.filter_cons,
              Event.isInitOrStartSend]
        · exact absurd h (by simp)
      · simp only [Except.ok.injEq] at h; subst h; exact ⟨rfl, rfl, rfl⟩
  · split at h
    · -- Tag_RequestStop
      simp only [Controller.DoActionRequestStop, Controller.stopAllTasks_eq,
        Except.ok.injEq] at h
      subst h
      refine ⟨(stopBlackboard_facts _).1, ?_, ?_⟩
      · rw [Controller.stopBlackboard_pTracker]; rfl
      · rw [(stopBlackboard_facts _).2]
        simp [Controller.emit, List.filter_append, List.filter_cons, Event.isInitOrStartSend,
          filter_stopRequests]
    · split at h
      · simp only [Except.ok.injEq] at h
        subst h
        refine ⟨rfl, rfl, ?_⟩
        simp [Controller.DoActionRequestCmdLineArgs, Controller.emit, List.filter_append,
          List.filter_cons, Event.isInitOrStartSend]
      · split at h
        · simp only [Except.ok.injEq] at h
          subst h
          refine ⟨rfl, rfl, ?_⟩
          simp [Controller.DoActionRequestConfig, Controller.emit, List.filter_append,
            List.filter_cons, Event.isInitOrStartSend]
        · simp only [Except.ok.injEq] at h; subst h; exact ⟨rfl, rfl, rfl⟩

theorem finish_facts (c : Controller) :
    ((Controller.Activate.finish c).emit (.log "Controller stopped.")).trace.filter
        Event.isInitOrStartSend
      = c.trace.filter Event.isInitOrStartSend := by
  simp only [Controller.Activate.finish, Controller.emit_trace, List.filter_append,
    (stopBlackboard_facts _).2]
  simp [List.filter_cons, Event.isInitOrStartSend]

theorem created_not_initialized (t : Tracker) (hne : t.taskStateArray ≠ [])
    (h : t.AreAllCreated = true) : t.AreAllInitialized = false := by
  cases hl : t.taskStateArray with
  | nil => exact absurd hl hne
  | cons s rest =>
    have hc := (areAllCreated_loop_true t.taskStateArray).mp h
    rw [hl] at hc
    have hs : s = State_Created := hc s (List.mem_cons_self _ _)
    by_contra hcon
    have hi : t.AreAllInitialized = true := by simpa using hcon
    have hi' := (areAllInitialized_loop_true t.taskStateArray).mp hi
    rw [hl] at hi'
    have hs' : s = State_Initialized := hi' s (List.mem_cons_self _ _)
    rw [hs] at hs'
    exact absurd hs' (by decide)

theorem checkStates_flags (c : Controller) (f : Controller.Flags) :
    (Controller.Activate.checkStates c f).2
      = { tasksAreCreated := f.tasksAreCreated || c.pTracker.AreAllCreated,
          tasksAreInitialized :=
            f.tasksAreInitialized ||
              ((f.tasksAreCreated || c.pTracker.AreAllCreated) && c.pTracker.AreAllInitialized),
          tasksAreStarted :=
            f.tasksAreStarted || f.tasksAreInitialized ||
              ((f.tasksAreCreated || c.pTracker.AreAllCreated) && c.pTracker.AreAllInitialized),
          requestedInitAll :=
            f.requestedInitAll ||
              ((f.tasksAreCreated || c.pTracker.AreAllCreated) &&
                !(f.tasksAreInitialized ||
                  ((f.tasksAreCreated || c.pTracker.AreAllCreated)
                    && c.pTracker.AreAllInitialized))) } := by
  rcases f with ⟨f1, f2, f3, f4⟩
  simp only [Controller.Activate.checkStates]
  generalize c.pTracker.AreAllCreated = a
  generalize c.pTracker.AreAllInitialized = b
  cases f1 <;> cases f2 <;> cases f3 <;> cases f4 <;> cases a <;> cases b <;> rfl

theorem checkStates_trace (c : Controller) (f : Controller.Flags) :
    (Controller.Activate.checkStates c f).1.idFirstTask = c.idFirstTask ∧
    (Controller.Activate.checkStates c f).1.pTracker = c.pTracker ∧
    (Controller.Activate.checkStates c f).1.trace.filter Event.isInitOrStartSend
      = c.trace.filter Event.isInitOrStartSend
        ++ (if (!f.requestedInitAll
              && (Controller.Activate.checkStates c f).2.requestedInitAll) = true
            then broadcastSends c.idFirstTask c.pTracker.Size Tag_InitializeTask else [])
        ++ (if (!f.tasksAreStarted
              && (Controller.Activate.checkStates c f).2.tasksAreStarted) = true
            then broadcastSends c.idFirstTask c.pTracker.Size Tag_StartTask else []) := by
  rcases f with ⟨f1, f2, f3, f4⟩
  simp only [Controller.Activate.checkStates, initializeAllTasks_eq, startAllTasks_eq]
  generalize c.pTracker.AreAllCreated = a
  generalize c.pTracker.AreAllInitialized = b
  cases f1 <;> cases f2 <;> cases f3 <;> cases f4 <;> cases a <;> cases b <;>
    simp only [Bool.not_true, Bool.not_false, Bool.and_true, Bool.and_false, Bool.true_and,
      Bool.false_and, Bool.false_eq_true, if_true, if_false, List.append_nil] <;>
    (try split) <;>
    simp [List.filter_append, filter_broadcast_init, filter_broadcast_start, Controller.emit,
      Event.isInitOrStartSend]

theorem steady_turn (idFirstTask : Int) (size : Nat) (c : Controller) (f : Controller.Flags)
    (hsize : 0 < size) (h : Controller.Activate.Steady idFirstTask size c f) :
    (∀ status c1, Controller.Activate.dispatch (Controller.Activate.checkStates c f).1 status
        = .ok c1 →
      Controller.Activate.Steady idFirstTask size c1 (Controller.Activate.checkStates c f).2 ∧
      c1.trace.filter Event.isInitOrStartSend
        = (Controller.Activate.checkStates c f).1.trace.filter Event.isInitOrStartSend) ∧
    (c.trace.filter Event.isInitOrStartSend = [] ∨
      c.trace.filter Event.isInitOrStartSend
        = broadcastSends idFirstTask size Tag_InitializeTask ∨
      c.trace.filter Event.isInitOrStartSend
        = broadcastSends idFirstTask size Tag_InitializeTask
          ++ broadcastSends idFirstTask size Tag_StartTask) ∧
    ((Controller.Activate.checkStates c f).1.trace.filter Event.isInitOrStartSend = [] ∨
      (Controller.Activate.checkStates c f).1.trace.filter Event.isInitOrStartSend
        = broadcastSends idFirstTask size Tag_InitializeTask ∨
      (Controller.Activate.checkStates c f).1.trace.filter Event.isInitOrStartSend
        = broadcastSends idFirstTask size Tag_InitializeTask
          ++ broadcastSends idFirstTask size Tag_StartTask) ∧
    ((Controller.Activate.checkStates c f).1.trace.filter Event.isInitOrStartSend
        = c.trace.filter Event.isInitOrStartSend ∨
      (c.trace.filter Event.isInitOrStartSend = [] ∧
        (Controller.Activate.checkStates c f).1.trace.filter Event.isInitOrStartSend
          = broadcastSends idFirstTask size Tag_InitializeTask ∧
        c.pTracker.AreAllCreated = true) ∨
      (c.trace.filter Event.isInitOrStartSend
          = broadcastSends idFirstTask size Tag_InitializeTask ∧
        (Controller.Activate.checkStates c f).1.trace.filter Event.isInitOrStartSend
          = broadcastSends idFirstTask size Tag_InitializeTask
            ++ broadcastSends idFirstTask size Tag_StartTask ∧
        c.pTracker.AreAllInitialized = true)) := by
  obtain ⟨hid, hsz, htr, hI, hS, hC⟩ := h
  have hne : c.pTracker.taskStateArray ≠ [] := by
    intro hnil
    rw [← hsz] at hsize
    simp [Tracker.Size, hnil] at hsize
  have hci := created_not_initialized c.pTracker hne
  obtain ⟨hid1, htk1, htr1⟩ := checkStates_trace c f
  have hfl := checkStates_flags c f
  rw [hid, hsz] at htr1
  have key :
      ((Controller.Activate.checkStates c f).1.trace.filter Event.isInitOrStartSend
        = (if (Controller.Activate.checkStates c f).2.requestedInitAll
            then broadcastSends idFirstTask size Tag_InitializeTask else [])
          ++ (if (Controller.Activate.checkStates c f).2.tasksAreStarted
            then broadcastSends idFirstTask size Tag_StartTask else [])) ∧
      ((Controller.Activate.checkStates c f).2.tasksAreInitialized = true →
        (Controller.Activate.checkStates c f).2.requestedInitAll = true) ∧
      (Controller.Activate.checkStates c f).2.tasksAreStarted
        = (Controller.Activate.checkStates c f).2.tasksAreInitialized ∧
      ((Controller.Activate.checkStates c f).2.tasksAreCreated = true →
        (Controller.Activate.checkStates c f).2.requestedInitAll = true) ∧
      (f.requestedInitAll = false →
        (Controller.Activate.checkStates c f).2.requestedInitAll = true →
        c.pTracker.AreAllCreated = true ∧
        (Controller.Activate.checkStates c f).2.tasksAreStarted = false) ∧
      (f.tasksAreStarted = false →
        (Controller.Activate.checkStates c f).2.tasksAreStarted = true →
        c.pTracker.AreAllInitialized = true ∧ f.requestedInitAll = true) ∧
      (f.requestedInitAll = true →
        (Controller.Activate.checkStates c f).2.requestedInitAll = true) ∧
      (f.tasksAreStarted = true →
        (Controller.Activate.checkStates c f).2.tasksAreStarted = true) := by
    rw [htr1, htr, hfl]
    clear htr1 htr hfl hid1 htk1 hne hid hsz hsize
    rcases f with ⟨f1, f2, f3, f4⟩
    simp only at hI hS hC ⊢
    generalize broadcastSends idFirstTask size Tag_InitializeTask = inits
    generalize broadcastSends idFirstTask size Tag_StartTask = starts
    generalize c.pTracker.AreAllCreated = a at *
    generalize c.pTracker.AreAllInitialized = b at *
    clear c
    cases f1 <;> cases f2 <;> cases f3 <;> cases f4 <;> cases a <;> cases b <;>
      first
        | exact absurd hS (by decide)
        | exact absurd (hI rfl) (by decide)
        | exact absurd (hC rfl rfl) (by decide)
        | exact absurd (hci rfl) (by decide)
        | simp
  obtain ⟨k1, k2, k3, k4, k5, k6, k7, k8⟩ := key
  refine ⟨?_, ?_, ?_, ?_⟩
  · intro status c1 hd
    obtain ⟨d1, d2, d3⟩ := dispatch_facts _ _ _ hd
    refine ⟨⟨d1.trans (hid1.trans hid), ?_, d3.trans k1, k2, k3, ?_⟩, d3⟩
    · rw [d2, htk1]; exact hsz
    · intro hcr hreq
      rw [k4 hcr] at hreq
      exact absurd hreq (by simp)
  · rw [htr]
    cases h4 : f.requestedInitAll <;> cases h3 : f.tasksAreStarted <;> simp
    rw [hS] at h3
    have := hI h3
    rw [h4] at this
    exact absurd this (by simp)
  · rw [k1]
    cases h4 : (Controller.Activate.checkStates c f).2.requestedInitAll <;>
      cases h3 : (Controller.Activate.checkStates c f).2.tasksAreStarted <;> simp
    rw [k3] at h3
    have := k2 h3
    rw [h4] at this
    exact absurd this (by simp)
  · rw [k1, htr]
    have hS' : f.tasksAreStarted = true → f.requestedInitAll = true := fun h => hI (hS ▸ h)
    clear k1 k2 k3 k4 htr1 htr hfl hid1 htk1 hne hid hsz hsize hci hC hI hS
    generalize broadcastSends idFirstTask size Tag_InitializeTask = inits at *
    generalize broadcastSends idFirstTask size Tag_StartTask = starts at *
    generalize (Controller.Activate.checkStates c f).2.requestedInitAll = g4' at *
    generalize (Controller.Activate.checkStates c f).2.tasksAreStarted = g3' at *
    generalize f.requestedInitAll = g4 at *
    generalize f.tasksAreStarted = g3 at *
    generalize c.pTracker.AreAllCreated = a at *
    generalize c.pTracker.AreAllInitialized = b at *
    clear c f
    cases g4 <;> cases g3 <;> cases g4' <;> cases g3' <;>
      simp only [Bool.false_eq_true, if_false, if_true, List.append_nil, List.nil_append,
        true_and, and_true, true_or, or_true, forall_const, false_implies, implies_true,
        reduceCtorEq, and_false, false_and] at *
    all_goals first
      | exact Or.inr (Or.inl k5)
      | exact Or.inr (Or.inr k6)

theorem entry_steady (c0 : Controller)
    (hfresh : c0.trace.filter Event.isInitOrStartSend = []) :
    Controller.Activate.Steady c0.idFirstTask c0.pTracker.Size
      (Controller.Activate.entry c0).1 (Controller.Activate.entry c0).2 := by
  refine ⟨rfl, rfl, ?_, by simp [Controller.Activate.entry], rfl, ?_⟩
  · simp [Controller.Activate.entry, Controller.LogCmdLineArgs, Controller.emit,
      List.filter_append, hfresh, Event.isInitOrStartSend]
  · intro h _
    exact h

theorem headOfTurn_steady (idFirstTask : Int) (size : Nat) (hsize : 0 < size)
    (probes : List Message) (c : Controller) (f : Controller.Flags)
    (c' : Controller) (f' : Controller.Flags)
    (h : Controller.Activate.Steady idFirstTask size c f)
    (hhead : Controller.Activate.headOfTurn probes c f = some (c', f')) :
    Controller.Activate.Steady idFirstTask size c' f' := by
  induction probes generalizing c f with
  | nil =>
    simp only [Controller.Activate.headOfTurn, Option.some.injEq, Prod.mk.injEq] at hhead
    obtain ⟨rfl, rfl⟩ := hhead
    exact h
  | cons status probes ih =>
    unfold Controller.Activate.headOfTurn at hhead
    simp only at hhead
    split at hhead
    · exact absurd hhead (by simp)
    · rename_i c1 hd
      split at hhead
      · exact absurd hhead (by simp)
      · exact ih _ _ ((steady_turn idFirstTask size c f hsize h).1 status c1 hd).1 hhead

theorem loop_broadcasts (idFirstTask : Int) (size : Nat) (hsize : 0 < size)
    (probes : List Message) (c : Controller) (f : Controller.Flags) (c' : Controller)
    (h : Controller.Activate.Steady idFirstTask size c f)
    (hloop : Controller.Activate.loop probes c f = .ok c') :
    c'.trace.filter Event.isInitOrStartSend = [] ∨
    c'.trace.filter Event.isInitOrStartSend
      = broadcastSends idFirstTask size Tag_InitializeTask ∨
    c'.trace.filter Event.isInitOrStartSend
      = broadcastSends idFirstTask size Tag_InitializeTask
        ++ broadcastSends idFirstTask size Tag_StartTask := by
  induction probes generalizing c f with
  | nil => simp [Controller.Activate.loop] at hloop
  | cons status probes ih =>
    unfold Controller.Activate.loop at hloop
    simp only at hloop
    split at hloop
    · exact absurd hloop (by simp)
    · rename_i c1 hd
      obtain ⟨hstep, -, hT1, -⟩ := steady_turn idFirstTask size c f hsize h
      split at hloop
      · simp only [Except.ok.injEq] at hloop
        subst hloop
        rw [finish_facts, (hstep status c1 hd).2]
        exact hT1
      · exact ih _ _ (hstep status c1 hd).1 hloop

/-! ## Controller: statements about the broadcasts -/

/-- C27. A controller with at least one work task whose trace holds no broadcast yet runs
`Activate`. At the head of every turn of the loop (the turn that follows the turns for
the messages `probes`), what has been broadcast so far is nothing, or `Tag_InitializeTask`
once to each rank from `idFirstTask` on, one per tracker slot, or that followed by
`Tag_StartTask` once to each of the same ranks. The turn either broadcasts nothing, or
broadcasts `Tag_InitializeTask` when nothing was broadcast before and every tracker slot
is CREATED, or broadcasts `Tag_StartTask` when `Tag_InitializeTask` and nothing else was
broadcast before and every tracker slot is INITIALIZED; the handler of the message of the
turn broadcasts nothing. The same three possibilities are all there is in the trace of a
run of `Activate` that returns. -/
theorem controller_broadcasts_once (c0 : Controller) (probes : List Message) (c : Controller)
    (f : Controller.Flags) (hworkers : c0.pTracker.taskStateArray ≠ [])
    (hfresh : c0.trace.filter Event.isInitOrStartSend = [])
    (hhead : Controller.Activate.headOfTurn probes (Controller.Activate.entry c0).1
      (Controller.Activate.entry c0).2 = some (c, f)) :
    (c.trace.filter Event.isInitOrStartSend = [] ∨
      c.trace.filter Event.isInitOrStartSend
        = broadcastSends c0.idFirstTask c0.pTracker.Size Tag_InitializeTask ∨
      c.trace.filter Event.isInitOrStartSend
        = broadcastSends c0.idFirstTask c0.pTracker.Size Tag_InitializeTask
          ++ broadcastSends c0.idFirstTask c0.pTracker.Size Tag_StartTask) ∧
    ((Controller.Activate.checkStates c f).1.trace.filter Event.isInitOrStartSend
        = c.trace.filter Event.isInitOrStartSend ∨
      (c.trace.filter Event.isInitOrStartSend = [] ∧
        (Controller.Activate.checkStates c f).1.trace.filter Event.isInitOrStartSend
          = broadcastSends c0.idFirstTask c0.pTracker.Size Tag_InitializeTask ∧
        ∀ s ∈ c.pTracker.taskStateArray, s = State_Created) ∨
      (c.trace.filter Event.isInitOrStartSend
          = broadcastSends c0.idFirstTask c0.pTracker.Size Tag_InitializeTask ∧
        (Controller.Activate.checkStates c f).1.trace.filter Event.isInitOrStartSend
          = broadcastSends c0.idFirstTask c0.pTracker.Size Tag_InitializeTask
            ++ broadcastSends c0.idFirstTask c0.pTracker.Size Tag_StartTask ∧
        ∀ s ∈ c.pTracker.taskStateArray, s = State_Initialized)) ∧
    (∀ status c1,
      Controller.Activate.dispatch (Controller.Activate.checkStates c f).1 status = .ok c1 →
      c1.trace.filter Event.isInitOrStartSend
        = (Controller.Activate.checkStates c f).1.trace.filter Event.isInitOrStartSend) ∧
    (∀ msgs c', c0.Activate msgs = .ok c' →
      c'.trace.filter Event.isInitOrStartSend = [] ∨
      c'.trace.filter Event.isInitOrStartSend
        = broadcastSends c0.idFirstTask c0.pTracker.Size Tag_InitializeTask ∨
      c'.trace.filter Event.isInitOrStartSend
        = broadcastSends c0.idFirstTask c0.pTracker.Size Tag_InitializeTask
          ++ broadcastSends c0.idFirstTask c0.pTracker.Size Tag_StartTask) ∧
    c.pTracker.Size = c0.pTracker.Size ∧ c.idFirstTask = c0.idFirstTask := by
  have hsize : 0 < c0.pTracker.Size := by
    unfold Tracker.Size
    exact List.length_pos.mpr hworkers
  have hentry := entry_steady c0 hfresh
  have hst := headOfTurn_steady _ _ hsize probes _ _ c f hentry hhead
  obtain ⟨hstep, hT0, -, hturn⟩ := steady_turn _ _ c f hsize hst
  refine ⟨hT0, ?_, fun status c1 hd => (hstep status c1 hd).2, ?_, hst.2.1, hst.1⟩
  · rcases hturn with h | ⟨h1, h2, h3⟩ | ⟨h1, h2, h3⟩
    · exact Or.inl h
    · exact Or.inr (Or.inl ⟨h1, h2, (areAllCreated_loop_true _).mp h3⟩)
    · exact Or.inr (Or.inr ⟨h1, h2, (areAllInitialized_loop_true _).mp h3⟩)
  · intro msgs c' hrun
    exact loop_broadcasts _ _ hsize msgs _ _ c' hentry hrun

/-- C27, at a concrete input: one work task (rank 2) reports CREATED and then INITIALIZED.
The second turn broadcasts `Tag_InitializeTask`, and the third turn, at whose head the
trace holds that broadcast, broadcasts `Tag_StartTask`. -/
theorem controller_broadcasts_once_witness :
    ∃ c f, Controller.Activate.headOfTurn
        [⟨2, Tag_State, .ints [2, State_Created]⟩, ⟨2, Tag_State, .ints [2, State_Initialized]⟩]
        (Controller.Activate.entry
          { idFirstTask := 2, idBlackboard := 1, argv := [['p']],
            pTracker := ⟨[State_Unknown]⟩, pConfig := [], stateBB := State_Running,
            trace := [] }).1
        (Controller.Activate.entry
          { idFirstTask := 2, idBlackboard := 1, argv := [['p']],
            pTracker := ⟨[State_Unknown]⟩, pConfig := [], stateBB := State_Running,
            trace := [] }).2 = some (c, f) ∧
      c.trace.filter Event.isInitOrStartSend = [.send 2 Tag_InitializeTask (.chars [])] ∧
      (Controller.Activate.checkStates c f).1.trace.filter Event.isInitOrStartSend
        = [.send 2 Tag_InitializeTask (.chars []), .send 2 Tag_StartTask (.chars [])] ∧
      c.pTracker.Size = 1 ∧ c.idFirstTask = 2 := by
  have h : ∃ cf, Controller.Activate.headOfTurn
        [⟨2, Tag_State, .ints [2, State_Created]⟩, ⟨2, Tag_State, .ints [2, State_Initialized]⟩]
        (Controller.Activate.entry
          { idFirstTask := 2, idBlackboard := 1, argv := [['p']],
            pTracker := ⟨[State_Unknown]⟩, pConfig := [], stateBB := State_Running,
            trace := [] }).1
        (Controller.Activate.entry
          { idFirstTask := 2, idBlackboard := 1, argv := [['p']],
            pTracker := ⟨[State_Unknown]⟩, pConfig := [], stateBB := State_Running,
            trace := [] }).2 = some cf := ⟨_, rfl⟩
  obtain ⟨⟨c, f⟩, hcf⟩ := h
  have hthm := controller_broadcasts_once _ _ c f (by decide) (by decide) hcf
  have hval : (c, f) = (Controller.Activate.headOfTurn
        [⟨2, Tag_State, .ints [2, State_Created]⟩, ⟨2, Tag_State, .ints [2, State_Initialized]⟩]
        (Controller.Activate.entry
          { idFirstTask := 2, idBlackboard := 1, argv := [['p']],
            pTracker := ⟨[State_Unknown]⟩, pConfig := [], stateBB := State_Running,
            trace := [] }).1
        (Controller.Activate.entry
          { idFirstTask := 2, idBlackboard := 1, argv := [['p']],
            pTracker := ⟨[State_Unknown]⟩, pConfig := [], stateBB := State_Running,
            trace := [] }).2).get (by rfl) := by
    simp [hcf]
  have hc : c = (c, f).1 := rfl
  have hf : f = (c, f).2 := rfl
  refine ⟨c, f, hcf, ?_, ?_, hthm.2.2.2.2.1, hthm.2.2.2.2.2⟩
  · rw [hc, hval]; rfl
  · rw [hc, hf, hval]; rfl

theorem unknown_tracker_flags (t : Tracker) (hne : t.taskStateArray ≠ [])
    (hunk : ∀ s ∈ t.taskStateArray, s = State_Unknown) :
    t.AreAllCreated = false ∧ t.AreAllStopped = true := by
  constructor
  · cases hl : t.taskStateArray with
    | nil => exact absurd hl hne
    | cons s rest =>
      by_contra hcon
      have hc : t.AreAllCreated = true := by simpa using hcon
      have hc' := (areAllCreated_loop_true t.taskStateArray).mp hc
      rw [hl] at hc' hunk
      have h1 := hc' s (List.mem_cons_self _ _)
      have h2 := hunk s (List.mem_cons_self _ _)
      rw [h1] at h2
      exact absurd h2 (by decide)
  · rw [areAllStopped_iff]
    intro s hs
    exact Or.inl (hunk s hs)

/-- C28. A controller with at least one work task whose tracker still holds UNKNOWN in
every slot: when the handler of the first message leaves the tracker as it is, as the
handlers of `Tag_RequestCmdLineArgs`, of `Tag_RequestConfig` and of every tag without
handler do, `Activate` returns on its first turn; after the log of the arguments and the
before-tasks hook comes what the handler does, then the after-tasks hook, the two log
lines, the stop of the timer and the shutdown of the blackboard; nothing is broadcast,
neither `Tag_InitializeTask` nor `Tag_StartTask`, and the at-init and before-start hooks
do not run. -/
theorem controller_unknown_shutdown (c : Controller) (status : Message)
    (probes : List Message) (hworkers : c.pTracker.taskStateArray ≠ [])
    (hunk : ∀ s ∈ c.pTracker.taskStateArray, s = State_Unknown) :
    (∀ c2, Controller.Activate.dispatch ((c.LogCmdLineArgs).emit (.hook .BeforeTasks)) status
        = .ok c2 →
      c2.pTracker = c.pTracker →
      c.Activate (status :: probes)
        = .ok ((Controller.Activate.finish c2).emit (.log "Controller stopped.")) ∧
      ((Controller.Activate.finish c2).emit (.log "Controller stopped.")).trace
        = c2.trace ++ [.hook .AfterTasks, .log "Controller: all tasks are stopped.",
            .timerStop, .log "Elapsed time for all tasks (seconds): "]
          ++ (if c2.stateBB = State_Completed then []
              else [.send c2.idBlackboard Tag_StopBlackboard (.chars []),
                .recv c2.idBlackboard Tag_Confirmation, .sleep])
          ++ [.log "Controller stopped."] ∧
      ((Controller.Activate.finish c2).emit (.log "Controller stopped.")).trace.filter
          Event.isInitOrStartSend
        = c.trace.filter Event.isInitOrStartSend) ∧
    (status.tag ≠ Tag_State → status.tag ≠ Tag_RequestStop →
      ∃ c2, Controller.Activate.dispatch ((c.LogCmdLineArgs).emit (.hook .BeforeTasks)) status
          = .ok c2 ∧
        c2.pTracker = c.pTracker ∧ c2.stateBB = c.stateBB ∧
        c2.idBlackboard = c.idBlackboard ∧
        c2.trace = (c.LogCmdLineArgs).trace ++ [.hook .BeforeTasks]
          ++ (if status.tag = Tag_RequestCmdLineArgs then
                [.recv status.source Tag_RequestCmdLineArgs,
                  .send status.source Tag_CmdLineArgs
                    (.chars (JoinStrings [] c.pConfig NL_CHAR).1)]
              else if status.tag = Tag_RequestConfig then
                [.recv status.source Tag_RequestConfig]
              else [])) := by
  obtain ⟨hcreated, hstopped⟩ := unknown_tracker_flags c.pTracker hworkers hunk
  constructor
  · intro c2 hd htk
    have hcheck : Controller.Activate.checkStates ((c.LogCmdLineArgs).emit (.hook .BeforeTasks))
        { tasksAreCreated := c.pTracker.AreAllCreated, tasksAreInitialized := false,
          tasksAreStarted := false, requestedInitAll := false }
        = ((c.LogCmdLineArgs).emit (.hook .BeforeTasks),
          { tasksAreCreated := false, tasksAreInitialized := false,
            tasksAreStarted := false, requestedInitAll := false }) := by
      have hlog' : (c.LogCmdLineArgs).pTracker = c.pTracker := rfl
      simp [Controller.Activate.checkStates, hlog', hcreated]
    have hlog : (c.LogCmdLineArgs).pTracker = c.pTracker := rfl
    refine ⟨?_, ?_, ?_⟩
    · unfold Controller.Activate
      simp only [Controller.emit_pTracker, hlog]
      unfold Controller.Activate.loop
      simp only [hcheck, hd, htk, hstopped, if_true]
    · simp only [Controller.Activate.finish, Controller.emit_trace,
        Controller.stopBlackboard_trace, Controller.emit_stateBB, Controller.emit_idBlackboard]
      split <;> simp
    · rw [finish_facts, (dispatch_facts _ _ _ hd).2.2]
      simp [Controller.LogCmdLineArgs, Controller.emit, List.filter_append,
        Event.isInitOrStartSend]
  · intro h1 h2
    unfold Controller.Activate.dispatch
    simp only [h1, h2, if_false]
    by_cases h3 : status.tag = Tag_RequestCmdLineArgs
    · refine ⟨((c.LogCmdLineArgs).emit (.hook .BeforeTasks)).DoActionRequestCmdLineArgs status,
        by simp only [h3, if_true], rfl, rfl, rfl, ?_⟩
      simp [h3, Controller.DoActionRequestCmdLineArgs, Controller.LogCmdLineArgs,
        Controller.emit]
    · by_cases h4 : status.tag = Tag_RequestConfig
      · refine ⟨((c.LogCmdLineArgs).emit (.hook .BeforeTasks)).DoActionRequestConfig status,
          by rw [if_neg h3, if_pos h4], rfl, rfl, rfl, ?_⟩
        simp [h3, h4, Controller.DoActionRequestConfig, Controller.LogCmdLineArgs,
          Controller.emit]
      · refine ⟨(c.LogCmdLineArgs).emit (.hook .BeforeTasks),
          by simp only [h3, h4, if_false], rfl, rfl, rfl, ?_⟩
        simp [h3, h4, Controller.LogCmdLineArgs, Controller.emit]

/-- C28, at a concrete input: the controller of a job with one work task, as the master
creates it, gets a request for the command-line arguments from rank 2 first; `Activate`
returns after this one message without any broadcast. -/
theorem controller_unknown_shutdown_witness :
    Controller.Activate
        { idFirstTask := 2, idBlackboard := 1, argv := [['p'], ['-', 'n']],
          pTracker := ⟨[State_Unknown]⟩, pConfig := [['-', 'n']], stateBB := State_Running,
          trace := [] }
        [⟨2, Tag_RequestCmdLineArgs, .chars []⟩]
      = .ok
        { idFirstTask := 2, idBlackboard := 1, argv := [['p'], ['-', 'n']],
          pTracker := ⟨[State_Unknown]⟩, pConfig := [['-', 'n']], stateBB := State_Completed,
          trace := [.log "Command-line arguments: \n1: -n\n", .hook .BeforeTasks,
            .recv 2 Tag_RequestCmdLineArgs, .send 2 Tag_CmdLineArgs (.chars ['-', 'n']),
            .hook .AfterTasks, .log "Controller: all tasks are stopped.", .timerStop,
            .log "Elapsed time for all tasks (seconds): ",
            .send 1 Tag_StopBlackboard (.chars []), .recv 1 Tag_Confirmation, .sleep,
            .log "Controller stopped."] } := by
  have h := (controller_unknown_shutdown
    { idFirstTask := 2, idBlackboard := 1, argv := [['p'], ['-', 'n']],
      pTracker := ⟨[State_Unknown]⟩, pConfig := [['-', 'n']], stateBB := State_Running,
      trace := [] }
    ⟨2, Tag_RequestCmdLineArgs, .chars []⟩ [] (by decide) (by decide)).1 _ rfl rfl
  rw [h.1]
  rfl

/-! ## Blackboard: the turns the master allows -/

theorem blackboard_recv_head (bb : Blackboard) (status : Message) (rest : List Message)
    (hpend : bb.pending = status :: rest) :
    (bb.Recv status.source status.tag).pending = rest := by
  simp [Blackboard.Recv, hpend]

theorem blackboard_turn_progress (stamp : StdString) (bb bb1 : Blackboard) (status : Message)
    (rest : List Message) (hpend : bb.pending = status :: rest)
    (h : Blackboard.Activate.turn stamp bb status = .ok (bb1, false)) :
    bb1 = bb ∨ bb1.pending = rest := by
  unfold Blackboard.Activate.turn at h
  split at h
  · simp only [Except.ok.injEq, Prod.mk.injEq, and_true] at h
    subst h
    split
    · exact Or.inr (blackboard_recv_head bb status rest hpend)
    · exact Or.inl rfl
  · split at h
    · split at h
      · exact absurd h (by simp)
      · rename_i b hb
        simp only [Except.ok.injEq, Prod.mk.injEq, and_true] at h
        subst h
        unfold Blackboard.ReceiveAndLogMessage at hb
        split at hb
        · exact absurd hb (by simp)
        · simp only [Except.ok.injEq] at hb
          subst hb
          exact Or.inr (blackboard_recv_head bb status rest hpend)
    · split at h
      · split at h
        · exact absurd h (by simp)
        · rename_i b hb
          simp only [Except.ok.injEq, Prod.mk.injEq, and_true] at h
          subst h
          unfold Blackboard.ReceiveAndLogError at hb
          split at hb
          · exact absurd hb (by simp)
          · simp only [Except.ok.injEq] at hb
            subst hb
            exact Or.inr (blackboard_recv_head bb status rest hpend)
      · split at h
        · simp at h
        · simp only [Except.ok.injEq, Prod.mk.injEq, and_true] at h
          exact Or.inl h.symm

theorem blackboard_running_bound (stamp : StdString) (n : Nat) (bb : Blackboard)
    (hlen : bb.pending.length ≤ n)
    (h : ∃ bb', Blackboard.Activate stamp (n + 1) bb = .ok (.running bb')) :
    ∀ turns, ∃ bb', Blackboard.Activate stamp turns bb = .ok (.running bb') := by
  induction n generalizing bb with
  | zero =>
    obtain ⟨bb', h⟩ := h
    have hnil : bb.pending = [] := List.length_eq_zero.mp (Nat.le_zero.mp hlen)
    simp [Blackboard.Activate, hnil] at h
  | succ n ih =>
    obtain ⟨bb', h⟩ := h
    unfold Blackboard.Activate at h
    cases hp : bb.pending with
    | nil => simp [hp] at h
    | cons status rest =>
      simp only [hp] at h
      cases ht : Blackboard.Activate.turn stamp bb status with
      | error e => simp [ht] at h
      | ok r =>
        obtain ⟨bb1, b⟩ := r
        cases b with
        | true => simp [ht] at h
        | false =>
          simp only [ht] at h
          rcases blackboard_turn_progress stamp bb bb1 status rest hp ht with heq | hrest
          · subst heq
            intro turns
            exact ⟨_, blackboard_spins stamp bb1 status rest hp ht turns⟩
          · have hlen1 : bb1.pending.length ≤ n := by
              rw [hrest]
              rw [hp] at hlen
              simpa using hlen
            have hall := ih bb1 hlen1 ⟨bb', h⟩
            intro turns
            cases turns with
            | zero => exact ⟨bb, rfl⟩
            | succ t =>
              obtain ⟨b2, hb2⟩ := hall t
              refine ⟨b2, ?_⟩
              unfold Blackboard.Activate
              simp only [hp, ht]
              exact hb2

theorem blackboard_turns_allowed (stamp : StdString) (bb bb' : Blackboard)
    (h : Blackboard.Activate stamp (bb.pending.length + 1) bb = .ok (.running bb')) :
    ∀ turns, ∃ bb'', Blackboard.Activate stamp turns bb = .ok (.running bb'') :=
  blackboard_running_bound stamp bb.pending.length bb (le_refl _) ⟨bb', h⟩

end mtbmpi
